import Mathlib

set_option maxRecDepth 100000

/-!
Verification of the DocFlow backend's matching/merge core.

The definitions in this file are shallow embeddings of the Python source:
  * `src/services/lambda /lambda_handler.py`
      - `find_matching_vouchers_in_s3` (the MatchEngine)
      - `process_sqs_message` (the MergeOrchestrator, attachment branch)
  * `src/services/lambda /voucher_ocr_service_lambda_full.py`
      - `_convert_image_to_pdf`, `_merge_png_images_to_pdf` (PdfPageWriter)
      - `_extract_png_idat`, `_get_jpeg_dimensions` (ImageDecoder)
      - `_extract_images_from_pdf`, `_extract_first_page_only` (PdfImageExtractor)

Modelling conventions:
  * Python `bytes` are `List Nat` (each entry a byte value).
  * Python `str` fields are `List Char`.
  * Python `float` arithmetic is modelled with exact rationals `ℚ`.  Every
    concrete numeric input used in a theorem below is chosen far from any
    comparison boundary, so the binary64 rounding of CPython cannot flip
    any of the comparisons that the theorems evaluate.
  * Missing/empty metadata is `Option`; Python truthiness (`if s:`) maps an
    empty string to `none` via `truthy`.
-/

namespace DocFlow

abbrev Str := List Char

/-- Python truthiness for an optional string field: `None` and `""` are falsy. -/
def truthy : Option Str → Option Str
  | none => none
  | some s => if s = [] then none else some s

/-- ASCII whitespace as stripped by Python's `str.strip()` / `float()`. -/
def isPyWs (c : Char) : Bool :=
  c = ' ' || c = '\t' || c = '\n' || c = '\r' || c = '\x0b' || c = '\x0c'

/-- Python `str.strip()`. -/
def stripWs (s : Str) : Str :=
  ((s.dropWhile isPyWs).reverse.dropWhile isPyWs).reverse

/-- Python `s.replace(c, '')`: remove every occurrence of a single character. -/
def removeChar (s : Str) (c : Char) : Str :=
  s.filter (fun x => x ≠ c)

def isDigitChar (c : Char) : Bool := '0' ≤ c && c ≤ '9'

def digitVal (c : Char) : Nat := c.toNat - '0'.toNat

/-- Value of a digit string (most significant first). -/
def digitsToNat (ds : Str) : Nat :=
  ds.foldl (fun acc c => 10 * acc + digitVal c) 0

/-- Split a leading run of decimal digits. -/
def spanDigits (s : Str) : Str × Str :=
  (s.takeWhile isDigitChar, s.dropWhile isDigitChar)

/-!
`pyFloat?` models CPython's `float(str)` on the decimal-literal subset that
the OCR fields use: optional surrounding whitespace, optional sign, a digit
string with an optional fractional part (at least one digit overall), and an
optional decimal exponent.  The exact value of the literal is carried as a
scaled decimal `num / 10 ^ pow` (`Dec`), so that the source's float
comparisons can be evaluated exactly by integer cross-multiplication; the
interpretation into `ℚ` is `Dec.toQ`.  Every concrete literal appearing in
a theorem below is far enough from the comparison boundary that binary64
rounding cannot change the compared outcome.
-/

/-- An exact decimal value `num / 10 ^ pow`. -/
structure Dec where
  num : ℤ
  pow : Nat
deriving DecidableEq, Repr

/-- The rational value of a `Dec`. -/
def Dec.toQ (x : Dec) : ℚ := (x.num : ℚ) / (10 : ℚ) ^ x.pow

def parseUnsignedMantissa (s : Str) : Option (Dec × Str) :=
  let (ip, rest) := spanDigits s
  match rest with
  | '.' :: rest2 =>
      let (fp, rest3) := spanDigits rest2
      if ip = [] ∧ fp = [] then none
      else some (⟨(digitsToNat ip * 10 ^ fp.length + digitsToNat fp : ℕ), fp.length⟩, rest3)
  | _ =>
      if ip = [] then none
      else some (⟨(digitsToNat ip : ℕ), 0⟩, rest)

def parseExponent (s : Str) : Option (ℤ × Str) :=
  match s with
  | 'e' :: rest | 'E' :: rest =>
      let (sign, rest2) : ℤ × Str :=
        match rest with
        | '+' :: r => (1, r)
        | '-' :: r => (-1, r)
        | r => (1, r)
      let (ds, rest3) := spanDigits rest2
      if ds = [] then none else some (sign * (digitsToNat ds : ℤ), rest3)
  | _ => none

/-- Apply a decimal exponent to a mantissa. -/
def applyExponent (m : Dec) (e : ℤ) : Dec :=
  if 0 ≤ e then ⟨m.num * 10 ^ e.toNat, m.pow⟩ else ⟨m.num, m.pow + (-e).toNat⟩

def pyFloat? (s : Str) : Option Dec :=
  let t := stripWs s
  let (sign, t2) : ℤ × Str :=
    match t with
    | '+' :: r => (1, r)
    | '-' :: r => (-1, r)
    | r => (1, r)
  match parseUnsignedMantissa t2 with
  | none => none
  | some (m, rest) =>
      match parseExponent rest with
      | some (e, rest2) =>
          if rest2 = [] then some (applyExponent ⟨sign * m.num, m.pow⟩ e) else none
      | none => if rest = [] then some ⟨sign * m.num, m.pow⟩ else none

/-- Python `int(float(x))`: truncation toward zero
(T-division by the positive denominator). -/
def Dec.trunc (x : Dec) : ℤ := Int.tdiv x.num (10 ^ x.pow)

/-- Exact evaluation of the float comparison `abs(a - b) < 1 / 10 ^ k`. -/
def Dec.absSubLtPow (a b : Dec) (k : Nat) : Bool :=
  10 ^ k * (a.num * 10 ^ b.pow - b.num * 10 ^ a.pow).natAbs < 10 ^ (a.pow + b.pow)

/-- Exact evaluation of `0 < b` on decimals. -/
def Dec.pos (b : Dec) : Bool := 0 < b.num

/-- Exact evaluation of the float comparison `abs(a - b) / b ≤ 1 / 100`
(used only when `0 < b`). -/
def Dec.relDiffLePercent (a b : Dec) : Bool :=
  (100 : ℤ) * (a.num * 10 ^ b.pow - b.num * 10 ^ a.pow).natAbs ≤ 10 ^ a.pow * b.num

/-! ## Date parsing (CPython `strptime` on the five formats of the source)

`find_matching_vouchers_in_s3` tries, in order,
`"%d/%m/%Y"`, `"%d-%m-%Y"`, `"%d-%b-%y"`, `"%d-%b-%Y"`, `"%Y-%m-%d"`,
each against the whole string, and the first one that parses wins for each
side; a parsed value is compared as a calendar date.
-/

/-- CPython `_strptime` day field `(3[01]|[12]\d|0[1-9]|[1-9])`:
a two-digit run in 01..31 (leading-zero allowed, 00 excluded), otherwise a
single digit 1..9.  The formats in the source always follow the day with a
non-digit, so the alternation is deterministic. -/
def parseDayField (s : Str) : Option (Nat × Str) :=
  match s with
  | c1 :: c2 :: rest =>
      if isDigitChar c1 ∧ isDigitChar c2 then
        let v := 10 * digitVal c1 + digitVal c2
        if 1 ≤ v ∧ v ≤ 31 then some (v, rest) else none
      else if isDigitChar c1 ∧ 1 ≤ digitVal c1 then some (digitVal c1, c2 :: rest)
      else none
  | [c1] => if isDigitChar c1 ∧ 1 ≤ digitVal c1 then some (digitVal c1, []) else none
  | [] => none

/-- CPython month field `(1[0-2]|0[1-9]|[1-9])`. -/
def parseMonthField (s : Str) : Option (Nat × Str) :=
  match s with
  | c1 :: c2 :: rest =>
      if isDigitChar c1 ∧ isDigitChar c2 then
        let v := 10 * digitVal c1 + digitVal c2
        if 1 ≤ v ∧ v ≤ 12 then some (v, rest) else none
      else if isDigitChar c1 ∧ 1 ≤ digitVal c1 then some (digitVal c1, c2 :: rest)
      else none
  | [c1] => if isDigitChar c1 ∧ 1 ≤ digitVal c1 then some (digitVal c1, []) else none
  | [] => none

/-- CPython `%Y`: exactly four digits. -/
def parseYear4 (s : Str) : Option (Nat × Str) :=
  match s with
  | a :: b :: c :: d :: rest =>
      if isDigitChar a ∧ isDigitChar b ∧ isDigitChar c ∧ isDigitChar d then
        some (digitsToNat [a, b, c, d], rest)
      else none
  | _ => none

/-- CPython `%y`: exactly two digits; 00-68 map to 2000-2068, 69-99 to 1969-1999. -/
def parseYear2 (s : Str) : Option (Nat × Str) :=
  match s with
  | a :: b :: rest =>
      if isDigitChar a ∧ isDigitChar b then
        let v := digitsToNat [a, b]
        some (if v ≤ 68 then 2000 + v else 1900 + v, rest)
      else none
  | _ => none

def monthAbbrevs : List (Str × Nat) :=
  [(['j','a','n'], 1), (['f','e','b'], 2), (['m','a','r'], 3), (['a','p','r'], 4),
   (['m','a','y'], 5), (['j','u','n'], 6), (['j','u','l'], 7), (['a','u','g'], 8),
   (['s','e','p'], 9), (['o','c','t'], 10), (['n','o','v'], 11), (['d','e','c'], 12)]

/-- CPython `%b`: a three-letter month abbreviation, case-insensitive. -/
def parseMonthAbbrev (s : Str) : Option (Nat × Str) :=
  match s with
  | a :: b :: c :: rest =>
      match (monthAbbrevs.find? (fun p => p.1 = [a.toLower, b.toLower, c.toLower])) with
      | some p => some (p.2, rest)
      | none => none
  | _ => none

def isLeapYear (y : Nat) : Bool :=
  y % 4 = 0 && (y % 100 ≠ 0 || y % 400 = 0)

def daysInMonth (y m : Nat) : Nat :=
  if m = 2 then (if isLeapYear y then 29 else 28)
  else if m = 4 ∨ m = 6 ∨ m = 9 ∨ m = 11 then 30
  else 31

/-- `datetime(year, month, day)` validity (the regex already bounds month/day). -/
def validDate (y m d : Nat) : Bool :=
  1 ≤ y && 1 ≤ d && d ≤ daysInMonth y m

def expectChar (c : Char) (s : Str) : Option Str :=
  match s with
  | x :: rest => if x = c then some rest else none
  | [] => none

/-- A calendar date (year, month, day). -/
structure PyDate where
  year : Nat
  month : Nat
  day : Nat
deriving DecidableEq, Repr

def mkDate? (y m d : Nat) : Option PyDate :=
  if validDate y m d then some ⟨y, m, d⟩ else none

/-- `%d<sep>%m<sep>%Y` (formats `"%d/%m/%Y"` and `"%d-%m-%Y"`). -/
def parseDMY (sep : Char) (s : Str) : Option PyDate := do
  let (d, s1) ← parseDayField s
  let s2 ← expectChar sep s1
  let (m, s3) ← parseMonthField s2
  let s4 ← expectChar sep s3
  let (y, s5) ← parseYear4 s4
  if s5 = [] then mkDate? y m d else none

/-- `"%d-%b-%y"`. -/
def parseDMonY2 (s : Str) : Option PyDate := do
  let (d, s1) ← parseDayField s
  let s2 ← expectChar '-' s1
  let (m, s3) ← parseMonthAbbrev s2
  let s4 ← expectChar '-' s3
  let (y, s5) ← parseYear2 s4
  if s5 = [] then mkDate? y m d else none

/-- `"%d-%b-%Y"`. -/
def parseDMonY4 (s : Str) : Option PyDate := do
  let (d, s1) ← parseDayField s
  let s2 ← expectChar '-' s1
  let (m, s3) ← parseMonthAbbrev s2
  let s4 ← expectChar '-' s3
  let (y, s5) ← parseYear4 s4
  if s5 = [] then mkDate? y m d else none

/-- `"%Y-%m-%d"`. -/
def parseYMD (s : Str) : Option PyDate := do
  let (y, s1) ← parseYear4 s
  let s2 ← expectChar '-' s1
  let (m, s3) ← parseMonthField s2
  let s4 ← expectChar '-' s3
  let (d, s5) ← parseMonthField? s4
  if s5 = [] then mkDate? y m d else none
where parseMonthField? := parseDayField

/-- First format of the source's `date_formats` list that parses the string. -/
def parsePyDate (s : Str) : Option PyDate :=
  match parseDMY '/' s with
  | some d => some d
  | none =>
  match parseDMY '-' s with
  | some d => some d
  | none =>
  match parseDMonY2 s with
  | some d => some d
  | none =>
  match parseDMonY4 s with
  | some d => some d
  | none => parseYMD s

/-! ## MatchEngine (`find_matching_vouchers_in_s3`, lambda_handler.py:35-245)

The per-object body of the S3 listing loop is embedded as a pure decision on
one (candidate, stored-metadata) pair, and the listing loop itself as a
filter.  Candidate fields come from the OCR result; stored fields come from
the S3 object metadata of a previously organized voucher.
-/

/-- The matching criteria carried by an attachment candidate
(arguments `weight, purity, date, amount_usd, amount_aed`). -/
structure AttachmentCriteria where
  weight : Option Str
  purity : Option Str
  date : Option Str
  amountUsd : Option Str
  amountAed : Option Str
deriving DecidableEq, Repr

/-- One stored voucher object: its S3 key and the metadata fields read via
`head_object` (`classification`, `gold-weight`, `purity`, `document-date`,
`invoice-amount-usd`, `invoice-amount-aed`). -/
structure StoredVoucher where
  key : Str
  classification : Str
  goldWeight : Option Str
  purity : Option Str
  documentDate : Option Str
  amountUsd : Option Str
  amountAed : Option Str
deriving DecidableEq, Repr

/-- `valid_types = ['MPU', 'MPV', 'MRT', 'MSL', 'REC', 'PAY', 'MJV']`. -/
def validVoucherTypes : List Str :=
  [['M','P','U'], ['M','P','V'], ['M','R','T'], ['M','S','L'],
   ['R','E','C'], ['P','A','Y'], ['M','J','V']]

/-- CRITERION 0: the stored object must carry one of the seven voucher codes. -/
def classificationGate (v : StoredVoucher) : Bool :=
  validVoucherTypes.contains v.classification

/-- CRITERION 1 (`weight_matches`): both weights present, compared as
truncated integers after comma removal; on a float-parse failure, exact
string equality of the raw fields. -/
def weightCrit (c : AttachmentCriteria) (v : StoredVoucher) : Bool :=
  match truthy c.weight with
  | none => false
  | some w =>
    match truthy v.goldWeight with
    | none => false
    | some sw =>
      match pyFloat? (removeChar w ','), pyFloat? (removeChar sw ',') with
      | some a, some b => a.trunc = b.trunc
      | _, _ => w = sw

/-- CRITERION 2 (purity): skipped when either side is absent; otherwise the
`K`/`k`-stripped values must parse to floats within `1e-4`, with exact string
equality of the raw fields as the parse-failure fallback.  A failing check
makes the loop `continue`, i.e. rejects the stored voucher outright. -/
def purityGate (c : AttachmentCriteria) (v : StoredVoucher) : Bool :=
  match truthy c.purity with
  | none => true
  | some p =>
    match truthy v.purity with
    | none => true
    | some sp =>
      let cp := stripWs (removeChar (removeChar p 'K') 'k')
      let csp := stripWs (removeChar (removeChar sp 'K') 'k')
      match pyFloat? cp, pyFloat? csp with
      | some a, some b => a.absSubLtPow b 4
      | _, _ => p = sp

/-- CRITERION 3 (`date_matches`): both dates present and either the first
format (of the five) that parses each side yields the same calendar date, or
the raw strings are equal. -/
def dateCrit (c : AttachmentCriteria) (v : StoredVoucher) : Bool :=
  match truthy c.date, truthy v.documentDate with
  | some d, some sd =>
      (match parsePyDate d, parsePyDate sd with
       | some pd, some psd => pd = psd
       | _, _ => false) || d = sd
  | _, _ => false

/-- One currency of CRITERION 4: both amounts parse as floats, the stored
value is strictly positive, and the relative difference (measured against
the stored value) is at most 1%. -/
def amountTolOk (cur stored : Str) : Bool :=
  match pyFloat? cur, pyFloat? stored with
  | some c, some s => if s.pos then c.relDiffLePercent s else false
  | _, _ => false

/-- CRITERION 4, USD leg (`if amount_usd and stored_usd`). -/
def usdCrit (c : AttachmentCriteria) (v : StoredVoucher) : Bool :=
  match truthy c.amountUsd, truthy v.amountUsd with
  | some a, some b => amountTolOk a b
  | _, _ => false

/-- CRITERION 4, AED leg (`if not amount_matches and amount_aed and stored_aed`). -/
def aedCrit (c : AttachmentCriteria) (v : StoredVoucher) : Bool :=
  match truthy c.amountAed, truthy v.amountAed with
  | some a, some b => amountTolOk a b
  | _, _ => false

/-- `amount_matches` after both legs have run. -/
def amountCrit (c : AttachmentCriteria) (v : StoredVoucher) : Bool :=
  usdCrit c v || (!usdCrit c v && aedCrit c v)

/-- The complete per-object decision of the listing loop, in source order:
CRITERION 0 and the purity `continue` reject the object outright, and the
final check is `(weight_matches or amount_matches) and date_matches`. -/
def matchDecision (c : AttachmentCriteria) (v : StoredVoucher) : Bool :=
  if !classificationGate v then false
  else
    let weightM := weightCrit c v
    if !purityGate c v then false
    else
      let dateM := dateCrit c v
      let amountM := amountCrit c v
      (weightM || amountM) && dateM

/-- Python `s.endswith(t)`. -/
def endsWithStr (s t : Str) : Bool := t.isSuffixOf s

/-- `find_matching_vouchers_in_s3`: requires at least one of weight/amount,
then scans the listing, skipping the excluded key and non-`.pdf` keys, and
keeps the keys of objects accepted by `matchDecision`. -/
def findMatchingVouchers (c : AttachmentCriteria) (vouchers : List StoredVoucher)
    (excludeKey : Option Str) : List Str :=
  if truthy c.weight = none ∧ truthy c.amountUsd = none ∧ truthy c.amountAed = none then []
  else
    ((vouchers.filter (fun v =>
        !(excludeKey = some v.key) && endsWithStr v.key ['.','p','d','f']
          && matchDecision c v)).map (fun v => v.key))

/-! ## Bytes, ImageDecoder and PdfPageWriter
(`voucher_ocr_service_lambda_full.py`) -/

/-- Python `bytes`: a list of byte values. -/
abbrev Bytes := List Nat

/-- ASCII encoding of a literal (all builder literals are ASCII). -/
def asc (s : String) : Bytes := s.toList.map Char.toNat

/-- Decimal rendering, structured with an explicit recursion bound so that
it evaluates by kernel reduction.  The bound is always sufficient: each step
divides the argument by ten. -/
def natDigitsF : Nat → Nat → Bytes
  | 0, _ => []
  | fuel + 1, n => if n < 10 then [48 + n] else natDigitsF fuel (n / 10) ++ [48 + n % 10]

/-- Decimal rendering of a natural number, as ASCII bytes (Python `str(n)`
inside an f-string). -/
def natDigits (n : Nat) : Bytes := natDigitsF (n + 1) n

/-- Python `f'{n:010d}'`: zero-padded to (at least) ten digits. -/
def pad10 (n : Nat) : Bytes :=
  List.replicate (10 - (natDigits n).length) 48 ++ natDigits n

/-- Big-endian 32-bit read (`struct.unpack('>I', b[off:off+4])`). -/
def u32be (b : Bytes) (off : Nat) : Nat :=
  16777216 * b.getD off 0 + 65536 * b.getD (off + 1) 0
    + 256 * b.getD (off + 2) 0 + b.getD (off + 3) 0

/-- The 8-byte PNG signature `\x89PNG\r\n\x1a\n`. -/
def pngSig : Bytes := [0x89, 0x50, 0x4E, 0x47, 0x0D, 0x0A, 0x1A, 0x0A]

/-- `_extract_png_idat`'s chunk walk: concatenate the payloads of all `IDAT`
chunks, stopping at `IEND` or when fewer than 8 bytes remain.  The recursion
bound is sufficient because each step advances `pos` by at least 12. -/
def extractIdatLoopF : Nat → Bytes → Nat → Bytes → Bytes
  | 0, _, _, acc => acc
  | fuel + 1, b, pos, acc =>
    if pos + 8 ≤ b.length then
      let clen := u32be b pos
      let ctype := (b.drop (pos + 4)).take 4
      let acc2 := if ctype = asc "IDAT" then acc ++ ((b.drop (pos + 8)).take clen) else acc
      if ctype = asc "IEND" then acc2
      else extractIdatLoopF fuel b (pos + 4 + 4 + clen + 4) acc2
    else acc

def extractIdatLoop (b : Bytes) (pos : Nat) (acc : Bytes) : Bytes :=
  extractIdatLoopF (b.length + 1) b pos acc

/-- `_extract_png_idat`: `None` when the signature is missing or no IDAT data
was collected. -/
def extractPngIdat (b : Bytes) : Option Bytes :=
  if b.take 8 ≠ pngSig then none
  else
    let d := extractIdatLoop b 8 []
    if d = [] then none else some d

/-- Length of the `0xFF` run at `j`: the inner
`while i < len and jpeg_bytes[i] == 0xFF: i += 1` of `_get_jpeg_dimensions`
advances by exactly this amount.  The bound is sufficient because the run is
contained in the buffer. -/
def ffRunF : Nat → Bytes → Nat → Nat
  | 0, _, _ => 0
  | fuel + 1, b, j =>
    if j < b.length ∧ b.getD j 0 = 0xFF then 1 + ffRunF fuel b (j + 1) else 0

def ffRun (b : Bytes) (j : Nat) : Nat := ffRunF (b.length + 1) b j

/-- SOF markers: `0xC0-0xCF` except DHT `0xC4`, JPG `0xC8`, DAC `0xCC`. -/
def isSofMarker (m : Nat) : Bool :=
  0xC0 ≤ m && m ≤ 0xCF && m ≠ 0xC4 && m ≠ 0xC8 && m ≠ 0xCC

/-- The marker-scanning loop of `_get_jpeg_dimensions`.  `none` models the
`ValueError` raised when no SOF marker is found (or an index error occurs
while reading the dimensions). -/
def jpegLoopF : Nat → Bytes → Nat → Option (Nat × Nat)
  | 0, _, _ => none
  | fuel + 1, b, i =>
    if i < b.length - 10 then
      if b.getD i 0 ≠ 0xFF then jpegLoopF fuel b (i + 1)
      else
        let j := i + ffRun b i
        if j ≥ b.length then none
        else
          let marker := b.getD j 0
          let k := j + 1
          if isSofMarker marker ∧ k + 5 < b.length then
            if k + 6 < b.length then
              some (256 * b.getD (k + 5) 0 + b.getD (k + 6) 0,
                    256 * b.getD (k + 3) 0 + b.getD (k + 4) 0)
            else none
          else
            if k + 1 < b.length then
              jpegLoopF fuel b (k + (256 * b.getD k 0 + b.getD (k + 1) 0))
            else none
    else none

/-- The outer marker scan; the bound is sufficient because the scan position
strictly increases on every iteration and the loop stops at the buffer
end. -/
def jpegLoop (b : Bytes) (i : Nat) : Option (Nat × Nat) :=
  jpegLoopF (b.length + 1) b i

/-- `_get_jpeg_dimensions`: `(width, height)` of the first SOF frame. -/
def getJpegDims (b : Bytes) : Option (Nat × Nat) :=
  if b.take 2 ≠ [0xFF, 0xD8] then none else jpegLoop b 2

/-- `_convert_image_to_pdf`'s five-way PNG colour mapping:
`(colorspace, components)`. -/
def pngColorInfo (colorType : Nat) : Bytes × Nat :=
  if colorType = 0 then (asc "/DeviceGray", 1)
  else if colorType = 2 then (asc "/DeviceRGB", 3)
  else if colorType = 3 then (asc "/DeviceRGB", 3)
  else if colorType = 4 then (asc "/DeviceGray", 1)
  else if colorType = 6 then (asc "/DeviceRGB", 3)
  else (asc "/DeviceRGB", 3)

/-! ### Single-page builder (`_convert_image_to_pdf`) -/

def pdfHeader : Bytes := asc "%PDF-1.4\n%" ++ [0xE2, 0xE3, 0xCF, 0xD3] ++ asc "\n"

def catalogObj : Bytes := asc "1 0 obj\n<< /Type /Catalog /Pages 2 0 R >>\nendobj\n"

def pagesObjSingle : Bytes :=
  asc "2 0 obj\n<< /Type /Pages /Kids [3 0 R] /Count 1 >>\nendobj\n"

def pageObjSingle (w h : Nat) : Bytes :=
  asc "3 0 obj\n" ++ asc "<< /Type /Page /Parent 2 0 R /MediaBox [0 0 "
    ++ natDigits w ++ asc " " ++ natDigits h ++ asc "] "
    ++ asc "/Contents 4 0 R /Resources << /XObject << /Im1 5 0 R >> >> >>\nendobj\n"

/-- The page content stream `q\n{w} 0 0 {h} 0 0 cm\n/Im1 Do\nQ\n`. -/
def contentStream (w h : Nat) : Bytes :=
  asc "q\n" ++ natDigits w ++ asc " 0 0 " ++ natDigits h ++ asc " 0 0 cm\n/Im1 Do\nQ\n"

def contentObjSingle (w h : Nat) : Bytes :=
  asc "4 0 obj\n<< /Length " ++ natDigits (contentStream w h).length ++ asc " >>\nstream\n"
    ++ contentStream w h ++ asc "\nendstream\nendobj\n"

/-- The hard-coded PNG decode parameters of the single-page writer:
`/Predictor 15 /Colors 3 /BitsPerComponent 8 /Columns {width}`. -/
def decodeParmsSingle (w : Nat) : Bytes :=
  asc "/DecodeParms << /Predictor 15 /Colors 3 /BitsPerComponent 8 /Columns "
    ++ natDigits w ++ asc " >> "

def imageObjSingle (w h : Nat) (colorspace : Bytes) (bpc : Nat) (flate : Bool)
    (payload : Bytes) : Bytes :=
  asc "5 0 obj\n" ++ asc "<< /Type /XObject /Subtype /Image /Width " ++ natDigits w
    ++ asc " /Height " ++ natDigits h ++ asc " "
    ++ asc "/ColorSpace " ++ colorspace ++ asc " /BitsPerComponent " ++ natDigits bpc ++ asc " "
    ++ (if flate then asc "/Filter /FlateDecode " ++ decodeParmsSingle w
        else asc "/Filter /DCTDecode ")
    ++ asc "/Length " ++ natDigits payload.length ++ asc " >>\nstream\n"
    ++ payload ++ asc "\nendstream\nendobj\n"

def xrefRow (off : Nat) : Bytes := pad10 off ++ asc " 00000 n \n"

/-- The chunk list written by `_convert_image_to_pdf` (each Python `append`
of one object, consolidated per object so that the recorded offsets match). -/
def singlePageChunks (w h : Nat) (cs : Bytes) (bpc : Nat) (flate : Bool)
    (payload : Bytes) : List Bytes :=
  let c0 := pdfHeader
  let c1 := catalogObj
  let c2 := pagesObjSingle
  let c3 := pageObjSingle w h
  let c4 := contentObjSingle w h
  let c5 := imageObjSingle w h cs bpc flate payload
  let o1 := c0.length
  let o2 := o1 + c1.length
  let o3 := o2 + c2.length
  let o4 := o3 + c3.length
  let o5 := o4 + c4.length
  let xstart := o5 + c5.length
  let xr := asc "xref\n0 6\n0000000000 65535 f \n"
    ++ xrefRow o1 ++ xrefRow o2 ++ xrefRow o3 ++ xrefRow o4 ++ xrefRow o5
  let tr := asc "trailer\n<< /Size 6 /Root 1 0 R >>\nstartxref\n"
    ++ natDigits xstart ++ asc "\n%%EOF\n"
  [c0, c1, c2, c3, c4, c5, xr, tr]

/-- `_convert_image_to_pdf` on raw image bytes; `none` models every path on
which the Python function returns `None` (empty input, JPEG dimension
failure, short PNG header, missing IDAT data, unsupported format). -/
def convertImageToPdf (img : Bytes) : Option Bytes :=
  if img = [] then none
  else if img.take 2 = [0xFF, 0xD8] then
    match getJpegDims img with
    | none => none
    | some (w, h) =>
        some ((singlePageChunks w h (asc "/DeviceRGB") 8 false img).join)
  else if img.take 8 = pngSig then
    if img.length < 26 then none
    else
      let w := u32be img 16
      let h := u32be img 20
      let bitDepth := img.getD 24 0
      let colorType := img.getD 25 0
      match extractPngIdat img with
      | none => none
      | some idat =>
          some ((singlePageChunks w h (pngColorInfo colorType).1 bitDepth true idat).join)
  else none

/-! ### Multi-page builder (`_merge_png_images_to_pdf`) -/

/-- The per-page data collected by `_merge_png_images_to_pdf`'s first loop. -/
structure PageData where
  width : Nat
  height : Nat
  data : Bytes
  colorspace : Bytes
  bpc : Nat
  components : Nat
deriving DecidableEq, Repr

instance : Inhabited PageData := ⟨⟨0, 0, [], [], 0, 0⟩⟩

/-- The multi-page builder's three-way colour mapping (`0` → gray, `2` → RGB,
anything else → RGB). -/
def mergeColorInfo (colorType : Nat) : Bytes × Nat :=
  if colorType = 0 then (asc "/DeviceGray", 1)
  else if colorType = 2 then (asc "/DeviceRGB", 3)
  else (asc "/DeviceRGB", 3)

/-- One iteration of the PNG-preparation loop: `.ok none` is a skipped file
(bad signature or no IDAT), `.error` a raised exception (header too short
for the `struct.unpack`/indexing reads). -/
def pagePrep (png : Bytes) : Except String (Option PageData) :=
  if png.take 8 ≠ pngSig then .ok none
  else if png.length < 26 then .error "png header out of range"
  else
    let w := u32be png 16
    let h := u32be png 20
    let bitDepth := png.getD 24 0
    let colorType := png.getD 25 0
    match extractPngIdat png with
    | none => .ok none
    | some idat =>
        .ok (some ⟨w, h, idat, (mergeColorInfo colorType).1, bitDepth,
          (mergeColorInfo colorType).2⟩)

/-- The whole preparation loop, in input order. -/
def pagesData : List Bytes → Except String (List PageData)
  | [] => .ok []
  | p :: ps => do
      let r ← pagePrep p
      let rest ← pagesData ps
      match r with
      | none => pure rest
      | some pd => pure (pd :: rest)

/-- `' '.join(...)` over byte chunks. -/
def joinSep (sep : Bytes) : List Bytes → Bytes
  | [] => []
  | [x] => x
  | x :: y :: xs => x ++ sep ++ joinSep sep (y :: xs)

/-- `page_refs = ' '.join([f'{3+i} 0 R' for i in range(num_pages)])`. -/
def kidsRefs (n : Nat) : Bytes :=
  joinSep (asc " ") ((List.range n).map (fun i => natDigits (3 + i) ++ asc " 0 R"))

def pagesObjMulti (n : Nat) : Bytes :=
  asc "2 0 obj\n<< /Type /Pages /Kids [" ++ kidsRefs n ++ asc "] /Count "
    ++ natDigits n ++ asc " >>\nendobj\n"

def pageObjMulti (n i : Nat) (p : PageData) : Bytes :=
  natDigits (3 + i) ++ asc " 0 obj\n<< /Type /Page /Parent 2 0 R /MediaBox [0 0 "
    ++ natDigits p.width ++ asc " " ++ natDigits p.height ++ asc "] /Contents "
    ++ natDigits (3 + n + i) ++ asc " 0 R /Resources << /XObject << /Im1 "
    ++ natDigits (3 + 2 * n + i) ++ asc " 0 R >> >> >>\nendobj\n"

def contentObjMulti (n i : Nat) (p : PageData) : Bytes :=
  natDigits (3 + n + i) ++ asc " 0 obj\n<< /Length "
    ++ natDigits (contentStream p.width p.height).length ++ asc " >>\nstream\n"
    ++ contentStream p.width p.height ++ asc "\nendstream\nendobj\n"

/-- The multi-page image object: unlike the single-page writer, its
`/DecodeParms` uses the page's own component count and bit depth. -/
def imageObjMulti (n i : Nat) (p : PageData) : Bytes :=
  natDigits (3 + 2 * n + i)
    ++ asc " 0 obj\n<< /Type /XObject /Subtype /Image /Width " ++ natDigits p.width
    ++ asc " /Height " ++ natDigits p.height ++ asc " /ColorSpace " ++ p.colorspace
    ++ asc " /BitsPerComponent " ++ natDigits p.bpc
    ++ asc " /Filter /FlateDecode /DecodeParms << /Predictor 15 /Colors "
    ++ natDigits p.components ++ asc " /BitsPerComponent " ++ natDigits p.bpc
    ++ asc " /Columns " ++ natDigits p.width ++ asc " >> /Length "
    ++ natDigits p.data.length ++ asc " >>\nstream\n"
    ++ p.data ++ asc "\nendstream\nendobj\n"

/-- Offsets of consecutive chunks starting at a given base offset
(the `obj_offsets` bookkeeping of the source). -/
def chunkOffsets : List Bytes → Nat → List Nat
  | [], _ => []
  | c :: cs, off => off :: chunkOffsets cs (off + c.length)

/-- The object chunks (header, catalog, Pages, then per-page page, content
and image objects) appended by `_merge_png_images_to_pdf` before the
cross-reference table. -/
def multiBody (pages : List PageData) : List Bytes :=
  [pdfHeader, catalogObj, pagesObjMulti pages.length]
    ++ (List.range pages.length).map
        (fun i => pageObjMulti pages.length i (pages.getD i default))
    ++ (List.range pages.length).map
        (fun i => contentObjMulti pages.length i (pages.getD i default))
    ++ (List.range pages.length).map
        (fun i => imageObjMulti pages.length i (pages.getD i default))

/-- The cross-reference table (`obj_offsets` are the byte offsets recorded
before each object append). -/
def multiXref (pages : List PageData) : Bytes :=
  asc "xref\n0 " ++ natDigits (3 + 3 * pages.length) ++ asc "\n0000000000 65535 f \n"
    ++ ((chunkOffsets ((multiBody pages).drop 1) pdfHeader.length).map xrefRow).join

/-- The trailer (`xref_start` is the total length of the body). -/
def multiTrailer (pages : List PageData) : Bytes :=
  asc "trailer\n<< /Size " ++ natDigits (3 + 3 * pages.length)
    ++ asc " /Root 1 0 R >>\nstartxref\n"
    ++ natDigits (((multiBody pages).map List.length).sum) ++ asc "\n%%EOF\n"

/-- The chunk list written by `_merge_png_images_to_pdf` for `pages_data`. -/
def multiPageChunks (pages : List PageData) : List Bytes :=
  multiBody pages ++ [multiXref pages, multiTrailer pages]

/-- The `PageData` produced by the preparation loop for a valid PNG. -/
def pageOfPng (p : Bytes) : PageData :=
  ⟨u32be p 16, u32be p 20, (extractPngIdat p).getD [],
    (mergeColorInfo (p.getD 25 0)).1, p.getD 24 0, (mergeColorInfo (p.getD 25 0)).2⟩

/-- `_merge_png_images_to_pdf` on raw byte lists: `.error` models a raised
exception (re-raised by the function), `.ok none` the single-image delegate
returning `None`, `.ok (some bytes)` a produced PDF. -/
def mergePngImagesToPdf (pngs : List Bytes) : Except String (Option Bytes) :=
  if pngs = [] then .error "No PNG images to merge"
  else if pngs.length = 1 then .ok (convertImageToPdf (pngs.headD []))
  else
    match pagesData pngs with
    | .error e => .error e
    | .ok pages =>
        if pages = [] then .error "No valid PNG images to merge"
        else .ok (some (multiPageChunks pages).join)

/-! ### Byte-string scanning primitives (shared by the extractor model and
by observer predicates in the theorems) -/

/-- Pattern-first recursion for `hasPfxB` (so that applications with a
concrete pattern reduce definitionally even on a symbolic byte string). -/
def hasPfxBP : Bytes → Bytes → Bool
  | [], _ => true
  | _ :: _, [] => false
  | p :: ps, x :: xs => x = p && hasPfxBP ps xs

/-- `pat` is a leading segment of `b`. -/
def hasPfxB (b pat : Bytes) : Bool := hasPfxBP pat b

/-- `pat` occurs in `b` at position `p`. -/
def occursAtB (b : Bytes) (p : Nat) (pat : Bytes) : Bool :=
  hasPfxB (b.drop p) pat

def findSubAux : Bytes → Bytes → Nat → Option Nat
  | b, pat, p =>
    if hasPfxB b pat then some p
    else
      match b with
      | [] => none
      | _ :: rest => findSubAux rest pat (p + 1)

/-- Python `bytes.find(pat, start)`: the first position `≥ start` at which
`pat` occurs (`none` when absent). -/
def findSub (b pat : Bytes) (start : Nat) : Option Nat :=
  findSubAux (b.drop start) pat start

/-- `pat` occurs somewhere in `b`. -/
def containsSub (b pat : Bytes) : Bool := (findSub b pat 0).isSome

/-! ### Observers used to state structural properties of emitted PDF bytes
(these are not part of the source; they express, over raw bytes, the notions
"object number of an object chunk", "Kids array of a Pages object" that the
claims talk about) -/

def isDigitByte (x : Nat) : Bool := 48 ≤ x && x ≤ 57

/-- Value of an ASCII digit run. -/
def bytesToNat (ds : Bytes) : Nat := ds.foldl (fun acc d => 10 * acc + (d - 48)) 0

/-- The object number of a chunk of the form `{n} 0 obj\n...`. -/
def objNumOf (chunk : Bytes) : Option Nat :=
  let ds := chunk.takeWhile isDigitByte
  if ds ≠ [] ∧ hasPfxB (chunk.drop ds.length) (asc " 0 obj") = true
  then some (bytesToNat ds) else none

/-- Parse `{k} 0 R {k} 0 R ... {k} 0 R]`, returning the reference numbers in
order. -/
def parseKidsAux : Nat → Bytes → Option (List Nat)
  | 0, _ => none
  | fuel + 1, b =>
    let ds := b.takeWhile isDigitByte
    if ds = [] then none
    else
      let rest := b.drop ds.length
      if hasPfxB rest (asc " 0 R]") then some [bytesToNat ds]
      else if hasPfxB rest (asc " 0 R ") then
        match parseKidsAux fuel (rest.drop 5) with
        | some l => some (bytesToNat ds :: l)
        | none => none
      else none

/-- The object numbers listed by a `/Kids [...]` array, in order. -/
def kidsNumsOf (chunk : Bytes) : Option (List Nat) :=
  match findSub chunk (asc "/Kids [") 0 with
  | some p => parseKidsAux chunk.length (chunk.drop (p + 7))
  | none => none

/-! ## PdfImageExtractor
(`_extract_first_page_only`, `_extract_images_from_pdf`)

The source locates image objects with `re.search`.  The fixed patterns are
modelled as deterministic byte scanners; at every junction of the patterns
the adjacent character classes are disjoint (digits / whitespace / literal
bytes), so greedy scanning without backtracking matches CPython's regex
semantics on these patterns, and `re.search` is the scan of successive
start positions. -/

def isWsByte (x : Nat) : Bool :=
  x = 32 || x = 9 || x = 10 || x = 13 || x = 12 || x = 11

def isWordByte (x : Nat) : Bool :=
  isDigitByte x || (65 ≤ x && x ≤ 90) || (97 ≤ x && x ≤ 122) || x = 95

/-- `(\d+)`: a nonempty digit run. -/
def eatDigits1 (b : Bytes) : Option (Bytes × Bytes) :=
  let ds := b.takeWhile isDigitByte
  if ds = [] then none else some (ds, b.drop ds.length)

/-- `\s+`. -/
def eatWs1 (b : Bytes) : Option Bytes :=
  let ws := b.takeWhile isWsByte
  if ws = [] then none else some (b.drop ws.length)

/-- `\s*`. -/
def eatWs0 (b : Bytes) : Bytes := b.drop (b.takeWhile isWsByte).length

/-- A literal. -/
def eatLit (lit b : Bytes) : Option Bytes :=
  if hasPfxB b lit then some (b.drop lit.length) else none

/-- The shared head `(\d+)\s+0\s+obj\s*<<\s*/Type\s*/XObject\s*/Subtype\s*/Image\s*`
of both extractor patterns, at the start of `b`; returns the digit group and
the rest. -/
def matchImgHead (b : Bytes) : Option (Bytes × Bytes) := do
  let (ds, r1) ← eatDigits1 b
  let r2 ← eatWs1 r1
  let r3 ← eatLit (asc "0") r2
  let r4 ← eatWs1 r3
  let r5 ← eatLit (asc "obj") r4
  let r7 ← eatLit (asc "<<") (eatWs0 r5)
  let r9 ← eatLit (asc "/Type") (eatWs0 r7)
  let r11 ← eatLit (asc "/XObject") (eatWs0 r9)
  let r13 ← eatLit (asc "/Subtype") (eatWs0 r11)
  let r15 ← eatLit (asc "/Image") (eatWs0 r13)
  pure (ds, eatWs0 r15)

/-- `>>\s*stream\n` at the start of `b`. -/
def eatCloseStream (b : Bytes) : Option Bytes := do
  let r1 ← eatLit (asc ">>") b
  eatLit (asc "stream\n") (eatWs0 r1)

/-- The non-greedy `(.*?)>>\s*stream\n`: the shortest content before a
closing `>>\s*stream\n`; returns `(contentLength, rest)`. -/
def dotScan : Bytes → Nat → Option (Nat × Bytes)
  | [], k =>
    match eatCloseStream [] with
    | some r => some (k, r)
    | none => none
  | x :: rest, k =>
    match eatCloseStream (x :: rest) with
    | some r => some (k, r)
    | none => dotScan rest (k + 1)

/-- The full image pattern of `_extract_images_from_pdf`:
head, then `(.*?)>>\s*stream\n`; returns `(digits, dictContent, rest)`. -/
def matchImgFull (b : Bytes) : Option (Bytes × Bytes × Bytes) := do
  let (ds, r) ← matchImgHead b
  let (k, rest) ← dotScan r 0
  pure (ds, r.take k, rest)

/-- `re.search` for the full image pattern: successive start positions;
returns `(start, end, dictContent)` with positions relative to the scanned
buffer. -/
def searchImgAux : Bytes → Nat → Option (Nat × Nat × Bytes)
  | [], p =>
    match matchImgFull [] with
    | some (_, dict, rest) => some (p, p + (0 - rest.length), dict)
    | none => none
  | x :: r, p =>
    match matchImgFull (x :: r) with
    | some (_, dict, rest) => some (p, p + ((x :: r).length - rest.length), dict)
    | none => searchImgAux r (p + 1)

/-- `re.search` for the head-only start pattern of
`_extract_first_page_only`; returns `(start, end)`. -/
def searchHeadAux : Bytes → Nat → Option (Nat × Nat)
  | [], p =>
    match matchImgHead [] with
    | some (_, rest) => some (p, p + (0 - rest.length))
    | none => none
  | x :: r, p =>
    match matchImgHead (x :: r) with
    | some (_, rest) => some (p, p + ((x :: r).length - rest.length))
    | none => searchHeadAux r (p + 1)

/-- `re.search(rb'<key>\s+(\d+)', d)`. -/
def matchKeyNumAt (key b : Bytes) : Option Nat := do
  let r1 ← eatLit key b
  let r2 ← eatWs1 r1
  let (ds, _) ← eatDigits1 r2
  pure (bytesToNat ds)

def searchKeyNumAux (key : Bytes) : Bytes → Option Nat
  | [] =>
    match matchKeyNumAt key [] with
    | some v => some v
    | none => none
  | x :: r =>
    match matchKeyNumAt key (x :: r) with
    | some v => some v
    | none => searchKeyNumAux key r

def searchKeyNum (key d : Bytes) : Option Nat := searchKeyNumAux key d

/-- `re.search(rb'<key>\s*/(\w+)', d)`. -/
def matchKeyWordAt (key b : Bytes) : Option Bytes := do
  let r1 ← eatLit key b
  let r3 ← eatLit (asc "/") (eatWs0 r1)
  let ws := r3.takeWhile isWordByte
  if ws = [] then none else pure ws

def searchKeyWordAux (key : Bytes) : Bytes → Option Bytes
  | [] =>
    match matchKeyWordAt key [] with
    | some v => some v
    | none => none
  | x :: r =>
    match matchKeyWordAt key (x :: r) with
    | some v => some v
    | none => searchKeyWordAux key r

def searchKeyWord (key d : Bytes) : Option Bytes := searchKeyWordAux key d

/-- `re.search(rb'/DecodeParms\s*<<([^>]*?)>>', d)`: the raw inner content. -/
def matchDecodeParmsAt (b : Bytes) : Option Bytes := do
  let r1 ← eatLit (asc "/DecodeParms") b
  let r3 ← eatLit (asc "<<") (eatWs0 r1)
  let content := r3.takeWhile (fun x => x ≠ 62)
  let _ ← eatLit (asc ">>") (r3.drop content.length)
  pure content

def searchDecodeParmsAux : Bytes → Option Bytes
  | [] =>
    match matchDecodeParmsAt [] with
    | some v => some v
    | none => none
  | x :: r =>
    match matchDecodeParmsAt (x :: r) with
    | some v => some v
    | none => searchDecodeParmsAux r

/-- Python `bytes.strip()` on ASCII. -/
def stripWsB (b : Bytes) : Bytes :=
  ((b.dropWhile isWsByte).reverse.dropWhile isWsByte).reverse

/-- `decode_params_dict = f'<< {params_content} >>'` when present. -/
def searchDecodeParms (d : Bytes) : Option Bytes :=
  match searchDecodeParmsAux d with
  | some content => some (asc "<< " ++ stripWsB content ++ asc " >>")
  | none => none

/-- One image record of `_extract_images_from_pdf`. -/
structure ExtractedImage where
  data : Bytes
  width : Nat
  height : Nat
  isPng : Bool
  isJpeg : Bool
  filterName : Option Bytes
  colorspace : Bytes
  bpc : Nat
  decodeParams : Option Bytes
deriving DecidableEq, Repr

/-- The scan loop of `_extract_images_from_pdf`.  The recursion bound is
sufficient because the scan position strictly increases on every
iteration. -/
def extractImagesLoopF : Nat → Bytes → Nat → List ExtractedImage → List ExtractedImage
  | 0, _, _, acc => acc
  | fuel + 1, b, pos, acc =>
    match searchImgAux (b.drop pos) 0 with
    | none => acc
    | some (srel, erel, dict) =>
      match searchKeyNum (asc "/Width") dict, searchKeyNum (asc "/Height") dict with
      | some w, some h =>
        match findSub b (asc ">>\nstream\n") (pos + srel) with
        | none => extractImagesLoopF fuel b (pos + erel) acc
        | some spos =>
          match searchKeyNum (asc "/Length") dict with
          | none => extractImagesLoopF fuel b (pos + erel) acc
          | some L =>
            if spos + 10 + L > b.length then extractImagesLoopF fuel b (pos + erel) acc
            else if 0 < L then
              let imageData := (b.drop (spos + 10)).take L
              let filt := searchKeyWord (asc "/Filter") dict
              let acc2 :=
                if 1000 < imageData.length then
                  acc ++ [⟨imageData, w, h, filt == some (asc "FlateDecode"),
                    filt == some (asc "DCTDecode"), filt,
                    (searchKeyWord (asc "/ColorSpace") dict).getD (asc "DeviceRGB"),
                    (searchKeyNum (asc "/BitsPerComponent") dict).getD 8,
                    searchDecodeParms dict⟩]
                else acc
              match findSub b (asc "endstream") (spos + 10 + L) with
              | none => extractImagesLoopF fuel b (spos + 10 + L) acc2
              | some em => extractImagesLoopF fuel b (em + 9) acc2
            else extractImagesLoopF fuel b (pos + erel) acc
      | _, _ => extractImagesLoopF fuel b (pos + erel) acc

/-- `_extract_images_from_pdf` on raw bytes. -/
def extractImagesFromPdf (b : Bytes) : List ExtractedImage :=
  extractImagesLoopF (b.length + 1) b 0 []

/-- The explicit depth-counting dictionary scan of
`_extract_first_page_only` (`<<` is +1, `>>` is −1, one byte otherwise);
returns `(dict_end, depth)`. -/
def depthScanF : Nat → Bytes → Nat → Nat → Nat × Nat
  | 0, _, e, d => (e, d)
  | fuel + 1, b, e, d =>
    if e < b.length ∧ 0 < d then
      if (b.drop e).take 2 = asc "<<" then depthScanF fuel b (e + 2) (d + 1)
      else if (b.drop e).take 2 = asc ">>" then depthScanF fuel b (e + 2) (d - 1)
      else depthScanF fuel b (e + 1) d
    else (e, d)

/-- The page/content/image objects rebuilt by `_extract_first_page_only`
around the byte-for-byte copied image object. -/
def firstPageRebuild (w h : Nat) (objDict streamData : Bytes) : Bytes :=
  let c0 := pdfHeader
  let c1 := catalogObj
  let c2 := pagesObjSingle
  let c3 := asc "3 0 obj\n<< /Type /Page /Parent 2 0 R /MediaBox [0 0 " ++ natDigits w
    ++ asc " " ++ natDigits h
    ++ asc "] /Contents 4 0 R /Resources << /XObject << /Im1 5 0 R >> >> >>\nendobj\n"
  let c4 := contentObjSingle w h
  let c5 := asc "5 0 obj\n<< /Type /XObject /Subtype /Image " ++ objDict
    ++ asc ">>\nstream\n" ++ streamData ++ asc "\nendstream\nendobj\n"
  let xstart := c0.length + c1.length + c2.length + c3.length + c4.length + c5.length
  let xr := asc "xref\n0 6\n0000000000 65535 f \n"
    ++ xrefRow 0 ++ xrefRow c0.length ++ xrefRow (c0.length + c1.length)
    ++ xrefRow (c0.length + c1.length + c2.length)
    ++ xrefRow (c0.length + c1.length + c2.length + c3.length)
    ++ xrefRow (c0.length + c1.length + c2.length + c3.length + c4.length)
  let tr := asc "trailer\n<< /Size 6 /Root 1 0 R >>\nstartxref\n"
    ++ natDigits xstart ++ asc "\n%%EOF\n"
  c0 ++ c1 ++ c2 ++ c3 ++ c4 ++ c5 ++ xr ++ tr

/-- `_extract_first_page_only` on raw bytes: the output bytes plus a flag
recording whether a degraded (pass-the-input-through) path was taken. -/
def extractFirstPageOnly (b : Bytes) : Bytes × Bool :=
  match searchHeadAux b 0 with
  | none => (b, true)
  | some (s, e) =>
    match depthScanF (b.length + 1) b e 1 with
    | (dpos, depth) =>
    if depth ≠ 0 then (b, true)
    else
      let objDict := (b.drop e).take (dpos - 2 - e)
      match findSub b (asc ">>\nstream\n") s with
      | none => (b, true)
      | some spos =>
        match searchKeyNum (asc "/Length") objDict with
        | none => (b, true)
        | some L =>
          if spos + 10 + L > b.length then (b, true)
          else
            let streamData := (b.drop (spos + 10)).take L
            match searchKeyNum (asc "/Width") objDict,
                searchKeyNum (asc "/Height") objDict with
            | some w, some h => (firstPageRebuild w h objDict streamData, false)
            | some _, none => (b, true)
            | none, some _ => (b, true)
            | none, none => (b, true)

/-! ### Concrete images used by the claim theorems -/

/-- A tiny valid grayscale PNG: 2×3, bit depth 8, colour type 0 (grayscale),
one IDAT chunk with payload `[9, 8, 7, 6, 5]`.  (The IDAT payload and CRCs
need not be meaningful: the converter never inflates the payload.) -/
def tinyGrayPng : Bytes :=
  pngSig ++ [0, 0, 0, 13] ++ asc "IHDR"
    ++ [0, 0, 0, 2, 0, 0, 0, 3, 8, 0, 0, 0, 0] ++ [0, 0, 0, 0]
    ++ [0, 0, 0, 5] ++ asc "IDAT" ++ [9, 8, 7, 6, 5] ++ [0, 0, 0, 0]
    ++ [0, 0, 0, 0] ++ asc "IEND" ++ [0, 0, 0, 0]

/-! ## MergeOrchestrator (attachment branch of `process_sqs_message`,
lambda_handler.py)

The S3 bucket is modelled as an association list from keys to objects
(body bytes plus the metadata fields the orchestrator reads); `put_object`
overwrites in place, `delete_object` removes, and listing a prefix returns
the stored keys with that prefix.  Keys listed from the store always
resolve, so the per-key `except … continue` around the downloads never
fires in the model. -/

def hasPfxC : Str → Str → Bool
  | _, [] => true
  | [], _ :: _ => false
  | c :: cs, p :: ps => c = p && hasPfxC cs ps

/-- Python `pat in s` (substring test). -/
def containsC : Str → Str → Bool
  | [], pat => hasPfxC [] pat
  | c :: cs, pat => hasPfxC (c :: cs) pat || containsC cs pat

/-- Python `s.replace(pat, repl)` (left-to-right, non-overlapping).  The
recursion bound is sufficient because each step consumes at least one
character of a nonempty `s`. -/
def replaceSubCF : Nat → Str → Str → Str → Str
  | 0, s, _, _ => s
  | fuel + 1, s, pat, repl =>
    if hasPfxC s pat ∧ pat ≠ [] then repl ++ replaceSubCF fuel (s.drop pat.length) pat repl
    else
      match s with
      | [] => []
      | c :: r => c :: replaceSubCF fuel r pat repl

def replaceSubC (s pat repl : Str) : Str := replaceSubCF (s.length + 1) s pat repl

/-- Python `s.split(sep)` for a single-character separator. -/
def splitOnC (sep : Char) : Str → List Str
  | [] => [[]]
  | c :: r =>
    let rest := splitOnC sep r
    if c = sep then [] :: rest
    else
      match rest with
      | [] => [[c]]
      | h :: t => (c :: h) :: t

def joinWithC (sep : Char) : List Str → Str
  | [] => []
  | [x] => x
  | x :: y :: t => x ++ [sep] ++ joinWithC sep (y :: t)

/-- `'/'.join(match_key.split('/')[:-1])`. -/
def dirOf (k : Str) : Str := joinWithC '/' ((splitOnC '/' k).dropLast)

/-- Lexicographic strict order on strings by code point (Python `<`). -/
def strLtC : Str → Str → Bool
  | [], [] => false
  | [], _ :: _ => true
  | _ :: _, [] => false
  | a :: as, b :: bs =>
    if a.toNat < b.toNat then true
    else if b.toNat < a.toNat then false
    else strLtC as bs

/-- The sort key of `found_pngs.sort(key=…)`: originals first, then
lexicographic. -/
def pngKeyLt (x y : Str) : Bool :=
  let fx : Nat := if containsC x ("_original.png".toList) then 0 else 1
  let fy : Nat := if containsC y ("_original.png".toList) then 0 else 1
  if fx < fy then true else if fy < fx then false else strLtC x y

/-- Stable insertion of `x` after every strictly smaller element. -/
def insertSortedBy (lt : Str → Str → Bool) (x : Str) : List Str → List Str
  | [] => [x]
  | y :: ys => if lt y x then y :: insertSortedBy lt x ys else x :: y :: ys

/-- Python's stable ascending sort under the strict order `pngKeyLt`. -/
def sortPngsList (ks : List Str) : List Str := ks.foldr (insertSortedBy pngKeyLt) []

def natDigitsC (n : Nat) : Str := (natDigits n).map Char.ofNat

/-- `re.search(r'_attachment_(\d+)\.png', key)` matched at the start. -/
def matchAttachNumAt (s : Str) : Option Nat :=
  if hasPfxC s ("_attachment_".toList) then
    let r := s.drop 12
    let ds := r.takeWhile isDigitChar
    if ds = [] then none
    else if hasPfxC (r.drop ds.length) (".png".toList) then some (digitsToNat ds)
    else none
  else none

def findAttachNum : Str → Option Nat
  | [] =>
    match matchAttachNumAt [] with
    | some v => some v
    | none => none
  | c :: r =>
    match matchAttachNumAt (c :: r) with
    | some v => some v
    | none => findAttachNum r

def toLowerStr (s : Str) : Str := s.map Char.toLower

/-- The metadata fields the orchestrator reads or writes, plus the passed-
through remainder of the metadata dictionary. -/
structure ObjMeta where
  documentNo : Option Str
  classification : Option Str
  documentDate : Option Str
  rest : List (Str × Str)
deriving DecidableEq, Repr

def ObjMeta.empty : ObjMeta := ⟨none, none, none, []⟩

structure S3Obj where
  body : Bytes
  meta : ObjMeta
deriving DecidableEq, Repr

/-- The modelled bucket. -/
abbrev Store := List (Str × S3Obj)

def getObj : Store → Str → Option S3Obj
  | [], _ => none
  | (k', o) :: rest, k => if k' = k then some o else getObj rest k

def putObj : Store → Str → S3Obj → Store
  | [], k, o => [(k, o)]
  | (k', o') :: rest, k, o =>
    if k' = k then (k, o) :: rest else (k', o') :: putObj rest k o

def delObj (st : Store) (k : Str) : Store := st.filter (fun e => e.1 ≠ k)

def listKeys (st : Store) (pfx : Str) : List Str :=
  (st.map Prod.fst).filter (fun k => hasPfxC k pfx)

/-- The PNG ledger of a matched voucher: every `.png` key in its directory
containing the voucher's base name, originals first then lexicographic. -/
def ledgerPngs (st : Store) (mk : Str) : List Str :=
  sortPngsList ((listKeys st (dirOf mk ++ ['/'])).filter
    (fun k => endsWithStr k (".png".toList) && containsC k (replaceSubC mk (".pdf".toList) [])))

def ledgerImages (st : Store) (mk : Str) : List Bytes :=
  (ledgerPngs st mk).filterMap (fun k => (getObj st k).map S3Obj.body)

/-- The duplicate check for one matched voucher: some already-stored
`_attachment_` entry has the candidate's document number, or (fallback)
exactly the candidate's byte size. -/
def dupInLedger (st : Store) (mk : Str) (docNo : Str) (size : Nat) : Bool :=
  (ledgerPngs st mk).any (fun k =>
    containsC k ("_attachment_".toList) &&
    match getObj st k with
    | some o =>
      (match o.meta.documentNo with
       | some ex => if ex ≠ [] ∧ ex = docNo then true else o.body.length = size
       | none => o.body.length = size)
    | none => false)

/-- Phase A (steps 3-4): per matched key, list and sort the ledger PNGs,
run the duplicate check (only when the candidate has a document number),
and collect the ledger images; a detected duplicate breaks the loop. -/
def collectPhase (st : Store) (docNoT : Option Str) (size : Nat) :
    List Str → List Bytes × Bool
  | [] => ([], false)
  | mk :: rest =>
    if (match docNoT with
        | some d => dupInLedger st mk d size
        | none => false) then ([], true)
    else
      let imgs := ledgerImages st mk
      let pr := collectPhase st docNoT size rest
      (imgs ++ pr.1, pr.2)

/-- `attachment_num`: one past the highest `_attachment_N.png` in the
directory listing (at least 1). -/
def nextAttachmentNum (st : Store) (dir : Str) : Nat :=
  (listKeys st (dir ++ ['/'])).foldl
    (fun acc k =>
      if containsC k ("_attachment_".toList) then
        match findAttachNum k with
        | some num => max acc (num + 1)
        | none => acc
      else acc) 1

structure MergeInput where
  matchingKeys : List Str
  candBytes : Bytes
  candDocNo : Option Str
  candClassification : Option Str
  candDate : Option Str
  tempKey : Str
  batchId : Option Str
deriving DecidableEq, Repr

inductive MergeOutcome where
  | duplicateSkipped
  | noLedgerImages
  | merged
  | mergeFailed
deriving DecidableEq, Repr

/-- `if batch_id and batch_id.lower() != 'unknown'`. -/
def batchIdOk (b : Option Str) : Bool :=
  match b with
  | some bid => bid ≠ [] && toLowerStr bid ≠ ("unknown".toList)
  | none => false

/-- The attachment metadata: the original voucher's metadata with the
candidate's document number / classification / date written over it (each
only when truthy). -/
def attachmentMeta (orig : ObjMeta) (inp : MergeInput) : ObjMeta :=
  { orig with
    documentNo := match truthy inp.candDocNo with
      | some d => some d
      | none => orig.documentNo,
    classification := match truthy inp.candClassification with
      | some c => some c
      | none => orig.classification,
    documentDate := match truthy inp.candDate with
      | some d => some d
      | none => orig.documentDate }

/-- `orig_metadata` for one matched key (`{}` when the head request fails). -/
def origMetaOf (st : Store) (mk : Str) : ObjMeta :=
  match getObj st mk with
  | some o => o.meta
  | none => ObjMeta.empty

/-- `attachment_png_key = match_key.replace('.pdf', f'_attachment_{n}.png')`. -/
def apngKeyOf (st : Store) (mk : Str) : Str :=
  replaceSubC mk (".pdf".toList)
    (("_attachment_".toList) ++ natDigitsC (nextAttachmentNum st (dirOf mk)) ++ (".png".toList))

/-- The writes of step 5 for one matched key: store the candidate PNG as the
next `_attachment_N.png`, replace the stored PDF with the merged bytes, and
copy to the batch prefix when applicable.  `faultAt` injects an exception at
the n-th `put_object` call; `.error` carries the store as mutated so far. -/
def writeOne (st : Store) (mk : Str) (inp : MergeInput) (mergedBytes : Bytes)
    (ctr : Nat) (faultAt : Option Nat) : Except Store (Store × Nat) :=
  if faultAt = some ctr then .error st
  else
    let st1 := putObj st (apngKeyOf st mk)
      ⟨inp.candBytes, attachmentMeta (origMetaOf st mk) inp⟩
    if faultAt = some (ctr + 1) then .error st1
    else
      let st2 := putObj st1 mk ⟨mergedBytes, origMetaOf st mk⟩
      if hasPfxC mk ("organized_vouchers/".toList) ∧ batchIdOk inp.batchId then
        if faultAt = some (ctr + 2) then .error st2
        else
          let bkey := ("batches/".toList) ++ (inp.batchId.getD [])
            ++ ("/organized/".toList) ++ mk.drop 19
          .ok (putObj st2 bkey ⟨mergedBytes, origMetaOf st mk⟩, ctr + 3)
      else .ok (st2, ctr + 2)

def writesPhase (inp : MergeInput) (mergedBytes : Bytes) (faultAt : Option Nat) :
    List Str → Store → Nat → Except Store Store
  | [], st, _ => .ok st
  | mk :: rest, st, ctr =>
    match writeOne st mk inp mergedBytes ctr faultAt with
    | .error stp => .error stp
    | .ok (st', ctr') => writesPhase inp mergedBytes faultAt rest st' ctr'

/-- The attachment-merge section of `process_sqs_message` (matching keys
already found): duplicate detection, ledger collection, rebuild via
`_merge_png_images_to_pdf`, fan-out writes, and the temp-key cleanup that
runs on every non-exception path.  An exception anywhere inside the `try`
(a raised merge, or an injected write fault) yields `mergeFailed` with the
store exactly as mutated so far — the source has no rollback. -/
def attachmentMergePhase (inp : MergeInput) (st : Store) (faultAt : Option Nat) :
    MergeOutcome × Store :=
  let col := collectPhase st (truthy inp.candDocNo) inp.candBytes.length inp.matchingKeys
  if col.2 then (.duplicateSkipped, delObj st inp.tempKey)
  else if col.1 = [] then (.noLedgerImages, delObj st inp.tempKey)
  else
    match mergePngImagesToPdf (col.1 ++ [inp.candBytes]) with
    | .error _ => (.mergeFailed, st)
    | .ok none => (.mergeFailed, st)
    | .ok (some mb) =>
      match writesPhase inp mb faultAt inp.matchingKeys st 0 with
      | .error stp => (.mergeFailed, stp)
      | .ok st' => (.merged, delObj st' inp.tempKey)

/-! ### Concrete MatchEngine inputs used by the claim theorems -/

/-- A candidate whose weight and date match `storedPurityMismatch` but whose
purity differs from the stored one by `1e-3 ≥ 1e-4`. -/
def candPurityMismatch : AttachmentCriteria :=
  { weight := some ['1','0','0'], purity := some ['0','.','9','9','5'],
    date := some ['0','2','/','0','6','/','2','0','2','5'],
    amountUsd := none, amountAed := none }

/-- A stored voucher (valid classification `MPU`) with matching weight and
date but purity `0.996`. -/
def storedPurityMismatch : StoredVoucher :=
  { key := ['a','.','p','d','f'], classification := ['M','P','U'],
    goldWeight := some ['1','0','0','.','7','5'], purity := some ['0','.','9','9','6'],
    documentDate := some ['0','2','-','0','6','-','2','0','2','5'],
    amountUsd := none, amountAed := none }

/-- A candidate carrying only a USD amount of `1000.00`. -/
def candUsd1000 : AttachmentCriteria :=
  { weight := none, purity := none, date := none,
    amountUsd := some ['1','0','0','0','.','0','0'], amountAed := none }

/-- A stored voucher with USD amount `1010.01`. -/
def storedUsd101001 : StoredVoucher :=
  { key := ['b','.','p','d','f'], classification := ['M','P','U'],
    goldWeight := none, purity := none, documentDate := none,
    amountUsd := some ['1','0','1','0','.','0','1'], amountAed := none }

/-- A stored voucher with USD amount `1009.99`. -/
def storedUsd100999 : StoredVoucher :=
  { key := ['c','.','p','d','f'], classification := ['M','P','U'],
    goldWeight := none, purity := none, documentDate := none,
    amountUsd := some ['1','0','0','9','.','9','9'], amountAed := none }

/-- The `group(2)` dictionary content that the extractor's image pattern
captures from the single-page image object: everything between `/Image\s*`
and the closing `>>\nstream\n`. -/
def dictSingle (w h : Nat) (cs : Bytes) (bpc : Nat) (flate : Bool) (n : Nat) : Bytes :=
  asc "/Width " ++ natDigits w ++ asc " /Height " ++ natDigits h ++ asc " "
    ++ asc "/ColorSpace " ++ cs ++ asc " /BitsPerComponent " ++ natDigits bpc ++ asc " "
    ++ (if flate then asc "/Filter /FlateDecode " ++ decodeParmsSingle w
        else asc "/Filter /DCTDecode ")
    ++ asc "/Length " ++ natDigits n ++ asc " "

/-- The five objects the single-page writer emits before the image object:
the image object starts at this prefix's length. -/
def preObj5 (w h : Nat) : Bytes :=
  pdfHeader ++ (catalogObj ++ (pagesObjSingle ++ (pageObjSingle w h ++ contentObjSingle w h)))

/-- A minimal valid JPEG (SOI, then an SOF0 segment giving 3×2) padded to 31
bytes: well under the extractor's 1000-byte stream threshold. -/
def tinyJpeg : Bytes :=
  [0xFF, 0xD8, 0xFF, 0xC0, 0x00, 0x11, 0x08, 0x00, 0x02, 0x00, 0x03]
    ++ List.replicate 20 0x41

/-- The same JPEG structure padded to 1211 bytes: above the threshold. -/
def bigJpeg : Bytes :=
  [0xFF, 0xD8, 0xFF, 0xC0, 0x00, 0x11, 0x08, 0x00, 0x02, 0x00, 0x03]
    ++ List.replicate 1200 0x41

/-- `tinyGrayPng` with a 1001-byte IDAT payload: above the threshold. -/
def bigGrayPng : Bytes :=
  pngSig ++ [0, 0, 0, 13] ++ asc "IHDR"
    ++ [0, 0, 0, 2, 0, 0, 0, 3, 8, 0, 0, 0, 0] ++ [0, 0, 0, 0]
    ++ [0, 0, 3, 0xE9] ++ asc "IDAT" ++ List.replicate 1001 0x42 ++ [0, 0, 0, 0]
    ++ [0, 0, 0, 0] ++ asc "IEND" ++ [0, 0, 0, 0]

/-! ### Concrete MergeOrchestrator inputs used by the claim theorems -/

def metaA : ObjMeta := ⟨some ("A1".toList), some ("MPU".toList), none, []⟩

def metaB : ObjMeta := ⟨some ("B1".toList), some ("MPV".toList), none, []⟩

/-- A bucket with two matched vouchers (each a stored PDF plus its
`_original.png`) and the candidate attachment in the temp area. -/
def stMain : Store :=
  [ (("va/A_0001.pdf").toList, ⟨[1, 2, 3], metaA⟩),
    (("va/A_0001_original.png").toList, ⟨tinyGrayPng, metaA⟩),
    (("vb/B_0001.pdf").toList, ⟨[4, 5, 6], metaB⟩),
    (("vb/B_0001_original.png").toList, ⟨tinyGrayPng, metaB⟩),
    (("temp/att.png").toList, ⟨tinyGrayPng, ObjMeta.empty⟩) ]

/-- The candidate attachment matched both vouchers of `stMain`. -/
def inpMain : MergeInput :=
  ⟨[("va/A_0001.pdf").toList, ("vb/B_0001.pdf").toList],
   tinyGrayPng, some ("D9".toList), some ("MPU".toList), none,
   ("temp/att.png").toList, none⟩

/-- `stMain` with an already-recorded attachment carrying the candidate's
document number. -/
def stDup : Store :=
  stMain ++
    [ (("va/A_0001_attachment_1.png").toList,
       ⟨[7, 7, 7], ⟨some ("D9".toList), none, none, []⟩⟩) ]

/-- A bucket whose single matched voucher has a truncated original PNG
(valid signature, header too short), so the rebuild raises. -/
def stBad : Store :=
  [ (("vc/C_0001.pdf").toList, ⟨[1, 2, 3], metaA⟩),
    (("vc/C_0001_original.png").toList, ⟨pngSig, metaA⟩),
    (("temp/att.png").toList, ⟨tinyGrayPng, ObjMeta.empty⟩) ]

def inpBad : MergeInput :=
  ⟨[("vc/C_0001.pdf").toList], tinyGrayPng, some ("D9".toList), none, none,
   ("temp/att.png").toList, none⟩

/-- The merged PDF produced for `stMain`/`inpMain` (both vouchers' original
pages followed by the candidate). -/
def mbMain : Bytes :=
  match mergePngImagesToPdf
      ((inpMain.matchingKeys.flatMap (fun mk => ledgerImages stMain mk))
        ++ [inpMain.candBytes]) with
  | .ok (some b) => b
  | _ => []

end DocFlow

namespace DocFlow

/-! # Theorems -/

/-! ### `Dec` comparisons agree with their rational meaning -/

theorem pow_ten_pos_q (k : Nat) : (0 : ℚ) < (10 : ℚ) ^ k :=
  pow_pos (by norm_num) k

theorem Dec.toQ_sub (a b : Dec) :
    a.toQ - b.toQ =
      ((a.num * 10 ^ b.pow - b.num * 10 ^ a.pow : ℤ) : ℚ) / (10 : ℚ) ^ (a.pow + b.pow) := by
  unfold Dec.toQ
  rw [div_sub_div _ _ (ne_of_gt (pow_ten_pos_q a.pow)) (ne_of_gt (pow_ten_pos_q b.pow))]
  push_cast
  ring_nf

theorem Dec.pos_iff (b : Dec) : b.pos = true ↔ 0 < b.toQ := by
  unfold Dec.pos Dec.toQ
  rw [decide_eq_true_eq, div_pos_iff]
  constructor
  · intro h; exact Or.inl ⟨by exact_mod_cast h, pow_ten_pos_q b.pow⟩
  · rintro (⟨h, _⟩ | ⟨_, h⟩)
    · exact_mod_cast h
    · exact absurd (pow_ten_pos_q b.pow) (not_lt_of_lt h)

theorem Dec.absSubLtPow_iff (a b : Dec) (k : Nat) :
    a.absSubLtPow b k = true ↔ |a.toQ - b.toQ| < 1 / (10 : ℚ) ^ k := by
  unfold Dec.absSubLtPow
  rw [decide_eq_true_eq, Dec.toQ_sub, abs_div,
    abs_of_pos (pow_ten_pos_q (a.pow + b.pow)),
    div_lt_div_iff (pow_ten_pos_q (a.pow + b.pow)) (pow_ten_pos_q k)]
  constructor
  · intro h
    have h' : ((10 ^ k * (a.num * 10 ^ b.pow - b.num * 10 ^ a.pow).natAbs : ℕ) : ℚ)
        < ((10 ^ (a.pow + b.pow) : ℕ) : ℚ) := by exact_mod_cast h
    push_cast [Int.cast_natAbs] at h'
    push_cast
    linarith
  · intro h
    have h' : ((10 ^ k * (a.num * 10 ^ b.pow - b.num * 10 ^ a.pow).natAbs : ℕ) : ℚ)
        < ((10 ^ (a.pow + b.pow) : ℕ) : ℚ) := by
      push_cast [Int.cast_natAbs]
      push_cast at h
      linarith
    exact_mod_cast h'

theorem Dec.relDiffLePercent_iff (a b : Dec) (hb : 0 < b.toQ) :
    a.relDiffLePercent b = true ↔ |a.toQ - b.toQ| / b.toQ ≤ 1 / 100 := by
  have hbnum : (0 : ℤ) < b.num := by
    have h := (Dec.pos_iff b).2 hb
    unfold Dec.pos at h
    exact of_decide_eq_true h
  have hbnumq : (0 : ℚ) < (b.num : ℚ) := by exact_mod_cast hbnum
  unfold Dec.relDiffLePercent
  rw [decide_eq_true_eq]
  have hquot : |a.toQ - b.toQ| / b.toQ =
      |((a.num * 10 ^ b.pow - b.num * 10 ^ a.pow : ℤ) : ℚ)| / ((10 : ℚ) ^ a.pow * b.num) := by
    rw [Dec.toQ_sub, abs_div, abs_of_pos (pow_ten_pos_q (a.pow + b.pow))]
    unfold Dec.toQ
    rw [pow_add]
    field_simp
    ring
  rw [hquot, div_le_div_iff (by positivity) (by norm_num)]
  constructor
  · intro h
    have h' : (((100 : ℤ) * (a.num * 10 ^ b.pow - b.num * 10 ^ a.pow).natAbs : ℤ) : ℚ)
        ≤ (((10 : ℤ) ^ a.pow * b.num : ℤ) : ℚ) := by exact_mod_cast h
    push_cast [Int.cast_natAbs] at h'
    push_cast
    linarith
  · intro h
    have h' : (((100 : ℤ) * (a.num * 10 ^ b.pow - b.num * 10 ^ a.pow).natAbs : ℤ) : ℚ)
        ≤ (((10 : ℤ) ^ a.pow * b.num : ℤ) : ℚ) := by
      push_cast [Int.cast_natAbs]
      push_cast at h
      linarith
    exact_mod_cast h'

/-- `amountTolOk` in terms of rational values: both sides parse, the stored
value is positive, and the relative difference against the stored value is
at most 1%. -/
theorem amountTolOk_iff (s t : Str) :
    amountTolOk s t = true ↔
      ∃ x y, pyFloat? s = some x ∧ pyFloat? t = some y ∧
        0 < y.toQ ∧ |x.toQ - y.toQ| / y.toQ ≤ 1 / 100 := by
  unfold amountTolOk
  cases hs : pyFloat? s with
  | none => simp
  | some x =>
    cases ht : pyFloat? t with
    | none => simp
    | some y =>
      simp only [Option.some.injEq]
      constructor
      · intro h
        cases hp : y.pos with
        | false => rw [hp] at h; simp at h
        | true =>
          have hpos := (Dec.pos_iff y).1 hp
          rw [hp] at h
          simp at h
          exact ⟨x, y, rfl, rfl, hpos, (Dec.relDiffLePercent_iff x y hpos).1 h⟩
      · rintro ⟨x', y', hx, hy, hpos, hle⟩
        cases hx; cases hy
        have hp : y.pos = true := (Dec.pos_iff y).2 hpos
        rw [hp]
        simp
        exact (Dec.relDiffLePercent_iff x y hpos).2 hle

/-! ### Byte-scanning toolkit -/

theorem hasPfxB_iff (b pat : Bytes) : hasPfxB b pat = true ↔ ∃ t, b = pat ++ t := by
  induction pat generalizing b with
  | nil => simp [hasPfxB, hasPfxBP]
  | cons p ps ih =>
    cases b with
    | nil =>
        simp [hasPfxB, hasPfxBP]
    | cons x xs =>
        simp only [hasPfxB, hasPfxBP, Bool.and_eq_true, decide_eq_true_eq, List.cons_append,
          List.cons.injEq]
        rw [show hasPfxBP ps xs = hasPfxB xs ps from rfl, ih]
        constructor
        · rintro ⟨hx, t, ht⟩
          exact ⟨t, hx, ht⟩
        · rintro ⟨t, hx, ht⟩
          exact ⟨hx, t, ht⟩

theorem hasPfxB_self_append (x t : Bytes) : hasPfxB (x ++ t) x = true :=
  (hasPfxB_iff _ _).2 ⟨t, rfl⟩

/-- `OccAt b p pat`: the pattern occurs in `b` at position `p`. -/
theorem occursAtB_iff (b pat : Bytes) (p : Nat) :
    occursAtB b p pat = true ↔ ∃ t, b.drop p = pat ++ t := by
  unfold occursAtB
  exact hasPfxB_iff _ _

theorem occursAtB_length (b pat : Bytes) (p : Nat) (hne : pat ≠ [])
    (h : occursAtB b p pat = true) : p + pat.length ≤ b.length := by
  rcases (occursAtB_iff b pat p).1 h with ⟨t, ht⟩
  have hl := congrArg List.length ht
  simp [List.length_drop] at hl
  have hp : 0 < pat.length := List.length_pos.2 hne
  omega

theorem occursAtB_boundary (X Y pat : Bytes) :
    occursAtB (X ++ Y) X.length pat = hasPfxB Y pat := by
  unfold occursAtB
  rw [List.drop_append_eq_append_drop]
  simp

/-- An occurrence wholly inside the left part of an append is an occurrence
in the whole. -/
theorem occursAtB_append_left (A B pat : Bytes) (p : Nat) (hple : p ≤ A.length)
    (h : occursAtB A p pat = true) : occursAtB (A ++ B) p pat = true := by
  rcases (occursAtB_iff A pat p).1 h with ⟨t, ht⟩
  refine (occursAtB_iff _ pat p).2 ⟨t ++ B, ?_⟩
  rw [List.drop_append_of_le_length hple, ht, List.append_assoc]

theorem occursAtB_append_right (A B pat : Bytes) (p : Nat)
    (h : occursAtB B p pat = true) : occursAtB (A ++ B) (A.length + p) pat = true := by
  rcases (occursAtB_iff B pat p).1 h with ⟨t, ht⟩
  refine (occursAtB_iff _ pat _).2 ⟨t, ?_⟩
  rw [List.drop_append_eq_append_drop]
  simp [ht]

/-- Case analysis for an occurrence in an append: wholly left, wholly right,
or straddling — and a straddling occurrence contains the first byte of the
right part. -/
theorem occursAtB_append_cases (A B pat : Bytes) (p : Nat)
    (h : occursAtB (A ++ B) p pat = true) :
    (p + pat.length ≤ A.length ∧ occursAtB A p pat = true)
    ∨ (A.length ≤ p ∧ occursAtB B (p - A.length) pat = true)
    ∨ (p < A.length ∧ A.length < p + pat.length ∧ B.headD 0 ∈ pat) := by
  rcases (occursAtB_iff _ pat p).1 h with ⟨t, ht⟩
  by_cases hA : A.length ≤ p
  · refine Or.inr (Or.inl ⟨hA, ?_⟩)
    refine (occursAtB_iff B pat _).2 ⟨t, ?_⟩
    have : (A ++ B).drop p = B.drop (p - A.length) := by
      have h2 : p = A.length + (p - A.length) := by omega
      rw [h2, List.drop_append_eq_append_drop]
      simp
    rw [← this, ht]
  · push_neg at hA
    by_cases hfit : p + pat.length ≤ A.length
    · refine Or.inl ⟨hfit, ?_⟩
      have hd : (A ++ B).drop p = A.drop p ++ B :=
        List.drop_append_of_le_length (le_of_lt hA)
      rw [hd] at ht
      have hlenA : pat.length ≤ (A.drop p).length := by
        simp [List.length_drop]; omega
      have htake : pat = (A.drop p).take pat.length := by
        have h1 : (A.drop p ++ B).take pat.length = (pat ++ t).take pat.length := by rw [ht]
        rw [List.take_append_of_le_length hlenA] at h1
        rw [List.take_left' rfl] at h1
        exact h1.symm
      refine (occursAtB_iff A pat p).2 ⟨(A.drop p).drop pat.length, ?_⟩
      conv_lhs => rw [← List.take_append_drop pat.length (A.drop p)]
      rw [← htake]
    · push_neg at hfit
      refine Or.inr (Or.inr ⟨hA, hfit, ?_⟩)
      have hd : (A ++ B).drop p = A.drop p ++ B :=
        List.drop_append_of_le_length (le_of_lt hA)
      rw [hd] at ht
      have hlenA : (A.drop p).length < pat.length := by
        simp [List.length_drop]; omega
      have hBne : B ≠ [] := by
        intro hB
        rw [hB, List.append_nil] at ht
        have := congrArg List.length ht
        simp [List.length_drop] at this
        omega
      have hpat2 : pat = A.drop p ++ B.take (pat.length - (A.drop p).length) := by
        have h1 : (A.drop p ++ B).take pat.length = (pat ++ t).take pat.length := by rw [ht]
        rw [List.take_append_eq_append_take, List.take_of_length_le (le_of_lt hlenA),
          List.take_left' rfl] at h1
        exact h1.symm
      rw [hpat2]
      refine List.mem_append_right _ ?_
      obtain ⟨k, hk⟩ : ∃ k, pat.length - (A.drop p).length = k + 1 :=
        ⟨pat.length - (A.drop p).length - 1, by omega⟩
      rw [hk]
      cases hB : B with
      | nil => exact absurd hB hBne
      | cons c B' => simp

/-- A pattern containing no digit byte cannot start inside an all-digit
segment: an occurrence inside `L ++ D ++ rest` (`D` nonempty, all digits) is
wholly inside `L` or wholly inside `rest`. -/
theorem occursAtB_splice (L D rest pat : Bytes) (p : Nat)
    (hD : ∀ x ∈ D, isDigitByte x = true) (hDne : D ≠ [])
    (hpat : ∀ x ∈ pat, isDigitByte x = false) (hpatne : pat ≠ [])
    (h : occursAtB (L ++ (D ++ rest)) p pat = true) :
    (p + pat.length ≤ L.length ∧ occursAtB L p pat = true)
    ∨ (L.length + D.length ≤ p ∧ occursAtB rest (p - L.length - D.length) pat = true) := by
  rcases occursAtB_append_cases L (D ++ rest) pat p h with
    ⟨hle, hocc⟩ | ⟨hge, hocc⟩ | ⟨_, _, hmem⟩
  · exact Or.inl ⟨hle, hocc⟩
  · rcases occursAtB_append_cases D rest pat (p - L.length) hocc with
      ⟨hle2, hocc2⟩ | ⟨hge2, hocc2⟩ | ⟨_, _, hmem2⟩
    · -- the occurrence would lie wholly inside the digit run
      rcases (occursAtB_iff D pat _).1 hocc2 with ⟨t, ht⟩
      cases hpt : pat with
      | nil => exact absurd hpt hpatne
      | cons c ps =>
        have hcD : c ∈ D := by
          have hne : D.drop (p - L.length) = c :: (ps ++ t) := by
            rw [ht, hpt]; simp
          have : c ∈ D.drop (p - L.length) := by rw [hne]; exact List.mem_cons_self _ _
          exact List.mem_of_mem_drop this
        have h1 := hD c hcD
        have h2 := hpat c (by rw [hpt]; exact List.mem_cons_self _ _)
        rw [h1] at h2
        exact absurd h2 (by decide)
    · refine Or.inr ⟨by omega, ?_⟩
      have : p - L.length - D.length = p - (L.length + D.length) := by omega
      rw [this]
      have h2 : p - L.length - D.length = p - (L.length + D.length) := this
      convert hocc2 using 2
      omega
    · -- straddling D and rest: the head of rest is a pattern byte... but the
      -- straddle starts inside D, so D's bytes are pattern bytes
      rcases (occursAtB_iff (D ++ rest) pat _).1 hocc with ⟨t, ht⟩
      cases hpt : pat with
      | nil => exact absurd hpt hpatne
      | cons c ps =>
        have hlt : p - L.length < D.length := by assumption
        have hdrop : (D ++ rest).drop (p - L.length) =
            D.drop (p - L.length) ++ rest :=
          List.drop_append_of_le_length (le_of_lt hlt)
        rw [hdrop, hpt] at ht
        have hDd : D.drop (p - L.length) ≠ [] := by
          intro hd
          have := congrArg List.length hd
          simp [List.length_drop] at this
          omega
        cases hDd2 : D.drop (p - L.length) with
        | nil => exact absurd hDd2 hDd
        | cons d ds =>
          rw [hDd2] at ht
          simp at ht
          have hcd : c = d := ht.1.symm
          have hdD : d ∈ D := List.mem_of_mem_drop (by rw [hDd2]; exact List.mem_cons_self _ _)
          have h1 := hD d hdD
          have h2 := hpat c (by rw [hpt]; exact List.mem_cons_self _ _)
          rw [hcd, h1] at h2
          exact absurd h2 (by decide)
  · -- straddling L and D ++ rest: the head of D ++ rest is a digit yet a
    -- pattern byte
    cases hDc : D with
    | nil => exact absurd hDc hDne
    | cons d ds =>
      have hhead : (D ++ rest).headD 0 = d := by rw [hDc]; rfl
      rw [hhead] at hmem
      have h1 := hD d (by rw [hDc]; exact List.mem_cons_self _ _)
      have h2 := hpat d hmem
      rw [h1] at h2
      exact absurd h2 (by decide)

theorem findSubAux_some (c pat : Bytes) (p q : Nat) (h : findSubAux c pat p = some q) :
    p ≤ q ∧ hasPfxB (c.drop (q - p)) pat = true ∧
      ∀ r, p ≤ r → r < q → hasPfxB (c.drop (r - p)) pat = false := by
  induction c generalizing p with
  | nil =>
    rw [findSubAux] at h
    by_cases hp : hasPfxB [] pat = true
    · rw [if_pos hp] at h
      cases h
      exact ⟨Nat.le_refl _, by rw [Nat.sub_self]; exact hp, fun r hr hrq => by omega⟩
    · rw [if_neg hp] at h
      cases h
  | cons x xs ih =>
    rw [findSubAux] at h
    by_cases hp : hasPfxB (x :: xs) pat = true
    · rw [if_pos hp] at h
      cases h
      exact ⟨Nat.le_refl _, by rw [Nat.sub_self]; exact hp, fun r hr hrq => by omega⟩
    · rw [if_neg hp] at h
      obtain ⟨h1, h2, h3⟩ := ih (p + 1) h
      refine ⟨by omega, ?_, ?_⟩
      · have hq : q - p = (q - (p + 1)) + 1 := by omega
        rw [hq, List.drop_succ_cons]
        exact h2
      · intro r hr hrq
        rcases Nat.eq_or_lt_of_le hr with hrp | hrp
        · rw [← hrp, Nat.sub_self, List.drop_zero]
          exact Bool.not_eq_true _ ▸ (by simpa using hp)
        · have hrk : r - p = (r - (p + 1)) + 1 := by omega
          rw [hrk, List.drop_succ_cons]
          exact h3 r hrp hrq

theorem findSubAux_none (c pat : Bytes) (p : Nat) (h : findSubAux c pat p = none) :
    ∀ r, p ≤ r → hasPfxB (c.drop (r - p)) pat = false := by
  induction c generalizing p with
  | nil =>
    rw [findSubAux] at h
    by_cases hp : hasPfxB [] pat = true
    · rw [if_pos hp] at h; cases h
    · intro r _
      rw [List.drop_nil]
      exact Bool.not_eq_true _ ▸ (by simpa using hp)
  | cons x xs ih =>
    rw [findSubAux] at h
    by_cases hp : hasPfxB (x :: xs) pat = true
    · rw [if_pos hp] at h; cases h
    · rw [if_neg hp] at h
      intro r hr
      rcases Nat.eq_or_lt_of_le hr with hrp | hrp
      · rw [← hrp, Nat.sub_self, List.drop_zero]
        exact Bool.not_eq_true _ ▸ (by simpa using hp)
      · have hrk : r - p = (r - (p + 1)) + 1 := by omega
        rw [hrk, List.drop_succ_cons]
        exact ih (p + 1) h r hrp

theorem findSub_some (b pat : Bytes) (s q : Nat) (h : findSub b pat s = some q) :
    s ≤ q ∧ occursAtB b q pat = true ∧
      ∀ r, s ≤ r → r < q → occursAtB b r pat = false := by
  unfold findSub at h
  obtain ⟨h1, h2, h3⟩ := findSubAux_some _ _ _ _ h
  have hdd : ∀ r, s ≤ r → (b.drop s).drop (r - s) = b.drop r := by
    intro r hr
    rw [List.drop_drop]
    congr 1
    omega
  refine ⟨h1, ?_, ?_⟩
  · unfold occursAtB
    rw [← hdd q h1]
    exact h2
  · intro r hr hrq
    unfold occursAtB
    rw [← hdd r hr]
    exact h3 r hr hrq

theorem findSub_none (b pat : Bytes) (s : Nat) (h : findSub b pat s = none) :
    ∀ r, s ≤ r → occursAtB b r pat = false := by
  unfold findSub at h
  intro r hr
  unfold occursAtB
  have hdd : (b.drop s).drop (r - s) = b.drop r := by
    rw [List.drop_drop]
    congr 1
    omega
  rw [← hdd]
  exact findSubAux_none _ _ _ h r hr

/-- If an occurrence exists at `q ≥ s`, `findSub` returns the least
occurrence position `≥ s`. -/
theorem findSub_min (b pat : Bytes) (s q : Nat)
    (hocc : occursAtB b q pat = true) (hsq : s ≤ q) :
    ∃ m, findSub b pat s = some m ∧ m ≤ q ∧ occursAtB b m pat = true ∧
      ∀ r, s ≤ r → r < m → occursAtB b r pat = false := by
  cases hf : findSub b pat s with
  | none =>
    have := findSub_none b pat s hf q hsq
    rw [hocc] at this
    cases this
  | some m =>
    obtain ⟨h1, h2, h3⟩ := findSub_some b pat s m hf
    refine ⟨m, rfl, ?_, h2, h3⟩
    by_contra hlt
    push_neg at hlt
    have := h3 q hsq hlt
    rw [hocc] at this
    cases this

/-! ### Decimal rendering round-trips -/

theorem natDigitsF_digits (fuel : Nat) :
    ∀ n, n < fuel → ∀ x ∈ natDigitsF fuel n, isDigitByte x = true := by
  induction fuel with
  | zero => intro n h; omega
  | succ f ih =>
    intro n _ x hx
    rw [natDigitsF] at hx
    by_cases h10 : n < 10
    · rw [if_pos h10] at hx
      simp at hx
      subst hx
      simp [isDigitByte]
      omega
    · rw [if_neg h10] at hx
      rcases List.mem_append.1 hx with hx1 | hx2
      · have hdiv : n / 10 < f := by
          have := Nat.div_lt_self (show 0 < n by omega) (show 1 < 10 by omega)
          omega
        exact ih (n / 10) hdiv x hx1
      · simp at hx2
        subst hx2
        have := Nat.mod_lt n (show 0 < 10 by omega)
        simp [isDigitByte]
        omega

theorem natDigits_digits (n : Nat) : ∀ x ∈ natDigits n, isDigitByte x = true :=
  natDigitsF_digits (n + 1) n (Nat.lt_succ_self n)

theorem natDigitsF_ne_nil (fuel : Nat) :
    ∀ n, n < fuel → natDigitsF fuel n ≠ [] := by
  induction fuel with
  | zero => intro n h; omega
  | succ f _ =>
    intro n _
    rw [natDigitsF]
    by_cases h10 : n < 10
    · rw [if_pos h10]; simp
    · rw [if_neg h10]; simp

theorem natDigits_ne_nil (n : Nat) : natDigits n ≠ [] :=
  natDigitsF_ne_nil (n + 1) n (Nat.lt_succ_self n)

theorem bytesToNat_append_digit (xs : Bytes) (d : Nat) :
    bytesToNat (xs ++ [d]) = 10 * bytesToNat xs + (d - 48) := by
  simp [bytesToNat, List.foldl_append]

theorem natDigitsF_val (fuel : Nat) :
    ∀ n, n < fuel → bytesToNat (natDigitsF fuel n) = n := by
  induction fuel with
  | zero => intro n h; omega
  | succ f ih =>
    intro n hn
    rw [natDigitsF]
    by_cases h10 : n < 10
    · rw [if_pos h10]
      simp [bytesToNat]
    · rw [if_neg h10]
      rw [bytesToNat_append_digit]
      have hdiv : n / 10 < f := by
        have := Nat.div_lt_self (show 0 < n by omega) (show 1 < 10 by omega)
        omega
      rw [ih (n / 10) hdiv]
      have hmod := Nat.mod_lt n (show 0 < 10 by omega)
      have := Nat.div_add_mod n 10
      omega

theorem bytesToNat_natDigits (n : Nat) : bytesToNat (natDigits n) = n :=
  natDigitsF_val (n + 1) n (Nat.lt_succ_self n)

/-! ### takeWhile / observers -/

theorem takeWhile_append_digits (ds rest : Bytes)
    (hds : ∀ x ∈ ds, isDigitByte x = true) :
    (ds ++ rest).takeWhile isDigitByte = ds ++ rest.takeWhile isDigitByte := by
  induction ds with
  | nil => simp
  | cons d ds' ih =>
    have hd : isDigitByte d = true := hds d (List.mem_cons_self _ _)
    simp only [List.cons_append, List.takeWhile_cons, hd, if_true]
    rw [ih (fun x hx => hds x (List.mem_cons_of_mem _ hx))]

theorem dropWhile_eq_drop_takeWhile_length (l : Bytes) :
    l.drop (l.takeWhile isDigitByte).length = l.dropWhile isDigitByte := by
  induction l with
  | nil => simp
  | cons x xs ih =>
    by_cases hx : isDigitByte x = true
    · simp only [List.takeWhile_cons, hx, if_true, List.length_cons, List.drop_succ_cons,
        List.dropWhile_cons, ih]
    · simp only [List.takeWhile_cons, List.dropWhile_cons]
      rw [if_neg hx, if_neg hx]
      simp

/-- The object-number observer recovers the number the builder rendered. -/
theorem objNumOf_render (k : Nat) (mid rest : Bytes)
    (hmid : asc " 0 obj" ++ rest = mid)
    : objNumOf (natDigits k ++ mid) = some k := by
  subst hmid
  unfold objNumOf
  have hnodig : (asc " 0 obj" ++ rest).takeWhile isDigitByte = [] := by
    simp [asc, List.takeWhile, isDigitByte]
  have h1 : (natDigits k ++ (asc " 0 obj" ++ rest)).takeWhile isDigitByte = natDigits k := by
    rw [takeWhile_append_digits _ _ (natDigits_digits k), hnodig, List.append_nil]
  rw [h1]
  rw [if_pos]
  · rw [bytesToNat_natDigits]
  · refine ⟨natDigits_ne_nil k, ?_⟩
    rw [List.drop_append_eq_append_drop, List.drop_of_length_le (Nat.le_refl _),
      Nat.sub_self, List.drop_zero, List.nil_append]
    exact hasPfxB_self_append _ _

/-! ### Kids-array rendering / parsing -/

theorem joinSep_length_ge (sep : Bytes) :
    ∀ its : List Bytes, (∀ x ∈ its, x ≠ []) → its.length ≤ (joinSep sep its).length := by
  intro its
  induction its with
  | nil => simp
  | cons x xs ih =>
    intro hne
    cases xs with
    | nil =>
      have hx : x ≠ [] := hne x (List.mem_cons_self _ _)
      have : 0 < x.length := List.length_pos.2 hx
      simp [joinSep]
      omega
    | cons y ys =>
      have hx : x ≠ [] := hne x (List.mem_cons_self _ _)
      have hxl : 0 < x.length := List.length_pos.2 hx
      have ihy := ih (fun z hz => hne z (List.mem_cons_of_mem _ hz))
      simp only [joinSep, List.length_append, List.length_cons] at ihy ⊢
      omega

theorem takeWhile_space_first (rest : Bytes) :
    (asc " 0 R" ++ rest).takeWhile isDigitByte = [] := by
  simp [asc, List.takeWhile, isDigitByte]

theorem parseKidsAux_joinSep :
    ∀ (ks : List Nat) (fuel : Nat) (rest : Bytes), ks ≠ [] → ks.length ≤ fuel →
    parseKidsAux fuel
      (joinSep (asc " ") (ks.map (fun k => natDigits k ++ asc " 0 R")) ++ (asc "]" ++ rest))
      = some ks := by
  intro ks
  induction ks with
  | nil => intro fuel rest hne _; exact absurd rfl hne
  | cons k ks' ih =>
    intro fuel rest _ hfuel
    cases fuel with
    | zero => simp at hfuel
    | succ f =>
      cases ks' with
      | nil =>
        -- single item: `{k} 0 R` followed by `]`
        rw [List.map_cons, List.map_nil]
        show parseKidsAux (f + 1)
          ((natDigits k ++ asc " 0 R") ++ (asc "]" ++ rest)) = some [k]
        rw [parseKidsAux]
        have hb : (natDigits k ++ asc " 0 R") ++ (asc "]" ++ rest)
            = natDigits k ++ (asc " 0 R" ++ (asc "]" ++ rest)) := by
          simp [List.append_assoc]
        rw [hb]
        have htw : (natDigits k ++ (asc " 0 R" ++ (asc "]" ++ rest))).takeWhile isDigitByte
            = natDigits k := by
          rw [takeWhile_append_digits _ _ (natDigits_digits k)]
          rw [show asc " 0 R" ++ (asc "]" ++ rest) = asc " 0 R" ++ (asc "]" ++ rest) from rfl]
          rw [takeWhile_space_first (asc "]" ++ rest), List.append_nil]
        simp only [htw]
        rw [if_neg (by simp [natDigits_ne_nil k])]
        have hdrop : (natDigits k ++ (asc " 0 R" ++ (asc "]" ++ rest))).drop
            (natDigits k).length = asc " 0 R" ++ (asc "]" ++ rest) := by
          rw [List.drop_append_eq_append_drop, List.drop_of_length_le (Nat.le_refl _),
            Nat.sub_self, List.drop_zero, List.nil_append]
        rw [hdrop]
        have hmerge : asc " 0 R" ++ (asc "]" ++ rest) = asc " 0 R]" ++ rest := by
          rw [← List.append_assoc]
          rfl
        rw [hmerge]
        rw [if_pos (hasPfxB_self_append _ _)]
        rw [bytesToNat_natDigits]
      | cons k2 ks'' =>
        rw [List.map_cons]
        show parseKidsAux (f + 1)
          (joinSep (asc " ")
            ((natDigits k ++ asc " 0 R") ::
              ((k2 :: ks'').map (fun k => natDigits k ++ asc " 0 R")))
            ++ (asc "]" ++ rest)) = some (k :: k2 :: ks'')
        rw [List.map_cons]
        show parseKidsAux (f + 1)
          (((natDigits k ++ asc " 0 R") ++ asc " " ++
            joinSep (asc " ")
              ((natDigits k2 ++ asc " 0 R") :: (ks''.map (fun k => natDigits k ++ asc " 0 R"))))
            ++ (asc "]" ++ rest)) = some (k :: k2 :: ks'')
        rw [parseKidsAux]
        have hb : ((natDigits k ++ asc " 0 R") ++ asc " " ++
            joinSep (asc " ")
              ((natDigits k2 ++ asc " 0 R") :: (ks''.map (fun k => natDigits k ++ asc " 0 R"))))
            ++ (asc "]" ++ rest)
            = natDigits k ++ (asc " 0 R" ++ (asc " " ++
              (joinSep (asc " ")
                ((natDigits k2 ++ asc " 0 R") :: (ks''.map (fun k => natDigits k ++ asc " 0 R")))
                ++ (asc "]" ++ rest)))) := by
          simp [List.append_assoc]
        rw [hb]
        have htw : (natDigits k ++ (asc " 0 R" ++ (asc " " ++
            (joinSep (asc " ")
              ((natDigits k2 ++ asc " 0 R") :: (ks''.map (fun k => natDigits k ++ asc " 0 R")))
              ++ (asc "]" ++ rest))))).takeWhile isDigitByte = natDigits k := by
          rw [takeWhile_append_digits _ _ (natDigits_digits k),
            takeWhile_space_first _, List.append_nil]
        simp only [htw]
        rw [if_neg (by simp [natDigits_ne_nil k])]
        have hdrop : (natDigits k ++ (asc " 0 R" ++ (asc " " ++
            (joinSep (asc " ")
              ((natDigits k2 ++ asc " 0 R") :: (ks''.map (fun k => natDigits k ++ asc " 0 R")))
              ++ (asc "]" ++ rest))))).drop (natDigits k).length
            = asc " 0 R" ++ (asc " " ++
              (joinSep (asc " ")
                ((natDigits k2 ++ asc " 0 R") :: (ks''.map (fun k => natDigits k ++ asc " 0 R")))
                ++ (asc "]" ++ rest))) := by
          rw [List.drop_append_eq_append_drop, List.drop_of_length_le (Nat.le_refl _),
            Nat.sub_self, List.drop_zero, List.nil_append]
        rw [hdrop]
        have hnotend : hasPfxB (asc " 0 R" ++ (asc " " ++
            (joinSep (asc " ")
              ((natDigits k2 ++ asc " 0 R") :: (ks''.map (fun k => natDigits k ++ asc " 0 R")))
              ++ (asc "]" ++ rest)))) (asc " 0 R]") = false := by
          rfl
        rw [hnotend]
        simp only [Bool.false_eq_true, if_false]
        have hyes : hasPfxB (asc " 0 R" ++ (asc " " ++
            (joinSep (asc " ")
              ((natDigits k2 ++ asc " 0 R") :: (ks''.map (fun k => natDigits k ++ asc " 0 R")))
              ++ (asc "]" ++ rest)))) (asc " 0 R ") = true := by
          have : asc " 0 R" ++ (asc " " ++ (joinSep (asc " ")
              ((natDigits k2 ++ asc " 0 R") :: (ks''.map (fun k => natDigits k ++ asc " 0 R")))
              ++ (asc "]" ++ rest)))
              = asc " 0 R " ++ (joinSep (asc " ")
                ((natDigits k2 ++ asc " 0 R") :: (ks''.map (fun k => natDigits k ++ asc " 0 R")))
                ++ (asc "]" ++ rest)) := by
            rw [← List.append_assoc]
            rfl
          rw [this]
          exact hasPfxB_self_append _ _
        rw [hyes]
        simp only [if_true]
        have hdrop5 : (asc " 0 R" ++ (asc " " ++ (joinSep (asc " ")
            ((natDigits k2 ++ asc " 0 R") :: (ks''.map (fun k => natDigits k ++ asc " 0 R")))
            ++ (asc "]" ++ rest)))).drop 5
            = joinSep (asc " ")
              ((natDigits k2 ++ asc " 0 R") :: (ks''.map (fun k => natDigits k ++ asc " 0 R")))
              ++ (asc "]" ++ rest) := by
          have : asc " 0 R" ++ (asc " " ++ (joinSep (asc " ")
              ((natDigits k2 ++ asc " 0 R") :: (ks''.map (fun k => natDigits k ++ asc " 0 R")))
              ++ (asc "]" ++ rest)))
              = asc " 0 R " ++ (joinSep (asc " ")
                ((natDigits k2 ++ asc " 0 R") :: (ks''.map (fun k => natDigits k ++ asc " 0 R")))
                ++ (asc "]" ++ rest)) := by
            rw [← List.append_assoc]
            rfl
          rw [this]
          rfl
        rw [hdrop5]
        have hih := ih f rest (by simp) (by simp at hfuel ⊢; omega)
        rw [List.map_cons] at hih
        rw [hih]
        rw [bytesToNat_natDigits]

theorem kidsRefs_eq (n : Nat) :
    kidsRefs n = joinSep (asc " ")
      (((List.range n).map (fun i => 3 + i)).map (fun k => natDigits k ++ asc " 0 R")) := by
  unfold kidsRefs
  rw [List.map_map]
  rfl

/-- The Kids observer recovers `3, 4, …, n+2` in order from the Pages object
emitted by the multi-page builder. -/
theorem kidsNumsOf_pagesObjMulti (n : Nat) (hn : 1 ≤ n) :
    kidsNumsOf (pagesObjMulti n) = some ((List.range n).map (fun i => 3 + i)) := by
  have hform : pagesObjMulti n = asc "2 0 obj\n<< /Type /Pages /Kids ["
      ++ (kidsRefs n ++ (asc "] /Count " ++ (natDigits n ++ asc " >>\nendobj\n"))) := by
    simp [pagesObjMulti, List.append_assoc]
  have hL0len : (asc "2 0 obj\n<< /Type /Pages /Kids [").length = 31 := by decide
  have h7 : (asc "/Kids [").length = 7 := by decide
  have hocc24 : occursAtB (pagesObjMulti n) 24 (asc "/Kids [") = true := by
    rw [hform]
    exact occursAtB_append_left _ _ _ _ (by omega) (by decide)
  have hmin : ∀ r, r < 24 → occursAtB (pagesObjMulti n) r (asc "/Kids [") = false := by
    intro r hr
    by_contra hocc
    rw [Bool.not_eq_false] at hocc
    rw [hform] at hocc
    rcases occursAtB_append_cases _ _ _ _ hocc with ⟨_, ho⟩ | ⟨hge, _⟩ | ⟨_, hstr, _⟩
    · have hchar : ∀ q, q < 25 →
          occursAtB (asc "2 0 obj\n<< /Type /Pages /Kids [") q (asc "/Kids [") = true
          → q = 24 := by decide
      have := hchar r (by omega) ho
      omega
    · omega
    · omega
  obtain ⟨m, hm, hmle, hmocc, _⟩ := findSub_min _ _ 0 24 hocc24 (by omega)
  have hm24 : m = 24 := by
    rcases Nat.lt_or_ge m 24 with h | h
    · have := hmin m h
      rw [hmocc] at this
      cases this
    · omega
  unfold kidsNumsOf
  rw [hm, hm24]
  have hdrop : (pagesObjMulti n).drop 31
      = kidsRefs n ++ (asc "] /Count " ++ (natDigits n ++ asc " >>\nendobj\n")) := by
    rw [hform, ← hL0len, List.drop_left]
  show parseKidsAux (pagesObjMulti n).length ((pagesObjMulti n).drop 31) = _
  rw [hdrop]
  have hsplit : asc "] /Count " ++ (natDigits n ++ asc " >>\nendobj\n")
      = asc "]" ++ (asc " /Count " ++ (natDigits n ++ asc " >>\nendobj\n")) := by
    rw [show asc "] /Count " = asc "]" ++ asc " /Count " from rfl, List.append_assoc]
  rw [hsplit, kidsRefs_eq]
  have hitems : ∀ x ∈ ((List.range n).map (fun i => 3 + i)).map
      (fun k => natDigits k ++ asc " 0 R"), x ≠ [] := by
    intro x hx
    simp only [List.mem_map] at hx
    obtain ⟨k, _, hk⟩ := hx
    rw [← hk]
    intro hxe
    exact natDigits_ne_nil k (List.append_eq_nil.1 hxe).1
  have hkslen : ((List.range n).map (fun i => 3 + i)).length = n := by simp
  have hfuel : ((List.range n).map (fun i => 3 + i)).length ≤ (pagesObjMulti n).length := by
    have h1 := joinSep_length_ge (asc " ") _ hitems
    rw [List.length_map] at h1
    rw [hform, kidsRefs_eq]
    simp only [List.length_append]
    rw [hkslen]
    rw [hkslen] at h1
    omega
  exact parseKidsAux_joinSep _ _ _ (by simp; omega) hfuel

/-! ### Multi-page builder structure -/

theorem pagePrep_valid (p : Bytes) (h1 : p.take 8 = pngSig) (h2 : 26 ≤ p.length)
    (h3 : extractPngIdat p ≠ none) : pagePrep p = .ok (some (pageOfPng p)) := by
  unfold pagePrep
  rw [if_neg (by rw [h1]; exact fun h => h rfl), if_neg (by omega)]
  cases hI : extractPngIdat p with
  | none => exact absurd hI h3
  | some d =>
    unfold pageOfPng
    rw [hI]
    rfl

theorem pagesData_valid (pngs : List Bytes)
    (h : ∀ p ∈ pngs, p.take 8 = pngSig ∧ 26 ≤ p.length ∧ extractPngIdat p ≠ none) :
    pagesData pngs = .ok (pngs.map pageOfPng) := by
  induction pngs with
  | nil => rfl
  | cons p ps ih =>
    obtain ⟨h1, h2, h3⟩ := h p (List.mem_cons_self _ _)
    rw [pagesData]
    rw [pagePrep_valid p h1 h2 h3, ih (fun q hq => h q (List.mem_cons_of_mem _ hq))]
    rfl

theorem getD_range_map {α : Type} (f : Nat → α) (n i : Nat) (hi : i < n) (d : α) :
    ((List.range n).map f).getD i d = f i := by
  rw [List.getD_eq_getElem _ _ (by simp [hi])]
  simp

/-- The chunks of the multi-page builder, reassociated for indexing. -/
theorem multiPageChunks_decomp (pds : List PageData) :
    multiPageChunks pds
      = [pdfHeader, catalogObj, pagesObjMulti pds.length]
        ++ ((List.range pds.length).map (fun i => pageObjMulti pds.length i (pds.getD i default))
        ++ ((List.range pds.length).map (fun i => contentObjMulti pds.length i (pds.getD i default))
        ++ ((List.range pds.length).map (fun i => imageObjMulti pds.length i (pds.getD i default))
        ++ [multiXref pds, multiTrailer pds]))) := by
  unfold multiPageChunks multiBody
  simp [List.append_assoc]

theorem multiPageChunks_length (pds : List PageData) :
    (multiPageChunks pds).length = 3 + 3 * pds.length + 2 := by
  have hd := multiPageChunks_decomp pds
  rw [hd]
  simp only [List.length_append, List.length_map, List.length_range, List.length_cons]
  simp
  omega

theorem multiPageChunks_getD_pages (pds : List PageData) :
    (multiPageChunks pds).getD 2 [] = pagesObjMulti pds.length := by
  have hd := multiPageChunks_decomp pds
  rw [hd]
  rw [List.getD_append _ _ _ _ (by simp)]
  rfl

theorem multiPageChunks_getD_page (pds : List PageData) (i : Nat) (hi : i < pds.length) :
    (multiPageChunks pds).getD (3 + i) []
      = pageObjMulti pds.length i (pds.getD i default) := by
  have hd := multiPageChunks_decomp pds
  rw [hd]
  rw [List.getD_append_right _ _ _ _ (by simp)]
  simp only [List.length_cons, List.length_nil]
  rw [show 3 + i - 3 = i by omega]
  rw [List.getD_append _ _ _ _ (by simp [hi])]
  exact getD_range_map _ _ _ hi _

theorem multiPageChunks_getD_content (pds : List PageData) (i : Nat) (hi : i < pds.length) :
    (multiPageChunks pds).getD (3 + pds.length + i) []
      = contentObjMulti pds.length i (pds.getD i default) := by
  have hd := multiPageChunks_decomp pds
  rw [hd]
  rw [List.getD_append_right _ _ _ _ (by simp; omega)]
  simp only [List.length_cons, List.length_nil]
  rw [show 3 + pds.length + i - 3 = pds.length + i by omega]
  rw [List.getD_append_right _ _ _ _ (by simp)]
  rw [List.length_map, List.length_range, show pds.length + i - pds.length = i by omega]
  rw [List.getD_append _ _ _ _ (by simp [hi])]
  exact getD_range_map _ _ _ hi _

theorem multiPageChunks_getD_image (pds : List PageData) (i : Nat) (hi : i < pds.length) :
    (multiPageChunks pds).getD (3 + 2 * pds.length + i) []
      = imageObjMulti pds.length i (pds.getD i default) := by
  have hd := multiPageChunks_decomp pds
  rw [hd]
  rw [List.getD_append_right _ _ _ _ (by simp; omega)]
  simp only [List.length_cons, List.length_nil]
  rw [show 3 + 2 * pds.length + i - 3 = pds.length + (pds.length + i) by omega]
  rw [List.getD_append_right _ _ _ _ (by simp)]
  rw [List.length_map, List.length_range,
    show pds.length + (pds.length + i) - pds.length = pds.length + i by omega]
  rw [List.getD_append_right _ _ _ _ (by simp)]
  rw [List.length_map, List.length_range, show pds.length + i - pds.length = i by omega]
  rw [List.getD_append _ _ _ _ (by simp [hi])]
  exact getD_range_map _ _ _ hi _

theorem objNumOf_pageObjMulti (n i : Nat) (p : PageData) :
    objNumOf (pageObjMulti n i p) = some (3 + i) := by
  have hform : pageObjMulti n i p = natDigits (3 + i)
      ++ (asc " 0 obj" ++ (asc "\n<< /Type /Page /Parent 2 0 R /MediaBox [0 0 "
        ++ (natDigits p.width ++ (asc " " ++ (natDigits p.height ++ (asc "] /Contents "
        ++ (natDigits (3 + n + i) ++ (asc " 0 R /Resources << /XObject << /Im1 "
        ++ (natDigits (3 + 2 * n + i) ++ asc " 0 R >> >> >>\nendobj\n"))))))))) := by
    unfold pageObjMulti
    rw [show asc " 0 obj\n<< /Type /Page /Parent 2 0 R /MediaBox [0 0 "
      = asc " 0 obj" ++ asc "\n<< /Type /Page /Parent 2 0 R /MediaBox [0 0 " from rfl]
    simp [List.append_assoc]
  rw [hform]
  exact objNumOf_render _ _ _ rfl

theorem objNumOf_contentObjMulti (n i : Nat) (p : PageData) :
    objNumOf (contentObjMulti n i p) = some (3 + n + i) := by
  have hform : contentObjMulti n i p = natDigits (3 + n + i)
      ++ (asc " 0 obj" ++ (asc "\n<< /Length "
        ++ (natDigits (contentStream p.width p.height).length ++ (asc " >>\nstream\n"
        ++ (contentStream p.width p.height ++ asc "\nendstream\nendobj\n"))))) := by
    unfold contentObjMulti
    rw [show asc " 0 obj\n<< /Length " = asc " 0 obj" ++ asc "\n<< /Length " from rfl]
    simp [List.append_assoc]
  rw [hform]
  exact objNumOf_render _ _ _ rfl

theorem objNumOf_imageObjMulti (n i : Nat) (p : PageData) :
    objNumOf (imageObjMulti n i p) = some (3 + 2 * n + i) := by
  have hform : imageObjMulti n i p = natDigits (3 + 2 * n + i)
      ++ (asc " 0 obj" ++ (asc "\n<< /Type /XObject /Subtype /Image /Width "
        ++ (natDigits p.width ++ (asc " /Height " ++ (natDigits p.height
        ++ (asc " /ColorSpace " ++ (p.colorspace ++ (asc " /BitsPerComponent "
        ++ (natDigits p.bpc ++ (asc " /Filter /FlateDecode /DecodeParms << /Predictor 15 /Colors "
        ++ (natDigits p.components ++ (asc " /BitsPerComponent " ++ (natDigits p.bpc
        ++ (asc " /Columns " ++ (natDigits p.width ++ (asc " >> /Length "
        ++ (natDigits p.data.length ++ (asc " >>\nstream\n" ++ (p.data
        ++ asc "\nendstream\nendobj\n"))))))))))))))))))) := by
    unfold imageObjMulti
    rw [show asc " 0 obj\n<< /Type /XObject /Subtype /Image /Width "
      = asc " 0 obj" ++ asc "\n<< /Type /XObject /Subtype /Image /Width " from rfl]
    simp [List.append_assoc]
  rw [hform]
  exact objNumOf_render _ _ _ rfl

theorem imageObjMulti_payload (n i : Nat) (p : PageData) :
    ∃ pre, imageObjMulti n i p
      = pre ++ (asc " >> /Length " ++ (natDigits p.data.length
          ++ (asc " >>\nstream\n" ++ (p.data ++ asc "\nendstream\nendobj\n")))) := by
  refine ⟨natDigits (3 + 2 * n + i)
    ++ asc " 0 obj\n<< /Type /XObject /Subtype /Image /Width " ++ natDigits p.width
    ++ asc " /Height " ++ natDigits p.height ++ asc " /ColorSpace " ++ p.colorspace
    ++ asc " /BitsPerComponent " ++ natDigits p.bpc
    ++ asc " /Filter /FlateDecode /DecodeParms << /Predictor 15 /Colors "
    ++ natDigits p.components ++ asc " /BitsPerComponent " ++ natDigits p.bpc
    ++ asc " /Columns " ++ natDigits p.width, ?_⟩
  unfold imageObjMulti
  simp [List.append_assoc]

/-- **C1** is false on the code: the purity comparison is not outcome-neutral.
For `candPurityMismatch` against `storedPurityMismatch` the stored
classification is a recognized voucher code, `weightMatches` and
`dateMatches` both hold (so the claimed acceptance rule
`(weightMatches ∨ amountMatches) ∧ dateMatches` is satisfied), both sides
carry purity values whose parsed floats differ by `1e-3 ≥ 1e-4`, and yet the
match decision is `false`, because a failing purity comparison makes the
loop `continue` and reject the stored voucher. -/
theorem c1_purity_changes_outcome :
    classificationGate storedPurityMismatch = true ∧
    weightCrit candPurityMismatch storedPurityMismatch = true ∧
    dateCrit candPurityMismatch storedPurityMismatch = true ∧
    purityGate candPurityMismatch storedPurityMismatch = false ∧
    matchDecision candPurityMismatch storedPurityMismatch = false := by
  refine ⟨by decide, by decide, by decide, by decide, by decide⟩

/-- **C1 (amended)**: for every candidate and stored voucher whose
classification is one of the seven recognized codes, the match decision is
true iff the purity gate passes **and** `(weightMatches ∨ amountMatches) ∧
dateMatches` holds; a purity pair present on both sides whose parsed floats
differ by at least `1e-4` rejects the voucher regardless of the other
criteria. -/
theorem c1_match_decision_characterization (c : AttachmentCriteria) (v : StoredVoucher)
    (hclass : classificationGate v = true) :
    matchDecision c v = true ↔
      purityGate c v = true ∧
        (weightCrit c v = true ∨ amountCrit c v = true) ∧ dateCrit c v = true := by
  unfold matchDecision
  rw [hclass]
  cases hp : purityGate c v <;>
    simp [hp, Bool.or_eq_true, Bool.and_eq_true]

/-- Witness for `c1_match_decision_characterization` at a concrete accepted
pair: same purity on both sides, matching weight and date. -/
theorem c1_match_decision_characterization_witness :
    classificationGate storedPurityMismatch = true ∧
    (matchDecision candPurityMismatch
        { storedPurityMismatch with purity := some ['0','.','9','9','5'] } = true ↔
      purityGate candPurityMismatch
          { storedPurityMismatch with purity := some ['0','.','9','9','5'] } = true ∧
        (weightCrit candPurityMismatch
            { storedPurityMismatch with purity := some ['0','.','9','9','5'] } = true ∨
          amountCrit candPurityMismatch
            { storedPurityMismatch with purity := some ['0','.','9','9','5'] } = true) ∧
        dateCrit candPurityMismatch
          { storedPurityMismatch with purity := some ['0','.','9','9','5'] } = true) :=
  ⟨by decide,
   c1_match_decision_characterization candPurityMismatch
     { storedPurityMismatch with purity := some ['0','.','9','9','5'] } (by decide)⟩

/-- **C2** is false on the code at its own cited example: the 1% tolerance is
measured relative to the *stored* amount, so a candidate USD amount
`1000.00` against a stored `1010.01` gives `|1000 − 1010.01| / 1010.01 ≈
0.991% ≤ 1%`, i.e. a match, where the claim asserts a non-match. -/
theorem c2_usd_1010_01_matches :
    amountCrit candUsd1000 storedUsd101001 = true ∧
    usdCrit candUsd1000 storedUsd101001 = true := by
  refine ⟨by decide, by decide⟩

/-- **C2 (amended)**: `amountMatches` holds exactly when both USD amounts are
present, parse, the stored USD value is positive and the difference relative
to the **stored** value is at most 1%, or, if the USD leg did not match, the
same condition on the AED amounts.  A missing amount, a parse failure, or a
non-positive stored value makes that currency not match.  Consequently a
candidate `1000.00` matches a stored `1009.99` **and also** a stored
`1010.01` (both are within 1% of the stored value). -/
theorem c2_amount_characterization :
    (∀ (c : AttachmentCriteria) (v : StoredVoucher),
      amountCrit c v = true ↔
        ((∃ a b x y, truthy c.amountUsd = some a ∧ truthy v.amountUsd = some b ∧
            pyFloat? a = some x ∧ pyFloat? b = some y ∧
            0 < y.toQ ∧ |x.toQ - y.toQ| / y.toQ ≤ 1 / 100) ∨
         (usdCrit c v = false ∧
          ∃ a b x y, truthy c.amountAed = some a ∧ truthy v.amountAed = some b ∧
            pyFloat? a = some x ∧ pyFloat? b = some y ∧
            0 < y.toQ ∧ |x.toQ - y.toQ| / y.toQ ≤ 1 / 100))) ∧
    amountCrit candUsd1000 storedUsd100999 = true ∧
    amountCrit candUsd1000 storedUsd101001 = true := by
  refine ⟨fun c v => ?_, by decide, by decide⟩
  have husd : usdCrit c v = true ↔
      ∃ a b x y, truthy c.amountUsd = some a ∧ truthy v.amountUsd = some b ∧
        pyFloat? a = some x ∧ pyFloat? b = some y ∧
        0 < y.toQ ∧ |x.toQ - y.toQ| / y.toQ ≤ 1 / 100 := by
    unfold usdCrit
    cases hca : truthy c.amountUsd with
    | none => simp [hca]
    | some a =>
      cases hva : truthy v.amountUsd with
      | none => simp [hca, hva]
      | some b =>
        rw [amountTolOk_iff]
        constructor
        · rintro ⟨x, y, hx, hy, hp, hl⟩
          exact ⟨a, b, x, y, rfl, rfl, hx, hy, hp, hl⟩
        · rintro ⟨a', b', x, y, ha, hb, hx, hy, hp, hl⟩
          cases ha; cases hb
          exact ⟨x, y, hx, hy, hp, hl⟩
  have haed : aedCrit c v = true ↔
      ∃ a b x y, truthy c.amountAed = some a ∧ truthy v.amountAed = some b ∧
        pyFloat? a = some x ∧ pyFloat? b = some y ∧
        0 < y.toQ ∧ |x.toQ - y.toQ| / y.toQ ≤ 1 / 100 := by
    unfold aedCrit
    cases hca : truthy c.amountAed with
    | none => simp [hca]
    | some a =>
      cases hva : truthy v.amountAed with
      | none => simp [hca, hva]
      | some b =>
        rw [amountTolOk_iff]
        constructor
        · rintro ⟨x, y, hx, hy, hp, hl⟩
          exact ⟨a, b, x, y, rfl, rfl, hx, hy, hp, hl⟩
        · rintro ⟨a', b', x, y, ha, hb, hx, hy, hp, hl⟩
          cases ha; cases hb
          exact ⟨x, y, hx, hy, hp, hl⟩
  unfold amountCrit
  cases hu : usdCrit c v with
  | true =>
    simp only [Bool.true_or, true_iff]
    exact Or.inl (husd.1 hu)
  | false =>
    simp only [Bool.false_or, Bool.not_false, Bool.true_and]
    constructor
    · intro ha
      exact Or.inr ⟨trivial, haed.1 ha⟩
    · rintro (h | ⟨_, h⟩)
      · exact absurd (husd.2 h) (by rw [hu]; exact Bool.false_ne_true)
      · exact haed.2 h

/-- **C3**: for `N ≥ 2` valid PNG inputs, `_merge_png_images_to_pdf` emits a
PDF whose Pages object lists exactly the page references `3 … N+2` in input
order, whose page, content and image objects carry the deterministic object
numbers `Page_i = 3+i`, `Content_i = 3+N+i`, `Image_i = 3+2N+i`, and whose
`i`-th image object's stream (`/Length` field and payload) is byte-identical
to the concatenated IDAT data of the `i`-th input image. -/
theorem c3_multipage_structure (pngs : List Bytes) (hN : 2 ≤ pngs.length)
    (hvalid : ∀ p ∈ pngs, p.take 8 = pngSig ∧ 26 ≤ p.length ∧ extractPngIdat p ≠ none) :
    mergePngImagesToPdf pngs
      = Except.ok (some ((multiPageChunks (pngs.map pageOfPng)).join)) ∧
    (pngs.map pageOfPng).length = pngs.length ∧
    (multiPageChunks (pngs.map pageOfPng)).length = 3 + 3 * pngs.length + 2 ∧
    kidsNumsOf ((multiPageChunks (pngs.map pageOfPng)).getD 2 [])
      = some ((List.range pngs.length).map (fun i => 3 + i)) ∧
    ∀ i, i < pngs.length →
      objNumOf ((multiPageChunks (pngs.map pageOfPng)).getD (3 + i) []) = some (3 + i) ∧
      objNumOf ((multiPageChunks (pngs.map pageOfPng)).getD (3 + pngs.length + i) [])
        = some (3 + pngs.length + i) ∧
      objNumOf ((multiPageChunks (pngs.map pageOfPng)).getD (3 + 2 * pngs.length + i) [])
        = some (3 + 2 * pngs.length + i) ∧
      ∃ d pre, extractPngIdat (pngs.getD i []) = some d ∧
        (multiPageChunks (pngs.map pageOfPng)).getD (3 + 2 * pngs.length + i) []
          = pre ++ (asc " >> /Length " ++ (natDigits d.length
              ++ (asc " >>\nstream\n" ++ (d ++ asc "\nendstream\nendobj\n")))) := by
  have hlen : (pngs.map pageOfPng).length = pngs.length := List.length_map _ _
  have hpd := pagesData_valid pngs hvalid
  refine ⟨?_, hlen, ?_, ?_, ?_⟩
  · unfold mergePngImagesToPdf
    rw [if_neg (by intro h; rw [h] at hN; simp at hN),
      if_neg (by omega), hpd]
    show (if (pngs.map pageOfPng) = []
        then (Except.error "No valid PNG images to merge" : Except String (Option Bytes))
        else Except.ok (some (multiPageChunks (pngs.map pageOfPng)).join))
      = Except.ok (some ((multiPageChunks (pngs.map pageOfPng)).join))
    rw [if_neg (by
      intro h
      simp only [List.map_eq_nil] at h
      rw [h] at hN
      simp at hN)]
  · rw [multiPageChunks_length, hlen]
  · rw [multiPageChunks_getD_pages, hlen]
    exact kidsNumsOf_pagesObjMulti pngs.length (by omega)
  · intro i hi
    have hi' : i < (pngs.map pageOfPng).length := by rw [hlen]; exact hi
    refine ⟨?_, ?_, ?_, ?_⟩
    · rw [multiPageChunks_getD_page _ i hi', hlen]
      exact objNumOf_pageObjMulti _ _ _
    · rw [show 3 + pngs.length + i = 3 + (pngs.map pageOfPng).length + i by rw [hlen]]
      rw [multiPageChunks_getD_content _ i hi', hlen]
      exact objNumOf_contentObjMulti _ _ _
    · rw [show 3 + 2 * pngs.length + i = 3 + 2 * (pngs.map pageOfPng).length + i by rw [hlen]]
      rw [multiPageChunks_getD_image _ i hi', hlen]
      exact objNumOf_imageObjMulti _ _ _
    · obtain ⟨h1, h2, h3⟩ := hvalid (pngs.getD i []) (by
        have : pngs.getD i [] ∈ pngs := by
          rw [List.getD_eq_getElem _ _ hi]
          exact List.getElem_mem _
        exact this)
      cases hid : extractPngIdat (pngs.getD i []) with
      | none => exact absurd hid h3
      | some d =>
        refine ⟨d, ?_⟩
        rw [show 3 + 2 * pngs.length + i = 3 + 2 * (pngs.map pageOfPng).length + i by rw [hlen]]
        rw [multiPageChunks_getD_image _ i hi']
        have hget : (pngs.map pageOfPng).getD i default = pageOfPng (pngs.getD i []) := by
          rw [List.getD_eq_getElem _ _ hi', List.getElem_map, List.getD_eq_getElem _ _ hi]
        rw [hget]
        obtain ⟨pre, hpre⟩ := imageObjMulti_payload (pngs.map pageOfPng).length i
          (pageOfPng (pngs.getD i []))
        refine ⟨pre, rfl, ?_⟩
        rw [hpre]
        have hdata : (pageOfPng (pngs.getD i [])).data = d := by
          unfold pageOfPng
          rw [hid]
          rfl
        rw [hdata]

/-- Witness for `c3_multipage_structure` at two concrete valid PNGs. -/
theorem c3_multipage_structure_witness :
    (2 ≤ [tinyGrayPng, tinyGrayPng].length ∧
      ∀ p ∈ [tinyGrayPng, tinyGrayPng],
        p.take 8 = pngSig ∧ 26 ≤ p.length ∧ extractPngIdat p ≠ none) ∧
    mergePngImagesToPdf [tinyGrayPng, tinyGrayPng]
      = Except.ok (some ((multiPageChunks ([tinyGrayPng, tinyGrayPng].map pageOfPng)).join)) := by
  refine ⟨⟨by decide, by decide⟩, ?_⟩
  exact (c3_multipage_structure [tinyGrayPng, tinyGrayPng] (by decide) (by decide)).1

/-- **C6** is false on the code: the single-page writer's `/DecodeParms` is
hard-coded.  For the valid grayscale PNG `tinyGrayPng` (colour type 0, so
one component) the emitted XObject correctly carries
`/ColorSpace /DeviceGray`, yet its `/DecodeParms` dictionary says
`/Colors 3` — not the image's component count 1. -/
theorem c6_decodeparms_hardcoded :
    (convertImageToPdf tinyGrayPng).isSome = true ∧
    tinyGrayPng.getD 25 0 = 0 ∧
    (pngColorInfo (tinyGrayPng.getD 25 0)).2 = 1 ∧
    containsSub ((convertImageToPdf tinyGrayPng).getD [])
      (asc "/ColorSpace /DeviceGray") = true ∧
    containsSub ((convertImageToPdf tinyGrayPng).getD [])
      (asc "/DecodeParms << /Predictor 15 /Colors 3 /BitsPerComponent 8 /Columns 2 >>")
      = true ∧
    containsSub ((convertImageToPdf tinyGrayPng).getD []) (asc "/Colors 1") = false := by
  refine ⟨by decide, by decide, by decide, by decide, by decide, by decide⟩

/-- **C6 (amended)**: for every PNG the single-page writer accepts, the
emitted `/DecodeParms` dictionary is the fixed
`<< /Predictor 15 /Colors 3 /BitsPerComponent 8 /Columns {width} >>` —
`/Columns` does track the image width, but `/Colors` is always `3` and the
DecodeParms-level `/BitsPerComponent` always `8`, regardless of the PNG's
component count and bit depth; only the XObject-level `/ColorSpace` and
`/BitsPerComponent` follow the image. -/
theorem c6_decodeparms_shape (img idat : Bytes)
    (hsig : img.take 8 = pngSig) (hlen : 26 ≤ img.length)
    (hidat : extractPngIdat img = some idat) :
    ∃ pre post,
      convertImageToPdf img =
        some (pre ++ (asc "/ColorSpace " ++ (pngColorInfo (img.getD 25 0)).1
          ++ asc " /BitsPerComponent " ++ natDigits (img.getD 24 0) ++ asc " "
          ++ asc "/Filter /FlateDecode " ++ decodeParmsSingle (u32be img 16)) ++ post) := by
  have hjpeg : ¬ img.take 2 = [0xFF, 0xD8] := by
    have h2 : img.take 2 = [0x89, 0x50] := by
      have := congrArg (List.take 2) hsig
      rwa [List.take_take, show min 2 8 = 2 from rfl] at this
    rw [h2]; decide
  have hne : ¬ img = [] := by
    intro h; rw [h] at hlen; simp at hlen
  unfold convertImageToPdf
  rw [if_neg hne, if_neg hjpeg, if_pos hsig, if_neg (by omega), hidat]
  refine ⟨pdfHeader ++ catalogObj ++ pagesObjSingle ++ pageObjSingle (u32be img 16) (u32be img 20)
    ++ contentObjSingle (u32be img 16) (u32be img 20)
    ++ (asc "5 0 obj\n" ++ asc "<< /Type /XObject /Subtype /Image /Width "
        ++ natDigits (u32be img 16) ++ asc " /Height " ++ natDigits (u32be img 20) ++ asc " "),
    asc "/Length " ++ natDigits idat.length ++ asc " >>\nstream\n" ++ idat
      ++ asc "\nendstream\nendobj\n"
      ++ (singlePageChunks (u32be img 16) (u32be img 20)
            (pngColorInfo (img.getD 25 0)).1 (img.getD 24 0) true idat).getD 6 []
      ++ (singlePageChunks (u32be img 16) (u32be img 20)
            (pngColorInfo (img.getD 25 0)).1 (img.getD 24 0) true idat).getD 7 [], ?_⟩
  simp only [singlePageChunks, imageObjSingle, List.join, List.getD, List.getElem?_cons_succ,
    List.getElem?_cons_zero, Option.getD_some, if_pos, List.append_assoc, List.append_nil,
    Option.some.injEq, if_true]
  simp [List.append_assoc]

/-- Closed instance of the single-page `/DecodeParms` shape on the concrete
grayscale PNG `tinyGrayPng`. -/
theorem c6_decodeparms_shape_witness :
    tinyGrayPng.take 8 = pngSig ∧ 26 ≤ tinyGrayPng.length ∧
    extractPngIdat tinyGrayPng = some [9, 8, 7, 6, 5] ∧
    ∃ pre post,
      convertImageToPdf tinyGrayPng =
        some (pre ++ (asc "/ColorSpace " ++ (pngColorInfo (tinyGrayPng.getD 25 0)).1
          ++ asc " /BitsPerComponent " ++ natDigits (tinyGrayPng.getD 24 0) ++ asc " "
          ++ asc "/Filter /FlateDecode " ++ decodeParmsSingle (u32be tinyGrayPng 16)) ++ post) :=
  ⟨by decide, by decide, by decide,
   c6_decodeparms_shape tinyGrayPng [9, 8, 7, 6, 5] (by decide) (by decide) (by decide)⟩

/-- **C7**: the multi-page builder raises (`ValueError`, the
`EmptyDocumentError` of the design) on an empty input list, and on a
single-element list its output is exactly the single-page builder applied to
that element. -/
theorem c7_empty_raises_single_delegates :
    mergePngImagesToPdf [] = Except.error "No PNG images to merge" ∧
    ∀ p : Bytes, mergePngImagesToPdf [p] = Except.ok (convertImageToPdf p) := by
  constructor
  · rfl
  · intro p
    simp [mergePngImagesToPdf]

/-- **C9**: the first-page extractor is total (the model is a total
function, mirroring that every failure path in the source returns instead
of raising) and two-valued: whenever it reports the degraded flag the
output bytes are exactly the input bytes passed through unmodified, and
otherwise the output is a rebuilt single-page document. -/
theorem c9_degrades_never_raises (b : Bytes) :
    ((extractFirstPageOnly b).2 = true → (extractFirstPageOnly b).1 = b) ∧
    ((extractFirstPageOnly b).2 = false → ∃ w h objDict streamData,
      (extractFirstPageOnly b).1 = firstPageRebuild w h objDict streamData) := by
  rcases hE : extractFirstPageOnly b with ⟨out, flag⟩
  unfold extractFirstPageOnly at hE
  repeat' first
    | split at hE
    | simp only [] at hE
  all_goals injection hE with h1 h2
  all_goals subst h1
  all_goals subst h2
  all_goals
    first
    | exact ⟨fun _ => rfl, fun hf => by simp at hf⟩
    | exact ⟨fun ht => by simp at ht, fun _ => ⟨_, _, _, _, rfl⟩⟩

/-- Closed instance of the degraded path: three junk bytes pass through
unmodified with the degraded flag set. -/
theorem c9_degrades_never_raises_witness :
    (extractFirstPageOnly [1, 2, 3]).2 = true ∧
    (extractFirstPageOnly [1, 2, 3]).1 = [1, 2, 3] :=
  ⟨by decide, (c9_degrades_never_raises [1, 2, 3]).1 (by decide)⟩

/-! ### Store lemmas -/

lemma getObj_delObj_other (st : Store) (k0 k : Str) (h : k ≠ k0) :
    getObj (delObj st k0) k = getObj st k := by
  induction st with
  | nil => rfl
  | cons e rest ih =>
    obtain ⟨ke, o⟩ := e
    by_cases hk : ke = k0
    · subst hk
      rw [show delObj ((ke, o) :: rest) ke = delObj rest ke from by simp [delObj]]
      rw [ih]
      simp only [getObj, if_neg (Ne.symm h)]
    · rw [show delObj ((ke, o) :: rest) k0 = (ke, o) :: delObj rest k0 from by
        simp [delObj, hk]]
      by_cases hke : ke = k
      · simp [getObj, hke]
      · simp only [getObj, if_neg hke]
        exact ih

lemma getObj_putObj_same (st : Store) (k : Str) (o : S3Obj) :
    getObj (putObj st k o) k = some o := by
  induction st with
  | nil => simp [putObj, getObj]
  | cons e rest ih =>
    obtain ⟨ke, oe⟩ := e
    by_cases hk : ke = k
    · simp [putObj, getObj, hk]
    · simp only [putObj, if_neg hk]
      simpa [getObj, hk] using ih

lemma getObj_putObj_other (st : Store) (k : Str) (o : S3Obj) (k2 : Str) (h : k2 ≠ k) :
    getObj (putObj st k o) k2 = getObj st k2 := by
  induction st with
  | nil => simp [putObj, getObj, if_neg (Ne.symm h)]
  | cons e rest ih =>
    obtain ⟨ke, oe⟩ := e
    by_cases hk : ke = k
    · subst hk
      simp only [putObj, if_pos rfl, getObj]
      rw [if_neg (Ne.symm h), if_neg (Ne.symm h)]
    · simp only [putObj, if_neg hk, getObj]
      by_cases hke : ke = k2
      · simp [hke]
      · rw [if_neg hke, if_neg hke]
        exact ih

/-! ### Collection-phase lemmas -/

/-- If some matched voucher's ledger trips the duplicate check, the
collection loop reports a duplicate (it breaks at the first such key). -/
lemma collectPhase_dup_of_mem (st : Store) (d : Str) (sz : Nat)
    (keys : List Str) (mk : Str) (hm : mk ∈ keys)
    (hd : dupInLedger st mk d sz = true) :
    (collectPhase st (some d) sz keys).2 = true := by
  induction keys with
  | nil => cases hm
  | cons k0 rest ih =>
    by_cases h0 : dupInLedger st k0 d sz = true
    · simp [collectPhase, h0]
    · rcases List.mem_cons.mp hm with heq | hmem
      · subst heq; exact absurd hd h0
      · simp only [collectPhase, h0, if_false, Bool.false_eq_true]
        exact ih hmem

/-- When no duplicate is detected the collected images are precisely the
ledger images of every matched key, in matching order. -/
lemma collectPhase_no_dup_imgs (st : Store) (dT : Option Str) (sz : Nat)
    (keys : List Str)
    (h : (collectPhase st dT sz keys).2 = false) :
    (collectPhase st dT sz keys).1
      = keys.flatMap (fun mk => ledgerImages st mk) := by
  induction keys with
  | nil => simp [collectPhase]
  | cons k0 rest ih =>
    cases dT with
    | none =>
      simp only [collectPhase, Bool.false_eq_true, if_false] at h ⊢
      rw [List.flatMap_cons, ih h]
    | some d =>
      by_cases h0 : dupInLedger st k0 d sz = true
      · simp [collectPhase, h0] at h
      · simp only [collectPhase, h0, if_false, Bool.false_eq_true] at h ⊢
        rw [List.flatMap_cons, ih h]

/-- **C4**: when the candidate carries a document number and some matched
voucher's ledger already records an attachment with that document number (or
the candidate's byte size), the run ends as a duplicate skip: the temp copy
is removed and every other key of the bucket — in particular every matched
voucher's stored PDF and its ledger PNGs — is byte-for-byte unchanged. -/
theorem c4_duplicate_skip (inp : MergeInput) (st : Store) (f : Option Nat)
    (d mk : Str)
    (hd : truthy inp.candDocNo = some d)
    (hm : mk ∈ inp.matchingKeys)
    (hdup : dupInLedger st mk d inp.candBytes.length = true) :
    (attachmentMergePhase inp st f).1 = MergeOutcome.duplicateSkipped ∧
    ∀ k, k ≠ inp.tempKey →
      getObj (attachmentMergePhase inp st f).2 k = getObj st k := by
  have hcol : (collectPhase st (truthy inp.candDocNo) inp.candBytes.length
      inp.matchingKeys).2 = true := by
    rw [hd]
    exact collectPhase_dup_of_mem st d inp.candBytes.length inp.matchingKeys mk hm hdup
  have hphase : attachmentMergePhase inp st f
      = (MergeOutcome.duplicateSkipped, delObj st inp.tempKey) := by
    unfold attachmentMergePhase
    simp only [hcol, if_true]
  rw [hphase]
  exact ⟨rfl, fun k hk => getObj_delObj_other st inp.tempKey k hk⟩

/-- Closed instance of the duplicate skip: on the concrete bucket `stDup`,
whose first matched voucher already records attachment `D9`, the phase skips
and the matched voucher's stored PDF is untouched. -/
theorem c4_duplicate_skip_witness :
    truthy inpMain.candDocNo = some ("D9".toList) ∧
    (attachmentMergePhase inpMain stDup none).1 = MergeOutcome.duplicateSkipped ∧
    getObj (attachmentMergePhase inpMain stDup none).2 (("va/A_0001.pdf").toList)
      = getObj stDup (("va/A_0001.pdf").toList) := by
  have h := c4_duplicate_skip inpMain stDup none ("D9".toList)
    (("va/A_0001.pdf").toList) (by decide) (by decide) (by decide)
  exact ⟨by decide, h.1, h.2 (("va/A_0001.pdf").toList) (by decide)⟩

/-- **C5** (counterexample): the merge is not all-or-nothing.  On the
concrete bucket `stMain` with two matched vouchers, a write fault striking
after the first voucher's writes (`faultAt = 2`, the second voucher's
attachment put) ends the run in `mergeFailed`, yet the first voucher's
stored PDF has already been replaced by the merged bytes while the second
voucher's is untouched — and the temp copy is not cleaned up. -/
theorem c5_partial_write_persists :
    (attachmentMergePhase inpMain stMain (some 2)).1 = MergeOutcome.mergeFailed ∧
    getObj (attachmentMergePhase inpMain stMain (some 2)).2 (("va/A_0001.pdf").toList)
      ≠ getObj stMain (("va/A_0001.pdf").toList) ∧
    getObj (attachmentMergePhase inpMain stMain (some 2)).2 (("vb/B_0001.pdf").toList)
      = getObj stMain (("vb/B_0001.pdf").toList) ∧
    (getObj (attachmentMergePhase inpMain stMain (some 2)).2 inpMain.tempKey).isSome
      = true := by
  refine ⟨by decide, by decide, by decide, by decide⟩

/-- **C5** (amended): what holds instead of atomicity.  An exception raised
while the merged document is being rebuilt — before any write has been
issued — does end the run in `MergeFailed` with the bucket byte-for-byte
unchanged; once writes have begun, a failure still ends in `MergeFailed`
but every `put_object` already performed persists (no rollback), as the
counterexample shows. -/
theorem c5_rebuild_failure_preserves_store (inp : MergeInput) (st : Store)
    (f : Option Nat) (e : String)
    (hcol : (collectPhase st (truthy inp.candDocNo) inp.candBytes.length
        inp.matchingKeys).2 = false)
    (hmerge : mergePngImagesToPdf
        ((collectPhase st (truthy inp.candDocNo) inp.candBytes.length
          inp.matchingKeys).1 ++ [inp.candBytes]) = Except.error e) :
    attachmentMergePhase inp st f = (MergeOutcome.mergeFailed, st) := by
  unfold attachmentMergePhase
  simp only [hcol, Bool.false_eq_true, if_false, hmerge]
  have hne : (collectPhase st (truthy inp.candDocNo) inp.candBytes.length
      inp.matchingKeys).1 ≠ [] := by
    intro hnil
    rw [hnil] at hmerge
    have : mergePngImagesToPdf ([] ++ [inp.candBytes])
        = Except.ok (convertImageToPdf inp.candBytes) := by
      simp [mergePngImagesToPdf]
    rw [this] at hmerge
    cases hmerge
  rw [if_neg hne]

/-- Closed instance of the rebuild-failure case: the bucket `stBad` holds a
truncated original PNG, the rebuild raises, and the bucket comes through
unchanged with outcome `mergeFailed`. -/
theorem c5_rebuild_failure_preserves_store_witness :
    (collectPhase stBad (truthy inpBad.candDocNo) inpBad.candBytes.length
        inpBad.matchingKeys).2 = false ∧
    attachmentMergePhase inpBad stBad none = (MergeOutcome.mergeFailed, stBad) :=
  ⟨by decide,
   c5_rebuild_failure_preserves_store inpBad stBad none "png header out of range"
     (by decide) (by rfl)⟩

/-! ### Key-shape lemmas for the fan-out writes -/

lemma replaceSubCF_nil (f : Nat) (pat R : Str) : replaceSubCF f [] pat R = [] := by
  cases f with
  | zero => rfl
  | succ f =>
    cases pat with
    | nil => simp [replaceSubCF]
    | cons p ps => simp [replaceSubCF, hasPfxC]

lemma replaceSubCF_succ (f : Nat) (s pat repl : Str) :
    replaceSubCF (f + 1) s pat repl
      = if hasPfxC s pat ∧ pat ≠ [] then
          repl ++ replaceSubCF f (s.drop pat.length) pat repl
        else
          match s with
          | [] => []
          | c :: r => c :: replaceSubCF f r pat repl := rfl

/-- `s.replace('.pdf', R)` on a string ending in `.pdf` ends in `R` (the
final occurrence is always replaced: `.pdf` cannot overlap itself). -/
lemma replaceSubCF_pdf_ends (fuel : Nat) :
    ∀ (s u R : Str), s.length < fuel → u ++ (".pdf".toList) = s →
      ∃ v, replaceSubCF fuel s (".pdf".toList) R = v ++ R := by
  induction fuel with
  | zero => exact fun s u R hf _ => absurd hf (Nat.not_lt_zero _)
  | succ f ih =>
    intro s u R hf hs
    subst hs
    have hp4 : (".pdf".toList).length = 4 := rfl
    rcases u with _ | ⟨a, u1⟩
    · refine ⟨[], ?_⟩
      rw [List.nil_append]
      unfold replaceSubCF
      rw [if_pos ⟨by decide, by decide⟩]
      rw [show ((".pdf".toList).drop (".pdf".toList).length : Str) = [] from rfl]
      rw [replaceSubCF_nil, List.append_nil, List.nil_append]
    · by_cases hc : hasPfxC ((a :: u1) ++ (".pdf".toList)) (".pdf".toList) = true
      · rcases u1 with _ | ⟨b, u2⟩
        · simp [hasPfxC] at hc
        · rcases u2 with _ | ⟨c, u3⟩
          · simp [hasPfxC] at hc
          · rcases u3 with _ | ⟨d, u4⟩
            · simp [hasPfxC] at hc
            · have hstep : replaceSubCF (f + 1) ((a :: b :: c :: d :: u4) ++ (".pdf".toList))
                  (".pdf".toList) R
                  = R ++ replaceSubCF f (u4 ++ (".pdf".toList)) (".pdf".toList) R := by
                rw [replaceSubCF_succ, if_pos ⟨hc, by decide⟩, hp4]
                rfl
              obtain ⟨v, hv⟩ := ih (u4 ++ (".pdf".toList)) u4 R
                (by simp only [List.length_append, List.length_cons, hp4] at hf ⊢; omega) rfl
              exact ⟨R ++ v, by rw [hstep, hv, List.append_assoc]⟩
      · have hstep : replaceSubCF (f + 1) ((a :: u1) ++ (".pdf".toList)) (".pdf".toList) R
            = a :: replaceSubCF f (u1 ++ (".pdf".toList)) (".pdf".toList) R := by
          rw [replaceSubCF_succ, if_neg (fun hand => hc hand.1)]
          rfl
        obtain ⟨v, hv⟩ := ih (u1 ++ (".pdf".toList)) u1 R
          (by simp only [List.length_append, List.length_cons, hp4] at hf ⊢; omega) rfl
        exact ⟨a :: v, by rw [hstep, hv]; rfl⟩

lemma replaceSubC_pdf_ends (s u R : Str) (hs : u ++ (".pdf".toList) = s) :
    ∃ v, replaceSubC s (".pdf".toList) R = v ++ R :=
  replaceSubCF_pdf_ends (s.length + 1) s u R (Nat.lt_succ_self _) hs

lemma append_last_ne (x y : Char) (hxy : x ≠ y) (u v t s : Str) :
    u ++ (t ++ [x]) ≠ v ++ (s ++ [y]) := by
  intro h
  have h1 : (u ++ (t ++ [x])).reverse = (v ++ (s ++ [y])).reverse := congrArg _ h
  simp only [List.reverse_append, List.reverse_cons, List.reverse_nil, List.nil_append,
    List.cons_append, List.cons.injEq] at h1
  exact hxy h1.1

/-- A key ending in `.png` never coincides with a key ending in `.pdf`. -/
lemma png_key_ne_pdf_key (a b u v : Str)
    (ha : a = u ++ (".png".toList)) (hb : v ++ (".pdf".toList) = b) : a ≠ b := by
  subst ha
  subst hb
  have e1 : (".png".toList : Str) = (".pn".toList) ++ ['g'] := rfl
  have e2 : (".pdf".toList : Str) = (".pd".toList) ++ ['f'] := rfl
  rw [e1, e2]
  exact append_last_ne 'g' 'f' (by decide) u v (".pn".toList) (".pd".toList)

lemma endsWithStr_iff (s t : Str) : endsWithStr s t = true ↔ ∃ u, u ++ t = s := by
  unfold endsWithStr
  rw [List.isSuffixOf_iff_suffix]
  exact Iff.rfl

/-- The attachment key written for a matched `.pdf` key ends in `.png`. -/
lemma apngKeyOf_ends (st : Store) (mk u : Str) (hu : u ++ (".pdf".toList) = mk) :
    ∃ w, apngKeyOf st mk = w ++ (".png".toList) := by
  obtain ⟨v, hv⟩ := replaceSubC_pdf_ends mk u
    (("_attachment_".toList) ++ natDigitsC (nextAttachmentNum st (dirOf mk)) ++ (".png".toList))
    hu
  refine ⟨v ++ (("_attachment_".toList) ++ natDigitsC (nextAttachmentNum st (dirOf mk))), ?_⟩
  rw [apngKeyOf, hv]
  simp [List.append_assoc]

/-! ### Fan-out write lemmas -/

lemma writeOne_none (st : Store) (mk : Str) (inp : MergeInput) (mb : Bytes) (ctr : Nat)
    (hb : batchIdOk inp.batchId = false) :
    writeOne st mk inp mb ctr none
      = Except.ok (putObj (putObj st (apngKeyOf st mk)
            ⟨inp.candBytes, attachmentMeta (origMetaOf st mk) inp⟩)
          mk ⟨mb, origMetaOf st mk⟩, ctr + 2) := by
  simp [writeOne, hb]

/-- Keys outside the matched set (that end in `.pdf`, as all matched keys
do) are untouched by the write loop. -/
lemma writesPhase_frame (inp : MergeInput) (mb : Bytes)
    (hb : batchIdOk inp.batchId = false) :
    ∀ (keys : List Str) (st : Store) (ctr : Nat) (k : Str),
      (∀ mk ∈ keys, ∃ u, u ++ (".pdf".toList) = mk) →
      (∃ w, w ++ (".pdf".toList) = k) → k ∉ keys →
      ∃ st2, writesPhase inp mb none keys st ctr = Except.ok st2 ∧
        getObj st2 k = getObj st k := by
  intro keys
  induction keys with
  | nil => exact fun st ctr k _ _ _ => ⟨st, rfl, rfl⟩
  | cons mk rest ih =>
    intro st ctr k hends hk hnotin
    obtain ⟨u, hu⟩ := hends mk (List.mem_cons_self mk rest)
    obtain ⟨st2, heq, hget⟩ := ih
      (putObj (putObj st (apngKeyOf st mk)
          ⟨inp.candBytes, attachmentMeta (origMetaOf st mk) inp⟩)
        mk ⟨mb, origMetaOf st mk⟩)
      (ctr + 2) k
      (fun m hm => hends m (List.mem_cons_of_mem _ hm)) hk
      (fun hmem => hnotin (List.mem_cons_of_mem _ hmem))
    refine ⟨st2, ?_, ?_⟩
    · simp only [writesPhase]
      rw [writeOne_none st mk inp mb ctr hb]
      exact heq
    · rw [hget]
      have hkmk : k ≠ mk := fun hkm => hnotin (hkm ▸ List.mem_cons_self mk rest)
      obtain ⟨w, hw⟩ := hk
      obtain ⟨w2, hw2⟩ := apngKeyOf_ends st mk u hu
      have hkapng : k ≠ apngKeyOf st mk :=
        Ne.symm (png_key_ne_pdf_key (apngKeyOf st mk) k w2 w hw2 hw)
      rw [getObj_putObj_other _ _ _ _ hkmk, getObj_putObj_other _ _ _ _ hkapng]

/-- Every matched key ends up mapped to the merged bytes after the write
loop. -/
lemma writesPhase_writes (inp : MergeInput) (mb : Bytes)
    (hb : batchIdOk inp.batchId = false) :
    ∀ (keys : List Str) (st : Store) (ctr : Nat),
      (∀ mk ∈ keys, ∃ u, u ++ (".pdf".toList) = mk) → keys.Nodup →
      ∃ st2, writesPhase inp mb none keys st ctr = Except.ok st2 ∧
        ∀ mk ∈ keys, ∃ m, getObj st2 mk = some ⟨mb, m⟩ := by
  intro keys
  induction keys with
  | nil => exact fun st ctr _ _ => ⟨st, rfl, fun mk hm => absurd hm (List.not_mem_nil mk)⟩
  | cons mk rest ih =>
    intro st ctr hends hnd
    obtain ⟨u, hu⟩ := hends mk (List.mem_cons_self mk rest)
    obtain ⟨st2, heq, hall⟩ := ih
      (putObj (putObj st (apngKeyOf st mk)
          ⟨inp.candBytes, attachmentMeta (origMetaOf st mk) inp⟩)
        mk ⟨mb, origMetaOf st mk⟩)
      (ctr + 2)
      (fun m hm => hends m (List.mem_cons_of_mem _ hm))
      (List.Nodup.of_cons hnd)
    refine ⟨st2, ?_, ?_⟩
    · simp only [writesPhase]
      rw [writeOne_none st mk inp mb ctr hb]
      exact heq
    · intro m hm
      rcases List.mem_cons.mp hm with heqm | hmem
      · subst heqm
        obtain ⟨st3, heq3, hget3⟩ := writesPhase_frame inp mb hb rest
          (putObj (putObj st (apngKeyOf st m)
              ⟨inp.candBytes, attachmentMeta (origMetaOf st m) inp⟩)
            m ⟨mb, origMetaOf st m⟩)
          (ctr + 2) m
          (fun m2 hm2 => hends m2 (List.mem_cons_of_mem _ hm2))
          ⟨u, hu⟩
          ((List.nodup_cons.mp hnd).1)
        rw [heq] at heq3
        cases heq3
        refine ⟨origMetaOf st m, ?_⟩
        rw [hget3, getObj_putObj_same]
      · exact hall m hmem

/-- **C10**: on the no-duplicate path with all writes succeeding, the merge
produces a single byte string — the multi-page PDF built from the ledger
images (original page and prior attachments, originals first) of *all*
matched vouchers in matching order, followed by the candidate image — and
that same byte string replaces the stored PDF of *every* matched voucher. -/
theorem c10_merged_fanout (inp : MergeInput) (st : Store) (mb : Bytes)
    (hb : batchIdOk inp.batchId = false)
    (hend : ∀ mk ∈ inp.matchingKeys, endsWithStr mk (".pdf".toList) = true)
    (hnd : inp.matchingKeys.Nodup)
    (htmp : inp.tempKey ∉ inp.matchingKeys)
    (hcol : (collectPhase st (truthy inp.candDocNo) inp.candBytes.length
        inp.matchingKeys).2 = false)
    (hne : (collectPhase st (truthy inp.candDocNo) inp.candBytes.length
        inp.matchingKeys).1 ≠ [])
    (hmerge : mergePngImagesToPdf
        ((inp.matchingKeys.flatMap (fun mk => ledgerImages st mk)) ++ [inp.candBytes])
        = Except.ok (some mb)) :
    (attachmentMergePhase inp st none).1 = MergeOutcome.merged ∧
    ∀ mk ∈ inp.matchingKeys, ∃ m,
      getObj (attachmentMergePhase inp st none).2 mk = some ⟨mb, m⟩ := by
  have hflat := collectPhase_no_dup_imgs st (truthy inp.candDocNo)
    inp.candBytes.length inp.matchingKeys hcol
  have hends2 : ∀ mk ∈ inp.matchingKeys, ∃ u, u ++ (".pdf".toList) = mk :=
    fun mk hm => (endsWithStr_iff mk (".pdf".toList)).mp (hend mk hm)
  obtain ⟨st2, heq, hall⟩ := writesPhase_writes inp mb hb inp.matchingKeys st 0 hends2 hnd
  have hphase : attachmentMergePhase inp st none
      = (MergeOutcome.merged, delObj st2 inp.tempKey) := by
    unfold attachmentMergePhase
    simp only [hcol, Bool.false_eq_true, if_false]
    rw [if_neg hne, hflat, hmerge]
    show (match writesPhase inp mb none inp.matchingKeys st 0 with
        | Except.error stp => (MergeOutcome.mergeFailed, stp)
        | Except.ok stf => (MergeOutcome.merged, delObj stf inp.tempKey))
      = (MergeOutcome.merged, delObj st2 inp.tempKey)
    rw [heq]
  rw [hphase]
  refine ⟨rfl, fun mk hm => ?_⟩
  obtain ⟨m, hg⟩ := hall mk hm
  refine ⟨m, ?_⟩
  rw [getObj_delObj_other st2 inp.tempKey mk (fun hkm => htmp (hkm ▸ hm)), hg]

/-- Closed instance of the fan-out: on the concrete two-voucher bucket
`stMain`, the phase merges and both matched vouchers' stored PDFs hold the
same merged bytes `mbMain`. -/
theorem c10_merged_fanout_witness :
    inpMain.matchingKeys.Nodup ∧
    (attachmentMergePhase inpMain stMain none).1 = MergeOutcome.merged ∧
    (∃ m, getObj (attachmentMergePhase inpMain stMain none).2
      (("va/A_0001.pdf").toList) = some ⟨mbMain, m⟩) ∧
    (∃ m, getObj (attachmentMergePhase inpMain stMain none).2
      (("vb/B_0001.pdf").toList) = some ⟨mbMain, m⟩) := by
  have h := c10_merged_fanout inpMain stMain mbMain (by decide) (by decide) (by decide)
    (by decide) (by decide) (by decide) (by rfl)
  exact ⟨by decide, h.1, h.2 (("va/A_0001.pdf").toList) (by decide),
    h.2 (("vb/B_0001.pdf").toList) (by decide)⟩

/-! ### Extractor round trip: structural lemmas (C8) -/

/-- The extractor's result list only ever grows at the tail: whatever is in
the accumulator is a prefix of the final result. -/
lemma extractImagesLoopF_acc (fuel : Nat) :
    ∀ (b : Bytes) (pos : Nat) (acc : List ExtractedImage),
      ∃ t, extractImagesLoopF fuel b pos acc = acc ++ t := by
  induction fuel with
  | zero => exact fun b pos acc => ⟨[], (List.append_nil acc).symm⟩
  | succ f ih =>
    intro b pos acc
    have step : ∀ (pos2 : Nat) (r : ExtractedImage),
        ∃ t, extractImagesLoopF f b pos2 (acc ++ [r]) = acc ++ t := by
      intro pos2 r
      obtain ⟨t, ht⟩ := ih b pos2 (acc ++ [r])
      exact ⟨[r] ++ t, by rw [ht, List.append_assoc]⟩
    unfold extractImagesLoopF
    repeat' first
      | split
      | simp only []
    all_goals
      first
      | exact ⟨[], (List.append_nil acc).symm⟩
      | exact ih b _ acc
      | exact step _ _

/-- The image-object chunk split as the extractor sees it: matcher head,
captured dictionary, closing `>>\nstream\n`, payload, epilogue. -/
lemma imageObjSingle_decomp (w h : Nat) (cs : Bytes) (bpc : Nat) (flate : Bool)
    (payload : Bytes) :
    imageObjSingle w h cs bpc flate payload
      = (asc "5 0 obj\n" ++ asc "<< /Type /XObject /Subtype /Image ")
        ++ (dictSingle w h cs bpc flate payload.length
          ++ (asc ">>\nstream\n" ++ (payload ++ asc "\nendstream\nendobj\n"))) := by
  have e1 : (asc "<< /Type /XObject /Subtype /Image /Width " : Bytes)
      = asc "<< /Type /XObject /Subtype /Image " ++ asc "/Width " := by decide
  have e2 : (asc " >>\nstream\n" : Bytes) = asc " " ++ asc ">>\nstream\n" := by decide
  cases flate <;>
    simp [imageObjSingle, dictSingle, e1, e2, List.append_assoc]

/-- The whole single-page output, decomposed around the image object. -/
lemma singlePageChunks_join (w h : Nat) (cs : Bytes) (bpc : Nat) (flate : Bool)
    (payload : Bytes) :
    ∃ T, (singlePageChunks w h cs bpc flate payload).join
      = preObj5 w h ++ (imageObjSingle w h cs bpc flate payload ++ T) := by
  refine ⟨(singlePageChunks w h cs bpc flate payload).getD 6 []
    ++ (singlePageChunks w h cs bpc flate payload).getD 7 [], ?_⟩
  simp [singlePageChunks, preObj5, List.join, List.append_assoc]

/-- The extractor's head pattern matched at the genuine image object:
captures the object number `5` and leaves the dictionary region. -/
lemma matchImgHead_at_obj5 (R2 : Bytes) :
    matchImgHead (asc "5 0 obj\n<< /Type /XObject /Subtype /Image "
        ++ (asc "/Width " ++ R2))
      = some (asc "5", asc "/Width " ++ R2) := by
  unfold matchImgHead
  rw [show eatDigits1 (asc "5 0 obj\n<< /Type /XObject /Subtype /Image "
      ++ (asc "/Width " ++ R2))
    = some (asc "5", asc " 0 obj\n<< /Type /XObject /Subtype /Image "
      ++ (asc "/Width " ++ R2)) from rfl]
  simp only [Option.bind_eq_bind, Option.some_bind]
  rw [show eatWs1 (asc " 0 obj\n<< /Type /XObject /Subtype /Image "
      ++ (asc "/Width " ++ R2))
    = some (asc "0 obj\n<< /Type /XObject /Subtype /Image "
      ++ (asc "/Width " ++ R2)) from rfl]
  simp only [Option.bind_eq_bind, Option.some_bind]
  rw [show eatLit (asc "0") (asc "0 obj\n<< /Type /XObject /Subtype /Image "
      ++ (asc "/Width " ++ R2))
    = some (asc " obj\n<< /Type /XObject /Subtype /Image "
      ++ (asc "/Width " ++ R2)) from rfl]
  simp only [Option.bind_eq_bind, Option.some_bind]
  rw [show eatWs1 (asc " obj\n<< /Type /XObject /Subtype /Image "
      ++ (asc "/Width " ++ R2))
    = some (asc "obj\n<< /Type /XObject /Subtype /Image "
      ++ (asc "/Width " ++ R2)) from rfl]
  simp only [Option.bind_eq_bind, Option.some_bind]
  rw [show eatLit (asc "obj") (asc "obj\n<< /Type /XObject /Subtype /Image "
      ++ (asc "/Width " ++ R2))
    = some (asc "\n<< /Type /XObject /Subtype /Image "
      ++ (asc "/Width " ++ R2)) from rfl]
  simp only [Option.bind_eq_bind, Option.some_bind]
  rw [show eatLit (asc "<<") (eatWs0 (asc "\n<< /Type /XObject /Subtype /Image "
      ++ (asc "/Width " ++ R2)))
    = some (asc " /Type /XObject /Subtype /Image "
      ++ (asc "/Width " ++ R2)) from rfl]
  simp only [Option.bind_eq_bind, Option.some_bind]
  rw [show eatLit (asc "/Type") (eatWs0 (asc " /Type /XObject /Subtype /Image "
      ++ (asc "/Width " ++ R2)))
    = some (asc " /XObject /Subtype /Image " ++ (asc "/Width " ++ R2)) from rfl]
  simp only [Option.bind_eq_bind, Option.some_bind]
  rw [show eatLit (asc "/XObject") (eatWs0 (asc " /XObject /Subtype /Image "
      ++ (asc "/Width " ++ R2)))
    = some (asc " /Subtype /Image " ++ (asc "/Width " ++ R2)) from rfl]
  simp only [Option.bind_eq_bind, Option.some_bind]
  rw [show eatLit (asc "/Subtype") (eatWs0 (asc " /Subtype /Image "
      ++ (asc "/Width " ++ R2)))
    = some (asc " /Image " ++ (asc "/Width " ++ R2)) from rfl]
  simp only [Option.bind_eq_bind, Option.some_bind]
  rw [show eatLit (asc "/Image") (eatWs0 (asc " /Image " ++ (asc "/Width " ++ R2)))
    = some (asc " " ++ (asc "/Width " ++ R2)) from rfl]
  simp only [Option.bind_eq_bind, Option.some_bind]
  rw [show eatWs0 (asc " " ++ (asc "/Width " ++ R2)) = asc "/Width " ++ R2 from rfl]
  rfl

lemma dotScan_cons (x : Nat) (l : Bytes) (k : Nat) :
    dotScan (x :: l) k
      = (match eatCloseStream (x :: l) with
        | some r => some (k, r)
        | none => dotScan l (k + 1)) := rfl

/-- The non-greedy scan steps over any segment free of `>`. -/
lemma dotScan_skip (L : Bytes) (hL : ∀ x ∈ L, x ≠ 62) :
    ∀ (rest : Bytes) (k : Nat), dotScan (L ++ rest) k = dotScan rest (k + L.length) := by
  induction L with
  | nil => intro rest k; simp
  | cons x L2 ih =>
    intro rest k
    have hx : x ≠ 62 := hL x (List.mem_cons_self _ _)
    have hpfx : hasPfxB (x :: (L2 ++ rest)) (asc ">>") = false := by
      show hasPfxBP (asc ">>") (x :: (L2 ++ rest)) = false
      rw [show (asc ">>" : Bytes) = [62, 62] from rfl]
      simp [hasPfxBP, hx]
    have hec : eatCloseStream (x :: (L2 ++ rest)) = none := by
      simp [eatCloseStream, eatLit, hpfx]
    rw [List.cons_append, dotScan_cons, hec,
      ih (fun y hy => hL y (List.mem_cons_of_mem _ hy)) rest (k + 1)]
    have harith : k + 1 + L2.length = k + (x :: L2).length := by
      simp only [List.length_cons]
      omega
    rw [harith]

/-- The scan stops exactly at the closing ` >>\nstream\n`. -/
lemma dotScan_close (X : Bytes) (k : Nat) :
    dotScan (asc " >>\nstream\n" ++ X) k = some (k + 1, X) := rfl

/-- The scan steps through the `>>` that closes the hard-coded
`/DecodeParms` dictionary (no `stream` keyword follows it). -/
lemma dotScan_decodeparms (Y : Bytes) (k : Nat) :
    dotScan (asc " >> " ++ (asc "/Length " ++ Y)) k = dotScan Y (k + 12) := rfl

lemma digit_ne_62 (x : Nat) (h : isDigitByte x = true) : x ≠ 62 := by
  simp [isDigitByte] at h
  omega

lemma natDigits_ne_62 (m : Nat) : ∀ x ∈ natDigits m, x ≠ 62 :=
  fun x hx => digit_ne_62 x (natDigits_digits m x hx)

lemma dictSingle_append_dct (w h bpc n : Nat) (cs Z : Bytes) :
    dictSingle w h cs bpc false n ++ Z
      = asc "/Width " ++ (natDigits w ++ (asc " /Height " ++ (natDigits h ++ (asc " "
        ++ (asc "/ColorSpace " ++ (cs ++ (asc " /BitsPerComponent " ++ (natDigits bpc
        ++ (asc " " ++ (asc "/Filter /DCTDecode " ++ (asc "/Length "
        ++ (natDigits n ++ (asc " " ++ Z))))))))))))) := by
  simp [dictSingle, List.append_assoc]

lemma dictSingle_append_flate (w h bpc n : Nat) (cs Z : Bytes) :
    dictSingle w h cs bpc true n ++ Z
      = asc "/Width " ++ (natDigits w ++ (asc " /Height " ++ (natDigits h ++ (asc " "
        ++ (asc "/ColorSpace " ++ (cs ++ (asc " /BitsPerComponent " ++ (natDigits bpc
        ++ (asc " " ++ (asc "/Filter /FlateDecode "
        ++ (asc "/DecodeParms << /Predictor 15 /Colors 3 /BitsPerComponent 8 /Columns "
        ++ (natDigits w ++ (asc " >> " ++ (asc "/Length "
        ++ (natDigits n ++ (asc " " ++ Z)))))))))))))))) := by
  simp [dictSingle, decodeParmsSingle, List.append_assoc]

/-- The non-greedy scan over the whole captured dictionary finds the close
exactly at its end, capturing the dictionary byte-for-byte. -/
lemma dotScan_dict (w h bpc n : Nat) (cs : Bytes) (flate : Bool) (X : Bytes)
    (hcs : cs = asc "/DeviceRGB" ∨ cs = asc "/DeviceGray") :
    dotScan (dictSingle w h cs bpc flate n ++ (asc ">>\nstream\n" ++ X)) 0
      = some ((dictSingle w h cs bpc flate n).length, X) := by
  have lsp : (asc " " : Bytes).length = 1 := rfl
  have lgg : (asc " >> " : Bytes).length = 4 := rfl
  have llen : (asc "/Length " : Bytes).length = 8 := rfl
  have hmerge : (asc " " : Bytes) ++ (asc ">>\nstream\n" ++ X) = asc " >>\nstream\n" ++ X := by
    rw [← List.append_assoc]
    rfl
  obtain hcs | hcs := hcs <;> subst hcs <;> cases flate
  · rw [dictSingle_append_dct]
    rw [dotScan_skip (asc "/Width ") (by decide)]
    rw [dotScan_skip (natDigits w) (natDigits_ne_62 w)]
    rw [dotScan_skip (asc " /Height ") (by decide)]
    rw [dotScan_skip (natDigits h) (natDigits_ne_62 h)]
    rw [dotScan_skip (asc " ") (by decide)]
    rw [dotScan_skip (asc "/ColorSpace ") (by decide)]
    rw [dotScan_skip (asc "/DeviceRGB") (by decide)]
    rw [dotScan_skip (asc " /BitsPerComponent ") (by decide)]
    rw [dotScan_skip (natDigits bpc) (natDigits_ne_62 bpc)]
    rw [dotScan_skip (asc " ") (by decide)]
    rw [dotScan_skip (asc "/Filter /DCTDecode ") (by decide)]
    rw [dotScan_skip (asc "/Length ") (by decide)]
    rw [dotScan_skip (natDigits n) (natDigits_ne_62 n)]
    rw [hmerge, dotScan_close]
    refine congrArg (fun z => some (z, X)) ?_
    simp only [dictSingle, Bool.false_eq_true, if_false, List.length_append, lsp]
    omega
  · rw [dictSingle_append_flate]
    rw [dotScan_skip (asc "/Width ") (by decide)]
    rw [dotScan_skip (natDigits w) (natDigits_ne_62 w)]
    rw [dotScan_skip (asc " /Height ") (by decide)]
    rw [dotScan_skip (natDigits h) (natDigits_ne_62 h)]
    rw [dotScan_skip (asc " ") (by decide)]
    rw [dotScan_skip (asc "/ColorSpace ") (by decide)]
    rw [dotScan_skip (asc "/DeviceRGB") (by decide)]
    rw [dotScan_skip (asc " /BitsPerComponent ") (by decide)]
    rw [dotScan_skip (natDigits bpc) (natDigits_ne_62 bpc)]
    rw [dotScan_skip (asc " ") (by decide)]
    rw [dotScan_skip (asc "/Filter /FlateDecode ") (by decide)]
    rw [dotScan_skip
      (asc "/DecodeParms << /Predictor 15 /Colors 3 /BitsPerComponent 8 /Columns ")
      (by decide)]
    rw [dotScan_skip (natDigits w) (natDigits_ne_62 w)]
    rw [dotScan_decodeparms]
    rw [dotScan_skip (natDigits n) (natDigits_ne_62 n)]
    rw [hmerge, dotScan_close]
    refine congrArg (fun z => some (z, X)) ?_
    simp only [dictSingle, decodeParmsSingle, if_true, List.length_append, lsp, lgg, llen]
    omega
  · rw [dictSingle_append_dct]
    rw [dotScan_skip (asc "/Width ") (by decide)]
    rw [dotScan_skip (natDigits w) (natDigits_ne_62 w)]
    rw [dotScan_skip (asc " /Height ") (by decide)]
    rw [dotScan_skip (natDigits h) (natDigits_ne_62 h)]
    rw [dotScan_skip (asc " ") (by decide)]
    rw [dotScan_skip (asc "/ColorSpace ") (by decide)]
    rw [dotScan_skip (asc "/DeviceGray") (by decide)]
    rw [dotScan_skip (asc " /BitsPerComponent ") (by decide)]
    rw [dotScan_skip (natDigits bpc) (natDigits_ne_62 bpc)]
    rw [dotScan_skip (asc " ") (by decide)]
    rw [dotScan_skip (asc "/Filter /DCTDecode ") (by decide)]
    rw [dotScan_skip (asc "/Length ") (by decide)]
    rw [dotScan_skip (natDigits n) (natDigits_ne_62 n)]
    rw [hmerge, dotScan_close]
    refine congrArg (fun z => some (z, X)) ?_
    simp only [dictSingle, Bool.false_eq_true, if_false, List.length_append, lsp]
    omega
  · rw [dictSingle_append_flate]
    rw [dotScan_skip (asc "/Width ") (by decide)]
    rw [dotScan_skip (natDigits w) (natDigits_ne_62 w)]
    rw [dotScan_skip (asc " /Height ") (by decide)]
    rw [dotScan_skip (natDigits h) (natDigits_ne_62 h)]
    rw [dotScan_skip (asc " ") (by decide)]
    rw [dotScan_skip (asc "/ColorSpace ") (by decide)]
    rw [dotScan_skip (asc "/DeviceGray") (by decide)]
    rw [dotScan_skip (asc " /BitsPerComponent ") (by decide)]
    rw [dotScan_skip (natDigits bpc) (natDigits_ne_62 bpc)]
    rw [dotScan_skip (asc " ") (by decide)]
    rw [dotScan_skip (asc "/Filter /FlateDecode ") (by decide)]
    rw [dotScan_skip
      (asc "/DecodeParms << /Predictor 15 /Colors 3 /BitsPerComponent 8 /Columns ")
      (by decide)]
    rw [dotScan_skip (natDigits w) (natDigits_ne_62 w)]
    rw [dotScan_decodeparms]
    rw [dotScan_skip (natDigits n) (natDigits_ne_62 n)]
    rw [hmerge, dotScan_close]
    refine congrArg (fun z => some (z, X)) ?_
    simp only [dictSingle, decodeParmsSingle, if_true, List.length_append, lsp, lgg, llen]
    omega
/-- The full image pattern matched at the genuine image object: object
number `5`, the dictionary byte-for-byte, and the rest after `>>\nstream\n`. -/
lemma matchImgFull_at_obj5 (w h bpc n : Nat) (cs : Bytes) (flate : Bool) (X : Bytes)
    (hcs : cs = asc "/DeviceRGB" ∨ cs = asc "/DeviceGray") :
    matchImgFull (asc "5 0 obj\n<< /Type /XObject /Subtype /Image "
        ++ (dictSingle w h cs bpc flate n ++ (asc ">>\nstream\n" ++ X)))
      = some (asc "5", dictSingle w h cs bpc flate n, X) := by
  have hhead : matchImgHead (asc "5 0 obj\n<< /Type /XObject /Subtype /Image "
      ++ (dictSingle w h cs bpc flate n ++ (asc ">>\nstream\n" ++ X)))
      = some (asc "5", dictSingle w h cs bpc flate n ++ (asc ">>\nstream\n" ++ X)) := by
    cases flate
    · rw [dictSingle_append_dct, matchImgHead_at_obj5, ← dictSingle_append_dct]
    · rw [dictSingle_append_flate, matchImgHead_at_obj5, ← dictSingle_append_flate]
  unfold matchImgFull
  rw [hhead]
  simp only [Option.bind_eq_bind, Option.some_bind]
  rw [dotScan_dict w h bpc n cs flate X hcs]
  simp only [Option.bind_eq_bind, Option.some_bind]
  rw [show (dictSingle w h cs bpc flate n ++ (asc ">>\nstream\n" ++ X)).take
      (dictSingle w h cs bpc flate n).length = dictSingle w h cs bpc flate n from
    List.take_left _ _]
  rfl

/-! ### No image-pattern match before the image object -/

lemma drop_takeWhile_length (p : Nat → Bool) (l : Bytes) :
    l.drop (l.takeWhile p).length = l.dropWhile p := by
  induction l with
  | nil => simp
  | cons x xs ih =>
    by_cases hx : p x = true
    · simp only [List.takeWhile_cons, hx, if_true, List.length_cons, List.drop_succ_cons,
        List.dropWhile_cons, ih]
    · simp only [List.takeWhile_cons, List.dropWhile_cons]
      rw [if_neg hx, if_neg hx]
      simp

lemma takeWhile_prefix_decomp (p : Nat → Bool) (b : Bytes) :
    b = b.takeWhile p ++ b.drop (b.takeWhile p).length := by
  rw [drop_takeWhile_length, List.takeWhile_append_dropWhile]

lemma eatDigits1_eq (b ds r : Bytes) (h : eatDigits1 b = some (ds, r)) :
    b = ds ++ r ∧ ds ≠ [] ∧ ∀ x ∈ ds, isDigitByte x = true := by
  unfold eatDigits1 at h
  by_cases hnil : b.takeWhile isDigitByte = []
  · rw [if_pos hnil] at h
    cases h
  · rw [if_neg hnil] at h
    cases h
    refine ⟨takeWhile_prefix_decomp _ b, hnil, fun x hx => List.mem_takeWhile_imp hx⟩

lemma eatWs1_eq (b r : Bytes) (h : eatWs1 b = some r) :
    ∃ ws, b = ws ++ r ∧ ws ≠ [] ∧ ∀ x ∈ ws, isWsByte x = true := by
  unfold eatWs1 at h
  by_cases hnil : b.takeWhile isWsByte = []
  · rw [if_pos hnil] at h
    cases h
  · rw [if_neg hnil] at h
    cases h
    exact ⟨b.takeWhile isWsByte, takeWhile_prefix_decomp _ b, hnil,
      fun x hx => List.mem_takeWhile_imp hx⟩

lemma eatWs0_eq (b : Bytes) :
    ∃ ws, b = ws ++ eatWs0 b ∧ ∀ x ∈ ws, isWsByte x = true :=
  ⟨b.takeWhile isWsByte, takeWhile_prefix_decomp _ b,
    fun x hx => List.mem_takeWhile_imp hx⟩

lemma eatLit_eq (lit b r : Bytes) (h : eatLit lit b = some r) : b = lit ++ r := by
  unfold eatLit at h
  by_cases hp : hasPfxB b lit = true
  · rw [if_pos hp] at h
    cases h
    obtain ⟨t, ht⟩ := (hasPfxB_iff b lit).1 hp
    have hd : b.drop lit.length = t := by
      conv_lhs => rw [ht]
      rw [List.drop_left]
    rw [hd]
    exact ht
  · rw [if_neg hp] at h
    cases h

lemma no_occ_in (L pat : Bytes) (hpat : pat ≠ [])
    (hchk : ∀ j, j < L.length → occursAtB L j pat = false) :
    ∀ j, occursAtB L j pat = false := by
  intro j
  by_cases hj : j < L.length
  · exact hchk j hj
  · by_contra hocc
    rw [Bool.not_eq_false] at hocc
    have := occursAtB_length L pat j hpat hocc
    have hp : 0 < pat.length := List.length_pos.2 hpat
    omega

/-- A pattern starting with a non-digit byte never occurs inside an
all-digit run. -/
lemma no_occ_in_digits (D pat : Bytes) (hD : ∀ x ∈ D, isDigitByte x = true)
    (c : Nat) (ps : Bytes) (hpat : pat = c :: ps) (hc : isDigitByte c = false) :
    ∀ j, occursAtB D j pat = false := by
  intro j
  by_contra hocc
  rw [Bool.not_eq_false] at hocc
  obtain ⟨t, ht⟩ := (occursAtB_iff D pat j).1 hocc
  have hcD : c ∈ D := by
    have : c ∈ D.drop j := by
      rw [ht, hpat]
      exact List.mem_cons_self _ _
    exact List.mem_of_mem_drop this
  rw [hD c hcD] at hc
  cases hc

lemma headD_append_of_ne (L Z : Bytes) (hne : L ≠ []) :
    (L ++ Z).headD 0 = L.headD 0 := by
  cases L with
  | nil => exact absurd rfl hne
  | cons x xs => rfl

/-- Peeling one occurrence-free segment off the front of an append. -/
lemma occ_append_step (SEG REST pat : Bytes) (j : Nat)
    (hno : ∀ i, occursAtB SEG i pat = false)
    (hh : REST.headD 0 ∉ pat)
    (hocc : occursAtB (SEG ++ REST) j pat = true) :
    SEG.length ≤ j ∧ occursAtB REST (j - SEG.length) pat = true := by
  rcases occursAtB_append_cases SEG REST pat j hocc with
    ⟨_, ho⟩ | ⟨hge, ho⟩ | ⟨_, _, hmem⟩
  · rw [hno j] at ho
    cases ho
  · exact ⟨hge, ho⟩
  · exact absurd hmem hh

lemma getD_eq_headD_drop (l : List Nat) (j : Nat) :
    l.getD j 0 = (l.drop j).headD 0 := by
  rw [List.getD_eq_getElem?_getD, List.headD_eq_head?_getD, List.head?_drop]

/-- Peeling a segment that never contains the pattern's first byte. -/
lemma occ_append_step_headfree (SEG REST pat : Bytes) (c : Nat) (ps : Bytes)
    (hpat : pat = c :: ps) (hSEG : ∀ x ∈ SEG, x ≠ c) (j : Nat)
    (hocc : occursAtB (SEG ++ REST) j pat = true) :
    SEG.length ≤ j ∧ occursAtB REST (j - SEG.length) pat = true := by
  by_cases hge : SEG.length ≤ j
  · refine ⟨hge, ?_⟩
    obtain ⟨t, ht⟩ := (occursAtB_iff _ pat j).1 hocc
    refine (occursAtB_iff REST pat _).2 ⟨t, ?_⟩
    rw [← ht]
    have h2 : j = SEG.length + (j - SEG.length) := by omega
    conv_rhs => rw [h2]
    rw [List.drop_append_eq_append_drop]
    simp
  · exfalso
    push_neg at hge
    obtain ⟨t, ht⟩ := (occursAtB_iff _ pat j).1 hocc
    have hcj : (SEG ++ REST).getD j 0 = c := by
      rw [getD_eq_headD_drop, ht, hpat]
      rfl
    have hcS : SEG.getD j 0 = c := by
      rw [← hcj, List.getD_append _ _ _ _ hge]
    have hmem : c ∈ SEG := by
      rw [← hcS, List.getD_eq_getElem _ _ hge]
      exact List.getElem_mem _
    exact hSEG c hmem rfl

lemma natDigits_headD_mem (m : Nat) (Z : Bytes) :
    isDigitByte ((natDigits m ++ Z).headD 0) = true := by
  have hne := natDigits_ne_nil m
  rw [headD_append_of_ne _ _ hne]
  cases hD : natDigits m with
  | nil => exact absurd hD hne
  | cons d ds =>
    have : d ∈ natDigits m := by rw [hD]; exact List.mem_cons_self _ _
    simpa using natDigits_digits m d this

/-- A digit byte is never part of `/XObject`. -/
lemma digit_not_mem_xobject (x : Nat) (hx : isDigitByte x = true) :
    x ∉ asc "/XObject" := by
  intro hmem
  simp [isDigitByte] at hx
  have : x = 47 ∨ x = 88 ∨ x = 79 ∨ x = 98 ∨ x = 106 ∨ x = 101 ∨ x = 99 ∨ x = 116 := by
    have h8 : asc "/XObject" = [47, 88, 79, 98, 106, 101, 99, 116] := by decide
    rw [h8] at hmem
    simpa using hmem
  omega

lemma pageObjSingle_assoc (w h : Nat) :
    pageObjSingle w h
      = asc "3 0 obj\n" ++ (asc "<< /Type /Page /Parent 2 0 R /MediaBox [0 0 "
        ++ (natDigits w ++ (asc " " ++ (natDigits h ++ (asc "] "
        ++ asc "/Contents 4 0 R /Resources << /XObject << /Im1 5 0 R >> >> >>\nendobj\n"))))) := by
  simp [pageObjSingle, List.append_assoc]

lemma contentObjSingle_assoc (w h : Nat) :
    contentObjSingle w h
      = asc "4 0 obj\n<< /Length " ++ (natDigits (contentStream w h).length
        ++ (asc " >>\nstream\n" ++ (asc "q\n" ++ (natDigits w ++ (asc " 0 0 "
        ++ (natDigits h ++ (asc " 0 0 cm\n/Im1 Do\nQ\n" ++ asc "\nendstream\nendobj\n"))))))) := by
  simp [contentObjSingle, contentStream, List.append_assoc]

/-- No occurrence of `/XObject` anywhere in the content object. -/
lemma contentObjSingle_no_xobject (w h : Nat) :
    ∀ j, occursAtB (contentObjSingle w h) j (asc "/XObject") = false := by
  intro j
  by_contra hocc
  rw [Bool.not_eq_false] at hocc
  rw [contentObjSingle_assoc] at hocc
  have hpd : ∀ x ∈ asc "/XObject", isDigitByte x = false := by decide
  have hpat8 : (asc "/XObject" : Bytes) = 47 :: [88, 79, 98, 106, 101, 99, 116] := by decide
  obtain ⟨_, hocc⟩ := occ_append_step _ _ _ _
    (no_occ_in _ _ (by decide) (by decide))
    (fun hmem => digit_not_mem_xobject _ (natDigits_headD_mem _ _) hmem) hocc
  obtain ⟨_, hocc⟩ := occ_append_step _ _ _ _
    (no_occ_in_digits _ _ (natDigits_digits _) 47 _ hpat8 (by decide))
    (by rw [headD_append_of_ne _ _ (by decide)]; decide) hocc
  obtain ⟨_, hocc⟩ := occ_append_step _ _ _ _
    (no_occ_in _ _ (by decide) (by decide))
    (by rw [headD_append_of_ne _ _ (by decide)]; decide) hocc
  obtain ⟨_, hocc⟩ := occ_append_step _ _ _ _
    (no_occ_in _ _ (by decide) (by decide))
    (fun hmem => digit_not_mem_xobject _ (natDigits_headD_mem _ _) hmem) hocc
  obtain ⟨_, hocc⟩ := occ_append_step _ _ _ _
    (no_occ_in_digits _ _ (natDigits_digits _) 47 _ hpat8 (by decide))
    (by rw [headD_append_of_ne _ _ (by decide)]; decide) hocc
  obtain ⟨_, hocc⟩ := occ_append_step _ _ _ _
    (no_occ_in _ _ (by decide) (by decide))
    (fun hmem => digit_not_mem_xobject _ (natDigits_headD_mem _ _) hmem) hocc
  obtain ⟨_, hocc⟩ := occ_append_step _ _ _ _
    (no_occ_in_digits _ _ (natDigits_digits _) 47 _ hpat8 (by decide))
    (by rw [headD_append_of_ne _ _ (by decide)]; decide) hocc
  obtain ⟨_, hocc⟩ := occ_append_step _ _ _ _
    (no_occ_in _ _ (by decide) (by decide))
    (by decide) hocc
  rw [no_occ_in _ _ (by decide) (by decide)] at hocc
  cases hocc

/-- The only occurrence of `/XObject` before the image object is the one in
the page object's `/Resources`, and it is preceded by `<< `. -/
lemma preObj5_xobject (w h : Nat) (j : Nat)
    (hocc : occursAtB (preObj5 w h) j (asc "/XObject") = true) :
    ∃ A B, preObj5 w h = A ++ (asc "<< " ++ (asc "/XObject" ++ B))
      ∧ j = A.length + 3 := by
  have hpat8 : (asc "/XObject" : Bytes) = 47 :: [88, 79, 98, 106, 101, 99, 116] := by decide
  have hL5split : (asc "/Contents 4 0 R /Resources << /XObject << /Im1 5 0 R >> >> >>\nendobj\n" : Bytes)
      = asc "/Contents 4 0 R /Resources "
        ++ (asc "<< " ++ (asc "/XObject" ++ asc " << /Im1 5 0 R >> >> >>\nendobj\n")) := by
    decide
  unfold preObj5 at hocc ⊢
  obtain ⟨hj0, hocc⟩ := occ_append_step _ _ _ _
    (no_occ_in _ _ (by decide) (by decide))
    (by rw [headD_append_of_ne _ _ (by decide)]; decide) hocc
  obtain ⟨hj1, hocc⟩ := occ_append_step _ _ _ _
    (no_occ_in _ _ (by decide) (by decide))
    (by rw [headD_append_of_ne _ _ (by decide)]; decide) hocc
  obtain ⟨hj2, hocc⟩ := occ_append_step _ _ _ _
    (no_occ_in _ _ (by decide) (by decide))
    (by rw [pageObjSingle_assoc, List.append_assoc,
          headD_append_of_ne _ _ (by decide)]
        decide) hocc
  rw [pageObjSingle_assoc, List.append_assoc, List.append_assoc, List.append_assoc,
    List.append_assoc, List.append_assoc, List.append_assoc] at hocc
  obtain ⟨hj3, hocc⟩ := occ_append_step _ _ _ _
    (no_occ_in _ _ (by decide) (by decide))
    (by rw [headD_append_of_ne _ _ (by decide)]; decide) hocc
  obtain ⟨hj4, hocc⟩ := occ_append_step _ _ _ _
    (no_occ_in _ _ (by decide) (by decide))
    (fun hmem => digit_not_mem_xobject _ (natDigits_headD_mem _ _) hmem) hocc
  obtain ⟨hj5, hocc⟩ := occ_append_step _ _ _ _
    (no_occ_in_digits _ _ (natDigits_digits _) 47 _ hpat8 (by decide))
    (by rw [headD_append_of_ne _ _ (by decide)]; decide) hocc
  obtain ⟨hj6, hocc⟩ := occ_append_step _ _ _ _
    (no_occ_in _ _ (by decide) (by decide))
    (fun hmem => digit_not_mem_xobject _ (natDigits_headD_mem _ _) hmem) hocc
  obtain ⟨hj7, hocc⟩ := occ_append_step _ _ _ _
    (no_occ_in_digits _ _ (natDigits_digits _) 47 _ hpat8 (by decide))
    (by rw [headD_append_of_ne _ _ (by decide)]; decide) hocc
  obtain ⟨hj8, hocc⟩ := occ_append_step_headfree _ _ _ 47 _ hpat8
    (by decide) _ hocc
  -- the remaining occurrence is in `L5 ++ contentObjSingle`
  rcases occursAtB_append_cases _ _ _ _ hocc with
    ⟨_, ho⟩ | ⟨hge, ho⟩ | ⟨_, _, hmem⟩
  · -- inside the final page-object literal: position is exactly 30
    have hpos : j - (pdfHeader.length) - catalogObj.length - pagesObjSingle.length
        - (asc "3 0 obj\n").length
        - (asc "<< /Type /Page /Parent 2 0 R /MediaBox [0 0 ").length
        - (natDigits w).length - (asc " ").length - (natDigits h).length
        - (asc "] ").length = 30 := by
      have hlt : j - (pdfHeader.length) - catalogObj.length - pagesObjSingle.length
          - (asc "3 0 obj\n").length
          - (asc "<< /Type /Page /Parent 2 0 R /MediaBox [0 0 ").length
          - (natDigits w).length - (asc " ").length - (natDigits h).length
          - (asc "] ").length
          < (asc "/Contents 4 0 R /Resources << /XObject << /Im1 5 0 R >> >> >>\nendobj\n" : Bytes).length := by
        have := occursAtB_length _ _ _ (by decide) ho
        have hp : 0 < (asc "/XObject" : Bytes).length := by decide
        omega
      have hdec : ∀ i, i < (asc "/Contents 4 0 R /Resources << /XObject << /Im1 5 0 R >> >> >>\nendobj\n" : Bytes).length →
          occursAtB (asc "/Contents 4 0 R /Resources << /XObject << /Im1 5 0 R >> >> >>\nendobj\n") i (asc "/XObject") = true → i = 30 := by
        decide
      exact hdec _ hlt ho
    refine ⟨pdfHeader ++ (catalogObj ++ (pagesObjSingle ++ (asc "3 0 obj\n"
      ++ (asc "<< /Type /Page /Parent 2 0 R /MediaBox [0 0 "
      ++ (natDigits w ++ (asc " " ++ (natDigits h ++ (asc "] "
      ++ asc "/Contents 4 0 R /Resources ")))))))),
      asc " << /Im1 5 0 R >> >> >>\nendobj\n" ++ contentObjSingle w h, ?_, ?_⟩
    · rw [pageObjSingle_assoc, hL5split]
      simp [List.append_assoc]
    · have hlens : (pdfHeader ++ (catalogObj ++ (pagesObjSingle ++ (asc "3 0 obj\n"
          ++ (asc "<< /Type /Page /Parent 2 0 R /MediaBox [0 0 "
          ++ (natDigits w ++ (asc " " ++ (natDigits h ++ (asc "] "
          ++ asc "/Contents 4 0 R /Resources "))))))))).length
          = pdfHeader.length + catalogObj.length + pagesObjSingle.length
            + (asc "3 0 obj\n").length
            + (asc "<< /Type /Page /Parent 2 0 R /MediaBox [0 0 ").length
            + (natDigits w).length + (asc " ").length + (natDigits h).length
            + (asc "] ").length
            + (asc "/Contents 4 0 R /Resources ").length := by
        simp [List.length_append]
        omega
      rw [hlens]
      have h27 : (asc "/Contents 4 0 R /Resources " : Bytes).length = 27 := by decide
      omega
  · -- inside the content object: impossible
    rw [contentObjSingle_no_xobject w h _] at ho
    cases ho
  · -- straddling into the content object: its head `4` is not in the pattern
    rw [contentObjSingle_assoc, headD_append_of_ne _ _ (by decide)] at hmem
    exact absurd hmem (by decide)

lemma getD_drop_add (l : List Nat) (q i : Nat) :
    (l.drop q).getD i 0 = l.getD (q + i) 0 := by
  rw [List.getD_eq_getElem?_getD, List.getD_eq_getElem?_getD, List.getElem?_drop]

lemma byte_of_drop (l : List Nat) (m : Nat) (comp R : Bytes)
    (hd : l.drop m = comp ++ R) (i0 : Nat) (hi : i0 < comp.length) :
    l.getD (m + i0) 0 = comp.getD i0 0 := by
  rw [← getD_drop_add, hd, List.getD_append _ _ _ _ hi]

lemma getD_append_add (A Z : Bytes) (i : Nat) :
    (A ++ Z).getD (A.length + i) 0 = Z.getD i 0 := by
  rw [List.getD_append_right A Z 0 (A.length + i) (by omega)]
  congr 1
  omega

lemma ws_byte_vals (x : Nat) (h : isWsByte x = true) :
    x = 32 ∨ x = 9 ∨ x = 10 ∨ x = 13 ∨ x = 12 ∨ x = 11 := by
  simp [isWsByte] at h
  rcases h with h | h | h | h | h | h <;> omega

lemma ws_ne_53 (x : Nat) (h : isWsByte x = true) : x ≠ 53 := by
  rcases ws_byte_vals x h with h | h | h | h | h | h <;> omega

lemma ws_ne_60 (x : Nat) (h : isWsByte x = true) : x ≠ 60 := by
  rcases ws_byte_vals x h with h | h | h | h | h | h <;> omega

/-- A successful head match decomposes the input into the digit group, the
fixed keywords and whitespace runs, and the tail after `/XObject`. -/
lemma matchImgHead_decomp (b ds rest : Bytes) (h : matchImgHead b = some (ds, rest)) :
    ∃ w1 w2 w3 w4 w5 tail,
      b = ds ++ (w1 ++ (asc "0" ++ (w2 ++ (asc "obj" ++ (w3 ++ (asc "<<"
        ++ (w4 ++ (asc "/Type" ++ (w5 ++ (asc "/XObject" ++ tail))))))))))
      ∧ ds ≠ [] ∧ (∀ x ∈ ds, isDigitByte x = true)
      ∧ (∀ x ∈ w1, isWsByte x = true) ∧ (∀ x ∈ w2, isWsByte x = true)
      ∧ (∀ x ∈ w3, isWsByte x = true) ∧ (∀ x ∈ w4, isWsByte x = true)
      ∧ (∀ x ∈ w5, isWsByte x = true) := by
  unfold matchImgHead at h
  rcases h1 : eatDigits1 b with _ | ⟨ds0, r1⟩ <;> rw [h1] at h
  · simp at h
  · simp only [Option.bind_eq_bind, Option.some_bind] at h
    rcases h2 : eatWs1 r1 with _ | r2 <;> rw [h2] at h
    · simp at h
    · simp only [Option.bind_eq_bind, Option.some_bind] at h
      rcases h3 : eatLit (asc "0") r2 with _ | r3 <;> rw [h3] at h
      · simp at h
      · simp only [Option.bind_eq_bind, Option.some_bind] at h
        rcases h4 : eatWs1 r3 with _ | r4 <;> rw [h4] at h
        · simp at h
        · simp only [Option.bind_eq_bind, Option.some_bind] at h
          rcases h5 : eatLit (asc "obj") r4 with _ | r5 <;> rw [h5] at h
          · simp at h
          · simp only [Option.bind_eq_bind, Option.some_bind] at h
            rcases h7 : eatLit (asc "<<") (eatWs0 r5) with _ | r7 <;> rw [h7] at h
            · simp at h
            · simp only [Option.bind_eq_bind, Option.some_bind] at h
              rcases h9 : eatLit (asc "/Type") (eatWs0 r7) with _ | r9 <;> rw [h9] at h
              · simp at h
              · simp only [Option.bind_eq_bind, Option.some_bind] at h
                rcases h11 : eatLit (asc "/XObject") (eatWs0 r9) with _ | r11 <;>
                  rw [h11] at h
                · simp at h
                · obtain ⟨hq1, hq2, hq3⟩ := eatDigits1_eq b ds0 r1 h1
                  obtain ⟨ws1, hw1, hw1ne, hw1m⟩ := eatWs1_eq r1 r2 h2
                  have he3 := eatLit_eq _ _ _ h3
                  obtain ⟨ws2, hw2, hw2ne, hw2m⟩ := eatWs1_eq r3 r4 h4
                  have he5 := eatLit_eq _ _ _ h5
                  obtain ⟨ws3, hw3, hw3m⟩ := eatWs0_eq r5
                  have he7 := eatLit_eq _ _ _ h7
                  obtain ⟨ws4, hw4, hw4m⟩ := eatWs0_eq r7
                  have he9 := eatLit_eq _ _ _ h9
                  obtain ⟨ws5, hw5, hw5m⟩ := eatWs0_eq r9
                  have he11 := eatLit_eq _ _ _ h11
                  have hds : ds0 = ds := by
                    simp only [Option.bind_eq_bind, Option.some_bind] at h
                    rcases h13 : eatLit (asc "/Subtype") (eatWs0 r11) with _ | r13 <;>
                      rw [h13] at h
                    · simp at h
                    · simp only [Option.bind_eq_bind, Option.some_bind] at h
                      rcases h15 : eatLit (asc "/Image") (eatWs0 r13) with _ | r15 <;>
                        rw [h15] at h
                      · simp at h
                      · cases h
                        rfl
                  subst hds
                  refine ⟨ws1, ws2, ws3, ws4, ws5, r11, ?_, hq2, hq3,
                    hw1m, hw2m, hw3m, hw4m, hw5m⟩
                  rw [hq1, hw1, he3, hw2, he5, hw3, he7, hw4, he9, hw5, he11]
                  try simp [List.append_assoc]

/-- The byte just before the image object (the last byte of the content
object) is a line feed. -/
lemma preObj5_last (w h : Nat) :
    (preObj5 w h).getD ((preObj5 w h).length - 1) 0 = 10 := by
  have hF : preObj5 w h
      = (pdfHeader ++ (catalogObj ++ (pagesObjSingle ++ (pageObjSingle w h
        ++ (asc "4 0 obj\n<< /Length " ++ (natDigits (contentStream w h).length
        ++ (asc " >>\nstream\n" ++ (asc "q\n" ++ (natDigits w ++ (asc " 0 0 "
        ++ (natDigits h ++ asc " 0 0 cm\n/Im1 Do\nQ\n")))))))))))
        ++ asc "\nendstream\nendobj\n" := by
    rw [preObj5, contentObjSingle_assoc]
    simp [List.append_assoc]
  have key : ∀ A : Bytes, (A ++ asc "\nendstream\nendobj\n").getD
      ((A ++ asc "\nendstream\nendobj\n").length - 1) 0 = 10 := by
    intro A
    rw [List.length_append,
      show (asc "\nendstream\nendobj\n" : Bytes).length = 18 from by decide,
      show A.length + 18 - 1 = A.length + 17 from by omega, getD_append_add]
    decide
  rw [hF]
  exact key _

/-- Peeling one appended segment off a drop equation. -/
lemma drop_add_append (l : List Nat) (p : Nat) (A R : List Nat)
    (h : l.drop p = A ++ R) : l.drop (A.length + p) = R := by
  rw [show A.length + p = p + A.length from by omega, ← List.drop_drop, h,
    List.drop_left]

/-- The extractor's head pattern cannot match at any position strictly
before the image object. -/
lemma matchImgHead_none_before (w h : Nat) (S : Bytes)
    (hS5 : S.headD 0 = 53)
    (q : Nat) (hq : q < (preObj5 w h).length) :
    matchImgHead ((preObj5 w h ++ S).drop q) = none := by
  rcases hmk : matchImgHead ((preObj5 w h ++ S).drop q) with _ | ⟨ds, rest⟩
  · rfl
  exfalso
  obtain ⟨w1, w2, w3, w4, w5, tail, heq, hdsne, hdsd, hw1, hw2, hw3, hw4, hw5⟩ :=
    matchImgHead_decomp _ _ _ hmk
  have d1 : (preObj5 w h ++ S).drop (ds.length + q)
      = w1 ++ (asc "0" ++ (w2 ++ (asc "obj" ++ (w3 ++ (asc "<<" ++ (w4
        ++ (asc "/Type" ++ (w5 ++ (asc "/XObject" ++ tail))))))))) := by
    exact drop_add_append _ _ _ _ heq
  have d2 : (preObj5 w h ++ S).drop (w1.length + (ds.length + q))
      = asc "0" ++ (w2 ++ (asc "obj" ++ (w3 ++ (asc "<<" ++ (w4
        ++ (asc "/Type" ++ (w5 ++ (asc "/XObject" ++ tail)))))))) := by
    exact drop_add_append _ _ _ _ d1
  have d3 : (preObj5 w h ++ S).drop ((asc "0").length + (w1.length + (ds.length + q)))
      = w2 ++ (asc "obj" ++ (w3 ++ (asc "<<" ++ (w4
        ++ (asc "/Type" ++ (w5 ++ (asc "/XObject" ++ tail))))))) := by
    exact drop_add_append _ _ _ _ d2
  have d4 : (preObj5 w h ++ S).drop
      (w2.length + ((asc "0").length + (w1.length + (ds.length + q))))
      = asc "obj" ++ (w3 ++ (asc "<<" ++ (w4
        ++ (asc "/Type" ++ (w5 ++ (asc "/XObject" ++ tail)))))) := by
    exact drop_add_append _ _ _ _ d3
  have d5 : (preObj5 w h ++ S).drop
      ((asc "obj").length + (w2.length + ((asc "0").length + (w1.length + (ds.length + q)))))
      = w3 ++ (asc "<<" ++ (w4 ++ (asc "/Type" ++ (w5 ++ (asc "/XObject" ++ tail))))) := by
    exact drop_add_append _ _ _ _ d4
  have d6 : (preObj5 w h ++ S).drop
      (w3.length + ((asc "obj").length + (w2.length + ((asc "0").length
        + (w1.length + (ds.length + q))))))
      = asc "<<" ++ (w4 ++ (asc "/Type" ++ (w5 ++ (asc "/XObject" ++ tail)))) := by
    exact drop_add_append _ _ _ _ d5
  have d7 : (preObj5 w h ++ S).drop
      ((asc "<<").length + (w3.length + ((asc "obj").length + (w2.length
        + ((asc "0").length + (w1.length + (ds.length + q)))))))
      = w4 ++ (asc "/Type" ++ (w5 ++ (asc "/XObject" ++ tail))) := by
    exact drop_add_append _ _ _ _ d6
  have d8 : (preObj5 w h ++ S).drop
      (w4.length + ((asc "<<").length + (w3.length + ((asc "obj").length
        + (w2.length + ((asc "0").length + (w1.length + (ds.length + q))))))))
      = asc "/Type" ++ (w5 ++ (asc "/XObject" ++ tail)) := by
    exact drop_add_append _ _ _ _ d7
  have d9 : (preObj5 w h ++ S).drop
      ((asc "/Type").length + (w4.length + ((asc "<<").length + (w3.length
        + ((asc "obj").length + (w2.length + ((asc "0").length + (w1.length
        + (ds.length + q)))))))))
      = w5 ++ (asc "/XObject" ++ tail) := by
    exact drop_add_append _ _ _ _ d8
  have d10 : (preObj5 w h ++ S).drop
      (w5.length + ((asc "/Type").length + (w4.length + ((asc "<<").length
        + (w3.length + ((asc "obj").length + (w2.length + ((asc "0").length
        + (w1.length + (ds.length + q))))))))))
      = asc "/XObject" ++ tail := by
    exact drop_add_append _ _ _ _ d9
  have hoccX : occursAtB (preObj5 w h ++ S)
      (w5.length + ((asc "/Type").length + (w4.length + ((asc "<<").length
        + (w3.length + ((asc "obj").length + (w2.length + ((asc "0").length
        + (w1.length + (ds.length + q))))))))))
      (asc "/XObject") = true := by
    unfold occursAtB
    rw [d10]
    exact hasPfxB_self_append _ _
  have l0 : (asc "0" : Bytes).length = 1 := by decide
  have lobj : (asc "obj" : Bytes).length = 3 := by decide
  have lbr : (asc "<<" : Bytes).length = 2 := by decide
  have lty : (asc "/Type" : Bytes).length = 5 := by decide
  have lxo : (asc "/XObject" : Bytes).length = 8 := by decide
  have hdsl : 0 < ds.length := List.length_pos.2 hdsne
  have hbp : (preObj5 w h ++ S).getD (preObj5 w h).length 0 = 53 := by
    rw [List.getD_append_right _ _ 0 _ (le_refl _), Nat.sub_self]
    have hS : S.getD 0 0 = S.headD 0 := by cases S <;> rfl
    rw [hS, hS5]
  have hbm : (preObj5 w h ++ S).getD ((preObj5 w h).length - 1) 0 = 10 := by
    rw [List.getD_append _ _ _ _ (by omega)]
    exact preObj5_last w h
  rcases occursAtB_append_cases _ _ _ _ hoccX with ⟨hle, hoP⟩ | ⟨hge, hoS⟩ | ⟨_, _, hmem⟩
  · -- the occurrence would be the `/Resources` one: the preceding bytes differ
    obtain ⟨A, B, hPeq, hjA⟩ := preObj5_xobject w h _ hoP
    rw [lxo] at hle
    rw [hjA] at hle
    have hb60 : (preObj5 w h).getD (A.length + 1) 0 = 60 := by
      rw [hPeq, getD_append_add, List.getD_append _ _ _ _ (by decide)]
      decide
    have hb32 : (preObj5 w h).getD (A.length + 2) 0 = 32 := by
      rw [hPeq, getD_append_add, List.getD_append _ _ _ _ (by decide)]
      decide
    rcases w5 with _ | ⟨y1, w5t⟩
    · -- no whitespace: the byte before `/XObject` would be the `e` of `/Type`
      have hb : (preObj5 w h ++ S).getD
          ((w4.length + ((asc "<<").length + (w3.length + ((asc "obj").length
            + (w2.length + ((asc "0").length + (w1.length + (ds.length + q)))))))) + 4) 0
          = (asc "/Type").getD 4 0 :=
        byte_of_drop _ _ _ _ d8 4 (by rw [lty]; omega)
      have hpos : (w4.length + ((asc "<<").length + (w3.length + ((asc "obj").length
            + (w2.length + ((asc "0").length + (w1.length + (ds.length + q)))))))) + 4
          = A.length + 2 := by
        simp only [List.length_nil] at hjA
        omega
      rw [hpos] at hb
      rw [List.getD_append _ _ _ _ (by omega)] at hb
      rw [hb32, show ((asc "/Type" : Bytes).getD 4 0) = 101 from by decide] at hb
      exact absurd hb (by decide)
    · rcases w5t with _ | ⟨y2, w5tt⟩
      · -- one whitespace byte: two before `/XObject` is still the `e`
        have hb : (preObj5 w h ++ S).getD
            ((w4.length + ((asc "<<").length + (w3.length + ((asc "obj").length
              + (w2.length + ((asc "0").length + (w1.length + (ds.length + q)))))))) + 4) 0
            = (asc "/Type").getD 4 0 :=
          byte_of_drop _ _ _ _ d8 4 (by rw [lty]; omega)
        have hpos : (w4.length + ((asc "<<").length + (w3.length + ((asc "obj").length
              + (w2.length + ((asc "0").length + (w1.length + (ds.length + q)))))))) + 4
            = A.length + 1 := by
          simp only [List.length_cons, List.length_nil] at hjA
          omega
        rw [hpos] at hb
        rw [List.getD_append _ _ _ _ (by omega)] at hb
        rw [hb60, show ((asc "/Type" : Bytes).getD 4 0) = 101 from by decide] at hb
        exact absurd hb (by decide)
      · -- two or more whitespace bytes: two before `/XObject` is whitespace,
        -- but the actual byte there is `<`
        have hb : (preObj5 w h ++ S).getD
            (((asc "/Type").length + (w4.length + ((asc "<<").length + (w3.length
              + ((asc "obj").length + (w2.length + ((asc "0").length + (w1.length
              + (ds.length + q))))))))) + w5tt.length) 0
            = (y1 :: y2 :: w5tt).getD w5tt.length 0 :=
          byte_of_drop _ _ _ _ d9 w5tt.length (by simp only [List.length_cons]; omega)
        have hmemw : (y1 :: y2 :: w5tt).getD w5tt.length 0 ∈ (y1 :: y2 :: w5tt) := by
          rw [List.getD_eq_getElem _ _ (by simp only [List.length_cons]; omega)]
          exact List.getElem_mem _
        have hws := hw5 _ hmemw
        have hpos : (((asc "/Type").length + (w4.length + ((asc "<<").length
              + (w3.length + ((asc "obj").length + (w2.length + ((asc "0").length
              + (w1.length + (ds.length + q))))))))) + w5tt.length)
            = A.length + 1 := by
          simp only [List.length_cons] at hjA
          omega
        rw [hpos] at hb
        have hb2 : (preObj5 w h).getD (A.length + 1) 0 = (y1 :: y2 :: w5tt).getD w5tt.length 0 := by
          rw [← hb, List.getD_append _ _ _ _ (by omega)]
        rw [hb60] at hb2
        exact ws_ne_60 _ hws hb2.symm
  · -- the match would have to consume the `5` that opens the image object
    by_cases c1 : (preObj5 w h).length < ds.length + q
    · -- inside the digit group, so the byte before it is a digit, but it is `\n`
      have hb : (preObj5 w h ++ S).getD (q + ((preObj5 w h).length - 1 - q)) 0
          = ds.getD ((preObj5 w h).length - 1 - q) 0 :=
        byte_of_drop _ _ _ _ heq _ (by omega)
      have he : q + ((preObj5 w h).length - 1 - q) = (preObj5 w h).length - 1 := by omega
      rw [he, hbm] at hb
      have hmemd : ds.getD ((preObj5 w h).length - 1 - q) 0 ∈ ds := by
        rw [List.getD_eq_getElem _ _ (by omega)]
        exact List.getElem_mem _
      have := hdsd _ hmemd
      rw [← hb] at this
      exact absurd this (by decide)
    · by_cases c2 : (preObj5 w h).length < w1.length + (ds.length + q)
      · have hb : (preObj5 w h ++ S).getD
            ((ds.length + q) + ((preObj5 w h).length - (ds.length + q))) 0
            = w1.getD ((preObj5 w h).length - (ds.length + q)) 0 :=
          byte_of_drop _ _ _ _ d1 _ (by omega)
        have he : (ds.length + q) + ((preObj5 w h).length - (ds.length + q))
            = (preObj5 w h).length := by omega
        rw [he, hbp] at hb
        have hmemd : w1.getD ((preObj5 w h).length - (ds.length + q)) 0 ∈ w1 := by
          rw [List.getD_eq_getElem _ _ (by omega)]
          exact List.getElem_mem _
        exact ws_ne_53 _ (hw1 _ hmemd) hb.symm
      · by_cases c3 : (preObj5 w h).length
            < (asc "0").length + (w1.length + (ds.length + q))
        · have hb : (preObj5 w h ++ S).getD
              ((w1.length + (ds.length + q))
                + ((preObj5 w h).length - (w1.length + (ds.length + q)))) 0
              = (asc "0").getD ((preObj5 w h).length - (w1.length + (ds.length + q))) 0 :=
            byte_of_drop _ _ _ _ d2 _ (by omega)
          have he : (w1.length + (ds.length + q))
              + ((preObj5 w h).length - (w1.length + (ds.length + q)))
              = (preObj5 w h).length := by omega
          rw [he, hbp] at hb
          have hi : (preObj5 w h).length - (w1.length + (ds.length + q)) = 0 := by omega
          rw [hi] at hb
          exact absurd hb (by decide)
        · by_cases c4 : (preObj5 w h).length
              < w2.length + ((asc "0").length + (w1.length + (ds.length + q)))
          · have hb : (preObj5 w h ++ S).getD
                (((asc "0").length + (w1.length + (ds.length + q)))
                  + ((preObj5 w h).length
                    - ((asc "0").length + (w1.length + (ds.length + q))))) 0
                = w2.getD ((preObj5 w h).length
                    - ((asc "0").length + (w1.length + (ds.length + q)))) 0 :=
              byte_of_drop _ _ _ _ d3 _ (by omega)
            have he : ((asc "0").length + (w1.length + (ds.length + q)))
                + ((preObj5 w h).length
                  - ((asc "0").length + (w1.length + (ds.length + q))))
                = (preObj5 w h).length := by omega
            rw [he, hbp] at hb
            have hmemd : w2.getD ((preObj5 w h).length
                - ((asc "0").length + (w1.length + (ds.length + q)))) 0 ∈ w2 := by
              rw [List.getD_eq_getElem _ _ (by omega)]
              exact List.getElem_mem _
            exact ws_ne_53 _ (hw2 _ hmemd) hb.symm
          · by_cases c5 : (preObj5 w h).length
                < (asc "obj").length + (w2.length + ((asc "0").length
                  + (w1.length + (ds.length + q))))
            · have hb : (preObj5 w h ++ S).getD
                  ((w2.length + ((asc "0").length + (w1.length + (ds.length + q))))
                    + ((preObj5 w h).length
                      - (w2.length + ((asc "0").length + (w1.length + (ds.length + q)))))) 0
                  = (asc "obj").getD ((preObj5 w h).length
                      - (w2.length + ((asc "0").length + (w1.length + (ds.length + q))))) 0 :=
                byte_of_drop _ _ _ _ d4 _ (by omega)
              have he : (w2.length + ((asc "0").length + (w1.length + (ds.length + q))))
                  + ((preObj5 w h).length
                    - (w2.length + ((asc "0").length + (w1.length + (ds.length + q)))))
                  = (preObj5 w h).length := by omega
              rw [he, hbp] at hb
              have hko : ∀ i, i < 3 → (asc "obj" : Bytes).getD i 0 ≠ 53 := by decide
              exact hko _ (by omega) hb.symm
            · by_cases c6 : (preObj5 w h).length
                  < w3.length + ((asc "obj").length + (w2.length + ((asc "0").length
                    + (w1.length + (ds.length + q)))))
              · have hb : (preObj5 w h ++ S).getD
                    (((asc "obj").length + (w2.length + ((asc "0").length
                      + (w1.length + (ds.length + q)))))
                      + ((preObj5 w h).length
                        - ((asc "obj").length + (w2.length + ((asc "0").length
                          + (w1.length + (ds.length + q))))))) 0
                    = w3.getD ((preObj5 w h).length
                        - ((asc "obj").length + (w2.length + ((asc "0").length
                          + (w1.length + (ds.length + q)))))) 0 :=
                  byte_of_drop _ _ _ _ d5 _ (by omega)
                have he : ((asc "obj").length + (w2.length + ((asc "0").length
                    + (w1.length + (ds.length + q)))))
                    + ((preObj5 w h).length
                      - ((asc "obj").length + (w2.length + ((asc "0").length
                        + (w1.length + (ds.length + q))))))
                    = (preObj5 w h).length := by omega
                rw [he, hbp] at hb
                have hmemd : w3.getD ((preObj5 w h).length
                    - ((asc "obj").length + (w2.length + ((asc "0").length
                      + (w1.length + (ds.length + q)))))) 0 ∈ w3 := by
                  rw [List.getD_eq_getElem _ _ (by omega)]
                  exact List.getElem_mem _
                exact ws_ne_53 _ (hw3 _ hmemd) hb.symm
              · by_cases c7 : (preObj5 w h).length
                    < (asc "<<").length + (w3.length + ((asc "obj").length
                      + (w2.length + ((asc "0").length + (w1.length + (ds.length + q))))))
                · have hb : (preObj5 w h ++ S).getD
                      ((w3.length + ((asc "obj").length + (w2.length + ((asc "0").length
                        + (w1.length + (ds.length + q))))))
                        + ((preObj5 w h).length
                          - (w3.length + ((asc "obj").length + (w2.length
                            + ((asc "0").length + (w1.length + (ds.length + q)))))))) 0
                      = (asc "<<").getD ((preObj5 w h).length
                          - (w3.length + ((asc "obj").length + (w2.length
                            + ((asc "0").length + (w1.length + (ds.length + q))))))) 0 :=
                    byte_of_drop _ _ _ _ d6 _ (by omega)
                  have he : (w3.length + ((asc "obj").length + (w2.length
                      + ((asc "0").length + (w1.length + (ds.length + q))))))
                      + ((preObj5 w h).length
                        - (w3.length + ((asc "obj").length + (w2.length
                          + ((asc "0").length + (w1.length + (ds.length + q)))))))
                      = (preObj5 w h).length := by omega
                  rw [he, hbp] at hb
                  have hko : ∀ i, i < 2 → (asc "<<" : Bytes).getD i 0 ≠ 53 := by decide
                  exact hko _ (by omega) hb.symm
                · by_cases c8 : (preObj5 w h).length
                      < w4.length + ((asc "<<").length + (w3.length + ((asc "obj").length
                        + (w2.length + ((asc "0").length + (w1.length + (ds.length + q)))))))
                  · have hb : (preObj5 w h ++ S).getD
                        (((asc "<<").length + (w3.length + ((asc "obj").length
                          + (w2.length + ((asc "0").length + (w1.length + (ds.length + q)))))))
                          + ((preObj5 w h).length
                            - ((asc "<<").length + (w3.length + ((asc "obj").length
                              + (w2.length + ((asc "0").length + (w1.length
                                + (ds.length + q))))))))) 0
                        = w4.getD ((preObj5 w h).length
                            - ((asc "<<").length + (w3.length + ((asc "obj").length
                              + (w2.length + ((asc "0").length + (w1.length
                                + (ds.length + q)))))))) 0 :=
                      byte_of_drop _ _ _ _ d7 _ (by omega)
                    have he : ((asc "<<").length + (w3.length + ((asc "obj").length
                        + (w2.length + ((asc "0").length + (w1.length + (ds.length + q)))))))
                        + ((preObj5 w h).length
                          - ((asc "<<").length + (w3.length + ((asc "obj").length
                            + (w2.length + ((asc "0").length + (w1.length
                              + (ds.length + q))))))))
                        = (preObj5 w h).length := by omega
                    rw [he, hbp] at hb
                    have hmemd : w4.getD ((preObj5 w h).length
                        - ((asc "<<").length + (w3.length + ((asc "obj").length
                          + (w2.length + ((asc "0").length + (w1.length
                            + (ds.length + q)))))))) 0 ∈ w4 := by
                      rw [List.getD_eq_getElem _ _ (by omega)]
                      exact List.getElem_mem _
                    exact ws_ne_53 _ (hw4 _ hmemd) hb.symm
                  · by_cases c9 : (preObj5 w h).length
                        < (asc "/Type").length + (w4.length + ((asc "<<").length
                          + (w3.length + ((asc "obj").length + (w2.length
                            + ((asc "0").length + (w1.length + (ds.length + q))))))))
                    · have hb : (preObj5 w h ++ S).getD
                          ((w4.length + ((asc "<<").length + (w3.length
                            + ((asc "obj").length + (w2.length + ((asc "0").length
                              + (w1.length + (ds.length + q))))))))
                            + ((preObj5 w h).length
                              - (w4.length + ((asc "<<").length + (w3.length
                                + ((asc "obj").length + (w2.length + ((asc "0").length
                                  + (w1.length + (ds.length + q)))))))))) 0
                          = (asc "/Type").getD ((preObj5 w h).length
                              - (w4.length + ((asc "<<").length + (w3.length
                                + ((asc "obj").length + (w2.length + ((asc "0").length
                                  + (w1.length + (ds.length + q))))))))) 0 :=
                        byte_of_drop _ _ _ _ d8 _ (by omega)
                      have he : (w4.length + ((asc "<<").length + (w3.length
                          + ((asc "obj").length + (w2.length + ((asc "0").length
                            + (w1.length + (ds.length + q))))))))
                          + ((preObj5 w h).length
                            - (w4.length + ((asc "<<").length + (w3.length
                              + ((asc "obj").length + (w2.length + ((asc "0").length
                                + (w1.length + (ds.length + q)))))))))
                          = (preObj5 w h).length := by omega
                      rw [he, hbp] at hb
                      have hko : ∀ i, i < 5 → (asc "/Type" : Bytes).getD i 0 ≠ 53 := by
                        decide
                      exact hko _ (by omega) hb.symm
                    · by_cases c10 : (preObj5 w h).length
                          < w5.length + ((asc "/Type").length + (w4.length
                            + ((asc "<<").length + (w3.length + ((asc "obj").length
                              + (w2.length + ((asc "0").length + (w1.length
                                + (ds.length + q)))))))))
                      · have hb : (preObj5 w h ++ S).getD
                            (((asc "/Type").length + (w4.length + ((asc "<<").length
                              + (w3.length + ((asc "obj").length + (w2.length
                                + ((asc "0").length + (w1.length + (ds.length + q)))))))))
                              + ((preObj5 w h).length
                                - ((asc "/Type").length + (w4.length + ((asc "<<").length
                                  + (w3.length + ((asc "obj").length + (w2.length
                                    + ((asc "0").length + (w1.length
                                      + (ds.length + q)))))))))) ) 0
                            = w5.getD ((preObj5 w h).length
                                - ((asc "/Type").length + (w4.length + ((asc "<<").length
                                  + (w3.length + ((asc "obj").length + (w2.length
                                    + ((asc "0").length + (w1.length
                                      + (ds.length + q)))))))))) 0 :=
                          byte_of_drop _ _ _ _ d9 _ (by omega)
                        have he : ((asc "/Type").length + (w4.length + ((asc "<<").length
                            + (w3.length + ((asc "obj").length + (w2.length
                              + ((asc "0").length + (w1.length + (ds.length + q)))))))))
                            + ((preObj5 w h).length
                              - ((asc "/Type").length + (w4.length + ((asc "<<").length
                                + (w3.length + ((asc "obj").length + (w2.length
                                  + ((asc "0").length + (w1.length
                                    + (ds.length + q))))))))))
                            = (preObj5 w h).length := by omega
                        rw [he, hbp] at hb
                        have hmemd : w5.getD ((preObj5 w h).length
                            - ((asc "/Type").length + (w4.length + ((asc "<<").length
                              + (w3.length + ((asc "obj").length + (w2.length
                                + ((asc "0").length + (w1.length
                                  + (ds.length + q)))))))))) 0 ∈ w5 := by
                          rw [List.getD_eq_getElem _ _ (by omega)]
                          exact List.getElem_mem _
                        exact ws_ne_53 _ (hw5 _ hmemd) hb.symm
                      · -- the position is exactly the `/` of `/XObject`
                        have hb : (preObj5 w h ++ S).getD
                            ((w5.length + ((asc "/Type").length + (w4.length
                              + ((asc "<<").length + (w3.length + ((asc "obj").length
                                + (w2.length + ((asc "0").length + (w1.length
                                  + (ds.length + q)))))))))) + 0) 0
                            = (asc "/XObject").getD 0 0 :=
                          byte_of_drop _ _ _ _ d10 0 (by rw [lxo]; omega)
                        have he : (w5.length + ((asc "/Type").length + (w4.length
                            + ((asc "<<").length + (w3.length + ((asc "obj").length
                              + (w2.length + ((asc "0").length + (w1.length
                                + (ds.length + q)))))))))) + 0
                            = (preObj5 w h).length := by omega
                        rw [he, hbp] at hb
                        exact absurd hb (by decide)
  · rw [hS5] at hmem
    exact absurd hmem (by decide)

/-! ### Evaluating the dictionary-key searches over the captured dictionary -/

lemma occursAtB_nil_false (j c : Nat) (ps : Bytes) :
    occursAtB [] j (c :: ps) = false := by
  simp [occursAtB, List.drop_nil, hasPfxB, hasPfxBP]

lemma digit_not_ws (x : Nat) (h : isDigitByte x = true) : isWsByte x = false := by
  simp only [isDigitByte, Bool.and_eq_true, decide_eq_true_eq] at h
  simp only [isWsByte, Bool.or_eq_false_iff, decide_eq_false_iff_not]
  omega

lemma digit_ne_47 (x : Nat) (h : isDigitByte x = true) : x ≠ 47 := by
  simp only [isDigitByte, Bool.and_eq_true, decide_eq_true_eq] at h
  omega

lemma natDigits_ne_47 (m : Nat) : ∀ x ∈ natDigits m, x ≠ 47 :=
  fun x hx => digit_ne_47 x (natDigits_digits m x hx)

lemma digit_not_mem_key (x : Nat) (hx : isDigitByte x = true) (key : Bytes)
    (hkey : ∀ c ∈ key, isDigitByte c = false) : x ∉ key := by
  intro hm
  rw [hkey x hm] at hx
  cases hx

lemma takeWhile_append_of_all (p : Nat → Bool) (A rest : Bytes)
    (hA : ∀ x ∈ A, p x = true) :
    (A ++ rest).takeWhile p = A ++ rest.takeWhile p := by
  induction A with
  | nil => simp
  | cons a A2 ih =>
    have ha : p a = true := hA a (List.mem_cons_self _ _)
    simp only [List.cons_append, List.takeWhile_cons, ha, if_true]
    rw [ih (fun x hx => hA x (List.mem_cons_of_mem _ hx))]

lemma eatLit_self_append (lit r : Bytes) : eatLit lit (lit ++ r) = some r := by
  simp [eatLit, hasPfxB_self_append, List.drop_left]

lemma split_lit (A B C T : Bytes) (h : A = B ++ C) :
    A ++ T = B ++ (C ++ T) := by
  rw [h, List.append_assoc]

lemma matchKeyNumAt_none_of_no_pfx (key b : Bytes) (h : hasPfxB b key = false) :
    matchKeyNumAt key b = none := by
  simp [matchKeyNumAt, eatLit, h]

lemma matchKeyWordAt_none_of_no_pfx (key b : Bytes) (h : hasPfxB b key = false) :
    matchKeyWordAt key b = none := by
  simp [matchKeyWordAt, eatLit, h]

lemma matchDecodeParmsAt_none_of_no_pfx (b : Bytes)
    (h : hasPfxB b (asc "/DecodeParms") = false) :
    matchDecodeParmsAt b = none := by
  simp [matchDecodeParmsAt, eatLit, h]

lemma searchKeyNumAux_cons (key : Bytes) (x : Nat) (r : Bytes) :
    searchKeyNumAux key (x :: r)
      = (match matchKeyNumAt key (x :: r) with
        | some v => some v
        | none => searchKeyNumAux key r) := rfl

lemma searchKeyWordAux_cons (key : Bytes) (x : Nat) (r : Bytes) :
    searchKeyWordAux key (x :: r)
      = (match matchKeyWordAt key (x :: r) with
        | some v => some v
        | none => searchKeyWordAux key r) := rfl

lemma searchDecodeParmsAux_cons (x : Nat) (r : Bytes) :
    searchDecodeParmsAux (x :: r)
      = (match matchDecodeParmsAt (x :: r) with
        | some v => some v
        | none => searchDecodeParmsAux r) := rfl

lemma searchKeyNumAux_found (key d : Bytes) (v : Nat)
    (h : matchKeyNumAt key d = some v) :
    searchKeyNumAux key d = some v := by
  cases d with
  | nil => rw [show searchKeyNumAux key []
      = (match matchKeyNumAt key [] with
        | some v => some v | none => none) from rfl, h]
  | cons x r => rw [searchKeyNumAux_cons, h]

lemma searchKeyWordAux_found (key d v : Bytes)
    (h : matchKeyWordAt key d = some v) :
    searchKeyWordAux key d = some v := by
  cases d with
  | nil => rw [show searchKeyWordAux key []
      = (match matchKeyWordAt key [] with
        | some v => some v | none => none) from rfl, h]
  | cons x r => rw [searchKeyWordAux_cons, h]

lemma searchDecodeParmsAux_found (d v : Bytes)
    (h : matchDecodeParmsAt d = some v) :
    searchDecodeParmsAux d = some v := by
  cases d with
  | nil => rw [show searchDecodeParmsAux []
      = (match matchDecodeParmsAt [] with
        | some v => some v | none => none) from rfl, h]
  | cons x r => rw [searchDecodeParmsAux_cons, h]

lemma searchKeyNumAux_skip : ∀ (key SEG R : Bytes),
    (∀ q, q < SEG.length → hasPfxB ((SEG ++ R).drop q) key = false) →
    searchKeyNumAux key (SEG ++ R) = searchKeyNumAux key R
  | _, [], _, _ => by rw [List.nil_append]
  | key, x :: S2, R, hno => by
    have h0 : matchKeyNumAt key (x :: (S2 ++ R)) = none :=
      matchKeyNumAt_none_of_no_pfx _ _ (by
        have := hno 0 (by simp only [List.length_cons]; omega)
        rwa [List.drop_zero, List.cons_append] at this)
    rw [List.cons_append, searchKeyNumAux_cons, h0]
    exact searchKeyNumAux_skip key S2 R (fun q hq => by
      have := hno (q + 1) (by simp only [List.length_cons]; omega)
      rwa [List.cons_append, List.drop_succ_cons] at this)

lemma searchKeyWordAux_skip : ∀ (key SEG R : Bytes),
    (∀ q, q < SEG.length → hasPfxB ((SEG ++ R).drop q) key = false) →
    searchKeyWordAux key (SEG ++ R) = searchKeyWordAux key R
  | _, [], _, _ => by rw [List.nil_append]
  | key, x :: S2, R, hno => by
    have h0 : matchKeyWordAt key (x :: (S2 ++ R)) = none :=
      matchKeyWordAt_none_of_no_pfx _ _ (by
        have := hno 0 (by simp only [List.length_cons]; omega)
        rwa [List.drop_zero, List.cons_append] at this)
    rw [List.cons_append, searchKeyWordAux_cons, h0]
    exact searchKeyWordAux_skip key S2 R (fun q hq => by
      have := hno (q + 1) (by simp only [List.length_cons]; omega)
      rwa [List.cons_append, List.drop_succ_cons] at this)

lemma searchDecodeParmsAux_skip : ∀ (SEG R : Bytes),
    (∀ q, q < SEG.length → hasPfxB ((SEG ++ R).drop q) (asc "/DecodeParms") = false) →
    searchDecodeParmsAux (SEG ++ R) = searchDecodeParmsAux R
  | [], _, _ => by rw [List.nil_append]
  | x :: S2, R, hno => by
    have h0 : matchDecodeParmsAt (x :: (S2 ++ R)) = none :=
      matchDecodeParmsAt_none_of_no_pfx _ (by
        have := hno 0 (by simp only [List.length_cons]; omega)
        rwa [List.drop_zero, List.cons_append] at this)
    rw [List.cons_append, searchDecodeParmsAux_cons, h0]
    exact searchDecodeParmsAux_skip S2 R (fun q hq => by
      have := hno (q + 1) (by simp only [List.length_cons]; omega)
      rwa [List.cons_append, List.drop_succ_cons] at this)

lemma searchKeyNumAux_skip_seg (key SEG R : Bytes)
    (hno : ∀ i, occursAtB SEG i key = false)
    (hh : R.headD 0 ∉ key) :
    searchKeyNumAux key (SEG ++ R) = searchKeyNumAux key R :=
  searchKeyNumAux_skip key SEG R (fun q hq => by
    by_contra hocc
    rw [Bool.not_eq_false] at hocc
    obtain ⟨hge, _⟩ := occ_append_step SEG R key q hno hh hocc
    omega)

lemma searchKeyNumAux_skip_hf (key SEG R : Bytes) (c : Nat) (ps : Bytes)
    (hkey : key = c :: ps) (hSEG : ∀ x ∈ SEG, x ≠ c) :
    searchKeyNumAux key (SEG ++ R) = searchKeyNumAux key R :=
  searchKeyNumAux_skip key SEG R (fun q hq => by
    by_contra hocc
    rw [Bool.not_eq_false] at hocc
    obtain ⟨hge, _⟩ := occ_append_step_headfree SEG R key c ps hkey hSEG q hocc
    omega)

lemma searchKeyWordAux_skip_seg (key SEG R : Bytes)
    (hno : ∀ i, occursAtB SEG i key = false)
    (hh : R.headD 0 ∉ key) :
    searchKeyWordAux key (SEG ++ R) = searchKeyWordAux key R :=
  searchKeyWordAux_skip key SEG R (fun q hq => by
    by_contra hocc
    rw [Bool.not_eq_false] at hocc
    obtain ⟨hge, _⟩ := occ_append_step SEG R key q hno hh hocc
    omega)

lemma searchKeyWordAux_skip_hf (key SEG R : Bytes) (c : Nat) (ps : Bytes)
    (hkey : key = c :: ps) (hSEG : ∀ x ∈ SEG, x ≠ c) :
    searchKeyWordAux key (SEG ++ R) = searchKeyWordAux key R :=
  searchKeyWordAux_skip key SEG R (fun q hq => by
    by_contra hocc
    rw [Bool.not_eq_false] at hocc
    obtain ⟨hge, _⟩ := occ_append_step_headfree SEG R key c ps hkey hSEG q hocc
    omega)

lemma searchDecodeParmsAux_skip_seg (SEG R : Bytes)
    (hno : ∀ i, occursAtB SEG i (asc "/DecodeParms") = false)
    (hh : R.headD 0 ∉ asc "/DecodeParms") :
    searchDecodeParmsAux (SEG ++ R) = searchDecodeParmsAux R :=
  searchDecodeParmsAux_skip SEG R (fun q hq => by
    by_contra hocc
    rw [Bool.not_eq_false] at hocc
    obtain ⟨hge, _⟩ := occ_append_step SEG R (asc "/DecodeParms") q hno hh hocc
    omega)

lemma searchDecodeParmsAux_skip_hf (SEG R : Bytes)
    (hSEG : ∀ x ∈ SEG, x ≠ 47) :
    searchDecodeParmsAux (SEG ++ R) = searchDecodeParmsAux R :=
  searchDecodeParmsAux_skip SEG R (fun q hq => by
    by_contra hocc
    rw [Bool.not_eq_false] at hocc
    obtain ⟨hge, _⟩ := occ_append_step_headfree SEG R (asc "/DecodeParms") 47
      (asc "DecodeParms") (by decide) hSEG q hocc
    omega)

lemma searchDecodeParmsAux_none : ∀ d : Bytes,
    (∀ q, hasPfxB (d.drop q) (asc "/DecodeParms") = false) →
    searchDecodeParmsAux d = none
  | [], _ => rfl
  | x :: r, h => by
    have h0 : matchDecodeParmsAt (x :: r) = none :=
      matchDecodeParmsAt_none_of_no_pfx _ (by
        have := h 0
        rwa [List.drop_zero] at this)
    rw [searchDecodeParmsAux_cons, h0]
    exact searchDecodeParmsAux_none r (fun q => by
      have := h (q + 1)
      rwa [List.drop_succ_cons] at this)

/-- Evaluating `re.search(rb'<key>\s+(\d+)')` where the rendered key/value
pair sits at the front. -/
lemma matchKeyNumAt_render (key R : Bytes) (v : Nat)
    (hR : isDigitByte (R.headD 0) = false) :
    matchKeyNumAt key (key ++ (asc " " ++ (natDigits v ++ R))) = some v := by
  unfold matchKeyNumAt
  rw [eatLit_self_append]
  simp only [Option.bind_eq_bind, Option.some_bind]
  have hws : eatWs1 (asc " " ++ (natDigits v ++ R)) = some (natDigits v ++ R) := by
    unfold eatWs1
    have htw : (asc " " ++ (natDigits v ++ R)).takeWhile isWsByte = [32] := by
      rw [show (asc " " : Bytes) = [32] from rfl, List.cons_append, List.nil_append,
        List.takeWhile_cons, if_pos (by decide)]
      cases hD : natDigits v with
      | nil => exact absurd hD (natDigits_ne_nil v)
      | cons d ds =>
        rw [List.cons_append, List.takeWhile_cons,
          if_neg (by
            rw [digit_not_ws d (natDigits_digits v d (by rw [hD]; exact List.mem_cons_self _ _))]
            exact Bool.false_ne_true)]
    rw [htw, if_neg (by decide)]
    rw [show (([32] : Bytes)).length = 1 from rfl,
      show (asc " " : Bytes) ++ (natDigits v ++ R) = 32 :: (natDigits v ++ R) from rfl,
      List.drop_succ_cons, List.drop_zero]
  rw [hws]
  simp only [Option.bind_eq_bind, Option.some_bind]
  have hdg : eatDigits1 (natDigits v ++ R) = some (natDigits v, R) := by
    unfold eatDigits1
    rw [takeWhile_append_digits _ _ (natDigits_digits v)]
    have hRt : R.takeWhile isDigitByte = [] := by
      cases R with
      | nil => rfl
      | cons y ys =>
        rw [List.takeWhile_cons, if_neg (by
          rw [show (y :: ys).headD 0 = y from rfl] at hR
          rw [hR]
          exact Bool.false_ne_true)]
    rw [hRt, List.append_nil, if_neg (by simp [natDigits_ne_nil v]), List.drop_left]
  rw [hdg]
  simp only [Option.bind_eq_bind, Option.some_bind]
  rw [bytesToNat_natDigits]
  rfl

/-- Evaluating `re.search(rb'<key>\s*/(\w+)')` where the rendered key/value
pair sits at the front. -/
lemma matchKeyWordAt_render (key wrd R : Bytes)
    (hw : wrd ≠ []) (hwb : ∀ x ∈ wrd, isWordByte x = true)
    (hR : isWordByte (R.headD 0) = false) :
    matchKeyWordAt key (key ++ (asc " /" ++ (wrd ++ R))) = some wrd := by
  unfold matchKeyWordAt
  rw [eatLit_self_append]
  simp only [Option.bind_eq_bind, Option.some_bind]
  have hws : eatWs0 (asc " /" ++ (wrd ++ R)) = asc "/" ++ (wrd ++ R) := by
    unfold eatWs0
    rw [show (asc " /" : Bytes) ++ (wrd ++ R) = 32 :: (47 :: (wrd ++ R)) from rfl,
      List.takeWhile_cons, if_pos (by decide), List.takeWhile_cons, if_neg (by decide)]
    rfl
  rw [hws, show (asc "/" : Bytes) ++ (wrd ++ R) = asc "/" ++ (wrd ++ R) from rfl,
    eatLit_self_append]
  simp only [Option.bind_eq_bind, Option.some_bind]
  have htw : (wrd ++ R).takeWhile isWordByte = wrd := by
    rw [takeWhile_append_of_all _ _ _ hwb]
    have hRt : R.takeWhile isWordByte = [] := by
      cases R with
      | nil => rfl
      | cons y ys =>
        rw [List.takeWhile_cons, if_neg (by
          rw [show (y :: ys).headD 0 = y from rfl] at hR
          rw [hR]
          exact Bool.false_ne_true)]
    rw [hRt, List.append_nil]
  rw [htw, if_neg (by simp [hw])]
  rfl

/-- Evaluating `re.search(rb'/DecodeParms\s*<<([^>]*?)>>')` where the
rendered dictionary sits at the front. -/
lemma matchDecodeParmsAt_render (C R : Bytes) (hC : ∀ x ∈ C, x ≠ 62) :
    matchDecodeParmsAt (asc "/DecodeParms" ++ (asc " <<" ++ (C ++ (asc ">>" ++ R))))
      = some C := by
  unfold matchDecodeParmsAt
  rw [eatLit_self_append]
  simp only [Option.bind_eq_bind, Option.some_bind]
  have hws : eatWs0 (asc " <<" ++ (C ++ (asc ">>" ++ R)))
      = asc "<<" ++ (C ++ (asc ">>" ++ R)) := by
    unfold eatWs0
    rw [show (asc " <<" : Bytes) ++ (C ++ (asc ">>" ++ R))
        = 32 :: (60 :: (60 :: (C ++ (asc ">>" ++ R)))) from rfl,
      List.takeWhile_cons, if_pos (by decide), List.takeWhile_cons, if_neg (by decide)]
    rfl
  rw [hws, eatLit_self_append]
  simp only [Option.bind_eq_bind, Option.some_bind]
  have htw : (C ++ (asc ">>" ++ R)).takeWhile (fun x => x ≠ 62) = C := by
    rw [takeWhile_append_of_all _ _ _ (fun x hx => by
      simp only [ne_eq, decide_eq_true_eq]
      exact hC x hx)]
    rw [show (asc ">>" : Bytes) ++ R = 62 :: (62 :: R) from rfl,
      List.takeWhile_cons, if_neg (by decide), List.append_nil]
  rw [htw, List.drop_left, eatLit_self_append]
  rfl

/-- `bytes.strip()` on a space-wrapped rendered run. -/
lemma stripWsB_render (A D : Bytes) (hA1 : isWsByte (A.headD 0) = false)
    (hA0 : A ≠ []) (hD : D ≠ []) (hDd : ∀ x ∈ D, isDigitByte x = true) :
    stripWsB (asc " " ++ (A ++ (D ++ asc " "))) = A ++ D := by
  unfold stripWsB
  have h1 : (asc " " ++ (A ++ (D ++ asc " "))).dropWhile isWsByte
      = A ++ (D ++ asc " ") := by
    rw [show (asc " " : Bytes) ++ (A ++ (D ++ asc " "))
        = 32 :: (A ++ (D ++ asc " ")) from rfl, List.dropWhile_cons,
      if_pos (by decide)]
    cases A with
    | nil => exact absurd rfl hA0
    | cons a as =>
      rw [List.cons_append, List.dropWhile_cons, if_neg (by
        rw [show (a :: as).headD 0 = a from rfl] at hA1
        rw [hA1]
        exact Bool.false_ne_true)]
  rw [h1]
  have h2 : (A ++ (D ++ asc " ")).reverse = 32 :: (D.reverse ++ A.reverse) := by
    rw [show (asc " " : Bytes) = [32] from rfl]
    simp [List.reverse_append]
  rw [h2, List.dropWhile_cons, if_pos (by decide)]
  have h3 : (D.reverse ++ A.reverse).dropWhile isWsByte = D.reverse ++ A.reverse := by
    cases hDr : D.reverse with
    | nil =>
      exact absurd (by simpa using congrArg List.reverse hDr) hD
    | cons d ds =>
      rw [List.cons_append, List.dropWhile_cons, if_neg (by
        have hdD : d ∈ D := by
          have : d ∈ D.reverse := by rw [hDr]; exact List.mem_cons_self _ _
          simpa using this
        rw [digit_not_ws d (hDd d hdD)]
        exact Bool.false_ne_true)]
  rw [h3]
  simp

lemma headD_append_lit_not_mem (L Z key : Bytes) (hne : L ≠ []) (h : L.headD 0 ∉ key) :
    (L ++ Z).headD 0 ∉ key := by
  rw [headD_append_of_ne _ _ hne]
  exact h

lemma headD_append_lit_pred (p : Nat → Bool) (L Z : Bytes) (hne : L ≠ [])
    (h : p (L.headD 0) = false) : p ((L ++ Z).headD 0) = false := by
  rw [headD_append_of_ne _ _ hne]
  exact h

/-- `/Width` lookup over the captured dictionary. -/
lemma dictSingle_width (w h bpc n : Nat) (cs : Bytes) (flate : Bool) :
    searchKeyNum (asc "/Width") (dictSingle w h cs bpc flate n) = some w := by
  unfold searchKeyNum
  rw [← List.append_nil (dictSingle w h cs bpc flate n)]
  cases flate
  · rw [dictSingle_append_dct,
      split_lit (asc "/Width ") (asc "/Width") (asc " ") _ (by decide)]
    exact searchKeyNumAux_found _ _ _ (matchKeyNumAt_render _ _ _
      (headD_append_lit_pred isDigitByte (asc " /Height ") _ (by decide) (by decide)))
  · rw [dictSingle_append_flate,
      split_lit (asc "/Width ") (asc "/Width") (asc " ") _ (by decide)]
    exact searchKeyNumAux_found _ _ _ (matchKeyNumAt_render _ _ _
      (headD_append_lit_pred isDigitByte (asc " /Height ") _ (by decide) (by decide)))

/-- `/Height` lookup over the captured dictionary. -/
lemma dictSingle_height (w h bpc n : Nat) (cs : Bytes) (flate : Bool) :
    searchKeyNum (asc "/Height") (dictSingle w h cs bpc flate n) = some h := by
  unfold searchKeyNum
  rw [← List.append_nil (dictSingle w h cs bpc flate n)]
  cases flate
  · rw [dictSingle_append_dct,
      searchKeyNumAux_skip_seg (asc "/Height") (asc "/Width ") _
        (no_occ_in _ _ (by decide) (by decide))
        (digit_not_mem_key _ (natDigits_headD_mem w _) _ (by decide)),
      searchKeyNumAux_skip_hf (asc "/Height") (natDigits w) _ 47 (asc "Height")
        (by decide) (natDigits_ne_47 w),
      split_lit (asc " /Height ") (asc " ") (asc "/Height ") _ (by decide),
      searchKeyNumAux_skip_hf (asc "/Height") (asc " ") _ 47 (asc "Height")
        (by decide) (by decide),
      split_lit (asc "/Height ") (asc "/Height") (asc " ") _ (by decide)]
    exact searchKeyNumAux_found _ _ _ (matchKeyNumAt_render _ _ _
      (headD_append_lit_pred isDigitByte (asc " ") _ (by decide) (by decide)))
  · rw [dictSingle_append_flate,
      searchKeyNumAux_skip_seg (asc "/Height") (asc "/Width ") _
        (no_occ_in _ _ (by decide) (by decide))
        (digit_not_mem_key _ (natDigits_headD_mem w _) _ (by decide)),
      searchKeyNumAux_skip_hf (asc "/Height") (natDigits w) _ 47 (asc "Height")
        (by decide) (natDigits_ne_47 w),
      split_lit (asc " /Height ") (asc " ") (asc "/Height ") _ (by decide),
      searchKeyNumAux_skip_hf (asc "/Height") (asc " ") _ 47 (asc "Height")
        (by decide) (by decide),
      split_lit (asc "/Height ") (asc "/Height") (asc " ") _ (by decide)]
    exact searchKeyNumAux_found _ _ _ (matchKeyNumAt_render _ _ _
      (headD_append_lit_pred isDigitByte (asc " ") _ (by decide) (by decide)))

/-- `/BitsPerComponent` lookup over the captured dictionary (the first
occurrence, not the hard-coded one inside `/DecodeParms`). -/
lemma dictSingle_bpc (w h bpc n : Nat) (cs : Bytes) (flate : Bool)
    (hcs : cs = asc "/DeviceRGB" ∨ cs = asc "/DeviceGray") :
    searchKeyNum (asc "/BitsPerComponent") (dictSingle w h cs bpc flate n)
      = some bpc := by
  have hnoCS : ∀ i, occursAtB (asc "/ColorSpace " ++ cs) i
      (asc "/BitsPerComponent") = false := by
    obtain hc | hc := hcs <;> subst hc <;>
      exact no_occ_in _ _ (by decide) (by decide)
  unfold searchKeyNum
  rw [← List.append_nil (dictSingle w h cs bpc flate n)]
  cases flate
  · rw [dictSingle_append_dct,
      searchKeyNumAux_skip_seg (asc "/BitsPerComponent") (asc "/Width ") _
        (no_occ_in _ _ (by decide) (by decide))
        (digit_not_mem_key _ (natDigits_headD_mem w _) _ (by decide)),
      searchKeyNumAux_skip_hf (asc "/BitsPerComponent") (natDigits w) _ 47
        (asc "BitsPerComponent") (by decide) (natDigits_ne_47 w),
      searchKeyNumAux_skip_seg (asc "/BitsPerComponent") (asc " /Height ") _
        (no_occ_in _ _ (by decide) (by decide))
        (digit_not_mem_key _ (natDigits_headD_mem h _) _ (by decide)),
      searchKeyNumAux_skip_hf (asc "/BitsPerComponent") (natDigits h) _ 47
        (asc "BitsPerComponent") (by decide) (natDigits_ne_47 h),
      searchKeyNumAux_skip_hf (asc "/BitsPerComponent") (asc " ") _ 47
        (asc "BitsPerComponent") (by decide) (by decide),
      ← List.append_assoc (asc "/ColorSpace ") cs _,
      searchKeyNumAux_skip_seg (asc "/BitsPerComponent") (asc "/ColorSpace " ++ cs) _
        hnoCS
        (headD_append_lit_not_mem (asc " /BitsPerComponent ") _ _ (by decide) (by decide)),
      split_lit (asc " /BitsPerComponent ") (asc " ") (asc "/BitsPerComponent ") _
        (by decide),
      searchKeyNumAux_skip_hf (asc "/BitsPerComponent") (asc " ") _ 47
        (asc "BitsPerComponent") (by decide) (by decide),
      split_lit (asc "/BitsPerComponent ") (asc "/BitsPerComponent") (asc " ") _
        (by decide)]
    exact searchKeyNumAux_found _ _ _ (matchKeyNumAt_render _ _ _
      (headD_append_lit_pred isDigitByte (asc " ") _ (by decide) (by decide)))
  · rw [dictSingle_append_flate,
      searchKeyNumAux_skip_seg (asc "/BitsPerComponent") (asc "/Width ") _
        (no_occ_in _ _ (by decide) (by decide))
        (digit_not_mem_key _ (natDigits_headD_mem w _) _ (by decide)),
      searchKeyNumAux_skip_hf (asc "/BitsPerComponent") (natDigits w) _ 47
        (asc "BitsPerComponent") (by decide) (natDigits_ne_47 w),
      searchKeyNumAux_skip_seg (asc "/BitsPerComponent") (asc " /Height ") _
        (no_occ_in _ _ (by decide) (by decide))
        (digit_not_mem_key _ (natDigits_headD_mem h _) _ (by decide)),
      searchKeyNumAux_skip_hf (asc "/BitsPerComponent") (natDigits h) _ 47
        (asc "BitsPerComponent") (by decide) (natDigits_ne_47 h),
      searchKeyNumAux_skip_hf (asc "/BitsPerComponent") (asc " ") _ 47
        (asc "BitsPerComponent") (by decide) (by decide),
      ← List.append_assoc (asc "/ColorSpace ") cs _,
      searchKeyNumAux_skip_seg (asc "/BitsPerComponent") (asc "/ColorSpace " ++ cs) _
        hnoCS
        (headD_append_lit_not_mem (asc " /BitsPerComponent ") _ _ (by decide) (by decide)),
      split_lit (asc " /BitsPerComponent ") (asc " ") (asc "/BitsPerComponent ") _
        (by decide),
      searchKeyNumAux_skip_hf (asc "/BitsPerComponent") (asc " ") _ 47
        (asc "BitsPerComponent") (by decide) (by decide),
      split_lit (asc "/BitsPerComponent ") (asc "/BitsPerComponent") (asc " ") _
        (by decide)]
    exact searchKeyNumAux_found _ _ _ (matchKeyNumAt_render _ _ _
      (headD_append_lit_pred isDigitByte (asc " ") _ (by decide) (by decide)))

/-- `/Length` lookup over the captured dictionary. -/
lemma dictSingle_length (w h bpc n : Nat) (cs : Bytes) (flate : Bool)
    (hcs : cs = asc "/DeviceRGB" ∨ cs = asc "/DeviceGray") :
    searchKeyNum (asc "/Length") (dictSingle w h cs bpc flate n) = some n := by
  have hnoCS : ∀ i, occursAtB (asc "/ColorSpace " ++ cs) i (asc "/Length") = false := by
    obtain hc | hc := hcs <;> subst hc <;>
      exact no_occ_in _ _ (by decide) (by decide)
  unfold searchKeyNum
  rw [← List.append_nil (dictSingle w h cs bpc flate n)]
  cases flate
  · rw [dictSingle_append_dct,
      searchKeyNumAux_skip_seg (asc "/Length") (asc "/Width ") _
        (no_occ_in _ _ (by decide) (by decide))
        (digit_not_mem_key _ (natDigits_headD_mem w _) _ (by decide)),
      searchKeyNumAux_skip_hf (asc "/Length") (natDigits w) _ 47 (asc "Length")
        (by decide) (natDigits_ne_47 w),
      searchKeyNumAux_skip_seg (asc "/Length") (asc " /Height ") _
        (no_occ_in _ _ (by decide) (by decide))
        (digit_not_mem_key _ (natDigits_headD_mem h _) _ (by decide)),
      searchKeyNumAux_skip_hf (asc "/Length") (natDigits h) _ 47 (asc "Length")
        (by decide) (natDigits_ne_47 h),
      searchKeyNumAux_skip_hf (asc "/Length") (asc " ") _ 47 (asc "Length")
        (by decide) (by decide),
      ← List.append_assoc (asc "/ColorSpace ") cs _,
      searchKeyNumAux_skip_seg (asc "/Length") (asc "/ColorSpace " ++ cs) _ hnoCS
        (headD_append_lit_not_mem (asc " /BitsPerComponent ") _ _ (by decide) (by decide)),
      searchKeyNumAux_skip_seg (asc "/Length") (asc " /BitsPerComponent ") _
        (no_occ_in _ _ (by decide) (by decide))
        (digit_not_mem_key _ (natDigits_headD_mem bpc _) _ (by decide)),
      searchKeyNumAux_skip_hf (asc "/Length") (natDigits bpc) _ 47 (asc "Length")
        (by decide) (natDigits_ne_47 bpc),
      searchKeyNumAux_skip_hf (asc "/Length") (asc " ") _ 47 (asc "Length")
        (by decide) (by decide),
      split_lit (asc "/Filter /DCTDecode ") (asc "/Filter /DCTDecode") (asc " ") _
        (by decide),
      searchKeyNumAux_skip_seg (asc "/Length") (asc "/Filter /DCTDecode") _
        (no_occ_in _ _ (by decide) (by decide))
        (headD_append_lit_not_mem (asc " ") _ _ (by decide) (by decide)),
      searchKeyNumAux_skip_hf (asc "/Length") (asc " ") _ 47 (asc "Length")
        (by decide) (by decide),
      split_lit (asc "/Length ") (asc "/Length") (asc " ") _ (by decide)]
    exact searchKeyNumAux_found _ _ _ (matchKeyNumAt_render _ _ _
      (headD_append_lit_pred isDigitByte (asc " ") _ (by decide) (by decide)))
  · rw [dictSingle_append_flate,
      searchKeyNumAux_skip_seg (asc "/Length") (asc "/Width ") _
        (no_occ_in _ _ (by decide) (by decide))
        (digit_not_mem_key _ (natDigits_headD_mem w _) _ (by decide)),
      searchKeyNumAux_skip_hf (asc "/Length") (natDigits w) _ 47 (asc "Length")
        (by decide) (natDigits_ne_47 w),
      searchKeyNumAux_skip_seg (asc "/Length") (asc " /Height ") _
        (no_occ_in _ _ (by decide) (by decide))
        (digit_not_mem_key _ (natDigits_headD_mem h _) _ (by decide)),
      searchKeyNumAux_skip_hf (asc "/Length") (natDigits h) _ 47 (asc "Length")
        (by decide) (natDigits_ne_47 h),
      searchKeyNumAux_skip_hf (asc "/Length") (asc " ") _ 47 (asc "Length")
        (by decide) (by decide),
      ← List.append_assoc (asc "/ColorSpace ") cs _,
      searchKeyNumAux_skip_seg (asc "/Length") (asc "/ColorSpace " ++ cs) _ hnoCS
        (headD_append_lit_not_mem (asc " /BitsPerComponent ") _ _ (by decide) (by decide)),
      searchKeyNumAux_skip_seg (asc "/Length") (asc " /BitsPerComponent ") _
        (no_occ_in _ _ (by decide) (by decide))
        (digit_not_mem_key _ (natDigits_headD_mem bpc _) _ (by decide)),
      searchKeyNumAux_skip_hf (asc "/Length") (natDigits bpc) _ 47 (asc "Length")
        (by decide) (natDigits_ne_47 bpc),
      searchKeyNumAux_skip_hf (asc "/Length") (asc " ") _ 47 (asc "Length")
        (by decide) (by decide),
      split_lit (asc "/Filter /FlateDecode ") (asc "/Filter /FlateDecode") (asc " ") _
        (by decide),
      searchKeyNumAux_skip_seg (asc "/Length") (asc "/Filter /FlateDecode") _
        (no_occ_in _ _ (by decide) (by decide))
        (headD_append_lit_not_mem (asc " ") _ _ (by decide) (by decide)),
      searchKeyNumAux_skip_hf (asc "/Length") (asc " ") _ 47 (asc "Length")
        (by decide) (by decide),
      searchKeyNumAux_skip_seg (asc "/Length")
        (asc "/DecodeParms << /Predictor 15 /Colors 3 /BitsPerComponent 8 /Columns ") _
        (no_occ_in _ _ (by decide) (by decide))
        (digit_not_mem_key _ (natDigits_headD_mem w _) _ (by decide)),
      searchKeyNumAux_skip_hf (asc "/Length") (natDigits w) _ 47 (asc "Length")
        (by decide) (natDigits_ne_47 w),
      searchKeyNumAux_skip_hf (asc "/Length") (asc " >> ") _ 47 (asc "Length")
        (by decide) (by decide),
      split_lit (asc "/Length ") (asc "/Length") (asc " ") _ (by decide)]
    exact searchKeyNumAux_found _ _ _ (matchKeyNumAt_render _ _ _
      (headD_append_lit_pred isDigitByte (asc " ") _ (by decide) (by decide)))

/-- `/Filter` lookup over the captured dictionary. -/
lemma dictSingle_filter (w h bpc n : Nat) (cs : Bytes) (flate : Bool)
    (hcs : cs = asc "/DeviceRGB" ∨ cs = asc "/DeviceGray") :
    searchKeyWord (asc "/Filter") (dictSingle w h cs bpc flate n)
      = some (if flate then asc "FlateDecode" else asc "DCTDecode") := by
  have hnoCS : ∀ i, occursAtB (asc "/ColorSpace " ++ cs) i (asc "/Filter") = false := by
    obtain hc | hc := hcs <;> subst hc <;>
      exact no_occ_in _ _ (by decide) (by decide)
  unfold searchKeyWord
  rw [← List.append_nil (dictSingle w h cs bpc flate n)]
  cases flate
  · rw [if_neg (by simp), dictSingle_append_dct,
      searchKeyWordAux_skip_seg (asc "/Filter") (asc "/Width ") _
        (no_occ_in _ _ (by decide) (by decide))
        (digit_not_mem_key _ (natDigits_headD_mem w _) _ (by decide)),
      searchKeyWordAux_skip_hf (asc "/Filter") (natDigits w) _ 47 (asc "Filter")
        (by decide) (natDigits_ne_47 w),
      searchKeyWordAux_skip_seg (asc "/Filter") (asc " /Height ") _
        (no_occ_in _ _ (by decide) (by decide))
        (digit_not_mem_key _ (natDigits_headD_mem h _) _ (by decide)),
      searchKeyWordAux_skip_hf (asc "/Filter") (natDigits h) _ 47 (asc "Filter")
        (by decide) (natDigits_ne_47 h),
      searchKeyWordAux_skip_hf (asc "/Filter") (asc " ") _ 47 (asc "Filter")
        (by decide) (by decide),
      ← List.append_assoc (asc "/ColorSpace ") cs _,
      searchKeyWordAux_skip_seg (asc "/Filter") (asc "/ColorSpace " ++ cs) _ hnoCS
        (headD_append_lit_not_mem (asc " /BitsPerComponent ") _ _ (by decide) (by decide)),
      searchKeyWordAux_skip_seg (asc "/Filter") (asc " /BitsPerComponent ") _
        (no_occ_in _ _ (by decide) (by decide))
        (digit_not_mem_key _ (natDigits_headD_mem bpc _) _ (by decide)),
      searchKeyWordAux_skip_hf (asc "/Filter") (natDigits bpc) _ 47 (asc "Filter")
        (by decide) (natDigits_ne_47 bpc),
      searchKeyWordAux_skip_hf (asc "/Filter") (asc " ") _ 47 (asc "Filter")
        (by decide) (by decide),
      split_lit (asc "/Filter /DCTDecode ") (asc "/Filter") (asc " /DCTDecode ") _
        (by decide),
      split_lit (asc " /DCTDecode ") (asc " /") (asc "DCTDecode ") _ (by decide),
      split_lit (asc "DCTDecode ") (asc "DCTDecode") (asc " ") _ (by decide)]
    exact searchKeyWordAux_found _ _ _ (matchKeyWordAt_render _ _ _
      (by decide) (by decide)
      (headD_append_lit_pred isWordByte (asc " ") _ (by decide) (by decide)))
  · rw [if_pos rfl, dictSingle_append_flate,
      searchKeyWordAux_skip_seg (asc "/Filter") (asc "/Width ") _
        (no_occ_in _ _ (by decide) (by decide))
        (digit_not_mem_key _ (natDigits_headD_mem w _) _ (by decide)),
      searchKeyWordAux_skip_hf (asc "/Filter") (natDigits w) _ 47 (asc "Filter")
        (by decide) (natDigits_ne_47 w),
      searchKeyWordAux_skip_seg (asc "/Filter") (asc " /Height ") _
        (no_occ_in _ _ (by decide) (by decide))
        (digit_not_mem_key _ (natDigits_headD_mem h _) _ (by decide)),
      searchKeyWordAux_skip_hf (asc "/Filter") (natDigits h) _ 47 (asc "Filter")
        (by decide) (natDigits_ne_47 h),
      searchKeyWordAux_skip_hf (asc "/Filter") (asc " ") _ 47 (asc "Filter")
        (by decide) (by decide),
      ← List.append_assoc (asc "/ColorSpace ") cs _,
      searchKeyWordAux_skip_seg (asc "/Filter") (asc "/ColorSpace " ++ cs) _ hnoCS
        (headD_append_lit_not_mem (asc " /BitsPerComponent ") _ _ (by decide) (by decide)),
      searchKeyWordAux_skip_seg (asc "/Filter") (asc " /BitsPerComponent ") _
        (no_occ_in _ _ (by decide) (by decide))
        (digit_not_mem_key _ (natDigits_headD_mem bpc _) _ (by decide)),
      searchKeyWordAux_skip_hf (asc "/Filter") (natDigits bpc) _ 47 (asc "Filter")
        (by decide) (natDigits_ne_47 bpc),
      searchKeyWordAux_skip_hf (asc "/Filter") (asc " ") _ 47 (asc "Filter")
        (by decide) (by decide),
      split_lit (asc "/Filter /FlateDecode ") (asc "/Filter") (asc " /FlateDecode ") _
        (by decide),
      split_lit (asc " /FlateDecode ") (asc " /") (asc "FlateDecode ") _ (by decide),
      split_lit (asc "FlateDecode ") (asc "FlateDecode") (asc " ") _ (by decide)]
    exact searchKeyWordAux_found _ _ _ (matchKeyWordAt_render _ _ _
      (by decide) (by decide)
      (headD_append_lit_pred isWordByte (asc " ") _ (by decide) (by decide)))

/-- `/ColorSpace` lookup over the captured dictionary. -/
lemma dictSingle_colorspace (w h bpc n : Nat) (cs : Bytes) (flate : Bool)
    (hcs : cs = asc "/DeviceRGB" ∨ cs = asc "/DeviceGray") :
    searchKeyWord (asc "/ColorSpace") (dictSingle w h cs bpc flate n)
      = some (cs.drop 1) := by
  unfold searchKeyWord
  rw [← List.append_nil (dictSingle w h cs bpc flate n)]
  obtain hc | hc := hcs <;> subst hc <;> cases flate
  · rw [show ((asc "/DeviceRGB" : Bytes)).drop 1 = asc "DeviceRGB" from by decide,
      dictSingle_append_dct,
      searchKeyWordAux_skip_seg (asc "/ColorSpace") (asc "/Width ") _
        (no_occ_in _ _ (by decide) (by decide))
        (digit_not_mem_key _ (natDigits_headD_mem w _) _ (by decide)),
      searchKeyWordAux_skip_hf (asc "/ColorSpace") (natDigits w) _ 47 (asc "ColorSpace")
        (by decide) (natDigits_ne_47 w),
      searchKeyWordAux_skip_seg (asc "/ColorSpace") (asc " /Height ") _
        (no_occ_in _ _ (by decide) (by decide))
        (digit_not_mem_key _ (natDigits_headD_mem h _) _ (by decide)),
      searchKeyWordAux_skip_hf (asc "/ColorSpace") (natDigits h) _ 47 (asc "ColorSpace")
        (by decide) (natDigits_ne_47 h),
      searchKeyWordAux_skip_hf (asc "/ColorSpace") (asc " ") _ 47 (asc "ColorSpace")
        (by decide) (by decide),
      ← List.append_assoc (asc "/ColorSpace ") (asc "/DeviceRGB") _,
      split_lit (asc "/ColorSpace " ++ asc "/DeviceRGB") (asc "/ColorSpace")
        (asc " /DeviceRGB") _ (by decide),
      split_lit (asc " /DeviceRGB") (asc " /") (asc "DeviceRGB") _ (by decide)]
    exact searchKeyWordAux_found _ _ _ (matchKeyWordAt_render _ _ _
      (by decide) (by decide)
      (headD_append_lit_pred isWordByte (asc " /BitsPerComponent ") _ (by decide)
        (by decide)))
  · rw [show ((asc "/DeviceRGB" : Bytes)).drop 1 = asc "DeviceRGB" from by decide,
      dictSingle_append_flate,
      searchKeyWordAux_skip_seg (asc "/ColorSpace") (asc "/Width ") _
        (no_occ_in _ _ (by decide) (by decide))
        (digit_not_mem_key _ (natDigits_headD_mem w _) _ (by decide)),
      searchKeyWordAux_skip_hf (asc "/ColorSpace") (natDigits w) _ 47 (asc "ColorSpace")
        (by decide) (natDigits_ne_47 w),
      searchKeyWordAux_skip_seg (asc "/ColorSpace") (asc " /Height ") _
        (no_occ_in _ _ (by decide) (by decide))
        (digit_not_mem_key _ (natDigits_headD_mem h _) _ (by decide)),
      searchKeyWordAux_skip_hf (asc "/ColorSpace") (natDigits h) _ 47 (asc "ColorSpace")
        (by decide) (natDigits_ne_47 h),
      searchKeyWordAux_skip_hf (asc "/ColorSpace") (asc " ") _ 47 (asc "ColorSpace")
        (by decide) (by decide),
      ← List.append_assoc (asc "/ColorSpace ") (asc "/DeviceRGB") _,
      split_lit (asc "/ColorSpace " ++ asc "/DeviceRGB") (asc "/ColorSpace")
        (asc " /DeviceRGB") _ (by decide),
      split_lit (asc " /DeviceRGB") (asc " /") (asc "DeviceRGB") _ (by decide)]
    exact searchKeyWordAux_found _ _ _ (matchKeyWordAt_render _ _ _
      (by decide) (by decide)
      (headD_append_lit_pred isWordByte (asc " /BitsPerComponent ") _ (by decide)
        (by decide)))
  · rw [show ((asc "/DeviceGray" : Bytes)).drop 1 = asc "DeviceGray" from by decide,
      dictSingle_append_dct,
      searchKeyWordAux_skip_seg (asc "/ColorSpace") (asc "/Width ") _
        (no_occ_in _ _ (by decide) (by decide))
        (digit_not_mem_key _ (natDigits_headD_mem w _) _ (by decide)),
      searchKeyWordAux_skip_hf (asc "/ColorSpace") (natDigits w) _ 47 (asc "ColorSpace")
        (by decide) (natDigits_ne_47 w),
      searchKeyWordAux_skip_seg (asc "/ColorSpace") (asc " /Height ") _
        (no_occ_in _ _ (by decide) (by decide))
        (digit_not_mem_key _ (natDigits_headD_mem h _) _ (by decide)),
      searchKeyWordAux_skip_hf (asc "/ColorSpace") (natDigits h) _ 47 (asc "ColorSpace")
        (by decide) (natDigits_ne_47 h),
      searchKeyWordAux_skip_hf (asc "/ColorSpace") (asc " ") _ 47 (asc "ColorSpace")
        (by decide) (by decide),
      ← List.append_assoc (asc "/ColorSpace ") (asc "/DeviceGray") _,
      split_lit (asc "/ColorSpace " ++ asc "/DeviceGray") (asc "/ColorSpace")
        (asc " /DeviceGray") _ (by decide),
      split_lit (asc " /DeviceGray") (asc " /") (asc "DeviceGray") _ (by decide)]
    exact searchKeyWordAux_found _ _ _ (matchKeyWordAt_render _ _ _
      (by decide) (by decide)
      (headD_append_lit_pred isWordByte (asc " /BitsPerComponent ") _ (by decide)
        (by decide)))
  · rw [show ((asc "/DeviceGray" : Bytes)).drop 1 = asc "DeviceGray" from by decide,
      dictSingle_append_flate,
      searchKeyWordAux_skip_seg (asc "/ColorSpace") (asc "/Width ") _
        (no_occ_in _ _ (by decide) (by decide))
        (digit_not_mem_key _ (natDigits_headD_mem w _) _ (by decide)),
      searchKeyWordAux_skip_hf (asc "/ColorSpace") (natDigits w) _ 47 (asc "ColorSpace")
        (by decide) (natDigits_ne_47 w),
      searchKeyWordAux_skip_seg (asc "/ColorSpace") (asc " /Height ") _
        (no_occ_in _ _ (by decide) (by decide))
        (digit_not_mem_key _ (natDigits_headD_mem h _) _ (by decide)),
      searchKeyWordAux_skip_hf (asc "/ColorSpace") (natDigits h) _ 47 (asc "ColorSpace")
        (by decide) (natDigits_ne_47 h),
      searchKeyWordAux_skip_hf (asc "/ColorSpace") (asc " ") _ 47 (asc "ColorSpace")
        (by decide) (by decide),
      ← List.append_assoc (asc "/ColorSpace ") (asc "/DeviceGray") _,
      split_lit (asc "/ColorSpace " ++ asc "/DeviceGray") (asc "/ColorSpace")
        (asc " /DeviceGray") _ (by decide),
      split_lit (asc " /DeviceGray") (asc " /") (asc "DeviceGray") _ (by decide)]
    exact searchKeyWordAux_found _ _ _ (matchKeyWordAt_render _ _ _
      (by decide) (by decide)
      (headD_append_lit_pred isWordByte (asc " /BitsPerComponent ") _ (by decide)
        (by decide)))

/-- `/DecodeParms` lookup over the captured dictionary: absent for the
DCT (JPEG) dictionary, present with the hard-coded parameters for the
FlateDecode (PNG) dictionary. -/
lemma dictSingle_parms (w h bpc n : Nat) (cs : Bytes) (flate : Bool)
    (hcs : cs = asc "/DeviceRGB" ∨ cs = asc "/DeviceGray") :
    searchDecodeParms (dictSingle w h cs bpc flate n)
      = if flate then
          some (asc "<< /Predictor 15 /Colors 3 /BitsPerComponent 8 /Columns "
            ++ (natDigits w ++ asc " >>"))
        else none := by
  have hnoCS : ∀ i, occursAtB (asc "/ColorSpace " ++ cs) i (asc "/DecodeParms")
      = false := by
    obtain hc | hc := hcs <;> subst hc <;>
      exact no_occ_in _ _ (by decide) (by decide)
  unfold searchDecodeParms
  cases flate
  · rw [if_neg (by simp)]
    have haux : searchDecodeParmsAux (dictSingle w h cs bpc false n) = none := by
      rw [← List.append_nil (dictSingle w h cs bpc false n),
        dictSingle_append_dct,
        searchDecodeParmsAux_skip_seg (asc "/Width ") _
          (no_occ_in _ _ (by decide) (by decide))
          (digit_not_mem_key _ (natDigits_headD_mem w _) _ (by decide)),
        searchDecodeParmsAux_skip_hf (natDigits w) _ (natDigits_ne_47 w),
        searchDecodeParmsAux_skip_seg (asc " /Height ") _
          (no_occ_in _ _ (by decide) (by decide))
          (digit_not_mem_key _ (natDigits_headD_mem h _) _ (by decide)),
        searchDecodeParmsAux_skip_hf (natDigits h) _ (natDigits_ne_47 h),
        searchDecodeParmsAux_skip_hf (asc " ") _ (by decide),
        ← List.append_assoc (asc "/ColorSpace ") cs _,
        searchDecodeParmsAux_skip_seg (asc "/ColorSpace " ++ cs) _ hnoCS
          (headD_append_lit_not_mem (asc " /BitsPerComponent ") _ _ (by decide)
            (by decide)),
        searchDecodeParmsAux_skip_seg (asc " /BitsPerComponent ") _
          (no_occ_in _ _ (by decide) (by decide))
          (digit_not_mem_key _ (natDigits_headD_mem bpc _) _ (by decide)),
        searchDecodeParmsAux_skip_hf (natDigits bpc) _ (natDigits_ne_47 bpc),
        searchDecodeParmsAux_skip_hf (asc " ") _ (by decide),
        split_lit (asc "/Filter /DCTDecode ") (asc "/Filter /DCTDecode") (asc " ") _
          (by decide),
        searchDecodeParmsAux_skip_seg (asc "/Filter /DCTDecode") _
          (no_occ_in _ _ (by decide) (by decide))
          (headD_append_lit_not_mem (asc " ") _ _ (by decide) (by decide)),
        searchDecodeParmsAux_skip_hf (asc " ") _ (by decide),
        searchDecodeParmsAux_skip_seg (asc "/Length ") _
          (no_occ_in _ _ (by decide) (by decide))
          (digit_not_mem_key _ (natDigits_headD_mem n _) _ (by decide)),
        searchDecodeParmsAux_skip_hf (natDigits n) _ (natDigits_ne_47 n),
        searchDecodeParmsAux_skip_hf (asc " ") _ (by decide)]
      rfl
    rw [haux]
  · rw [if_pos rfl]
    have hC : ∀ x ∈ (asc " /Predictor 15 /Colors 3 /BitsPerComponent 8 /Columns "
        ++ (natDigits w ++ asc " ")), x ≠ 62 := by
      intro x hx
      rcases List.mem_append.1 hx with hx1 | hx1
      · have hall : ∀ y ∈ (asc " /Predictor 15 /Colors 3 /BitsPerComponent 8 /Columns "
            : Bytes), y ≠ 62 := by decide
        exact hall x hx1
      · rcases List.mem_append.1 hx1 with hx2 | hx2
        · exact natDigits_ne_62 w x hx2
        · have hall : ∀ y ∈ (asc " " : Bytes), y ≠ 62 := by decide
          exact hall x hx2
    have heq : (asc "/DecodeParms << /Predictor 15 /Colors 3 /BitsPerComponent 8 /Columns "
        : Bytes) ++ (natDigits w ++ (asc " >> " ++ (asc "/Length "
          ++ (natDigits n ++ (asc " " ++ [])))))
        = asc "/DecodeParms" ++ (asc " <<"
          ++ ((asc " /Predictor 15 /Colors 3 /BitsPerComponent 8 /Columns "
            ++ (natDigits w ++ asc " "))
          ++ (asc ">>" ++ (asc " " ++ (asc "/Length "
            ++ (natDigits n ++ (asc " " ++ []))))))) := by
      rw [show (asc "/DecodeParms << /Predictor 15 /Colors 3 /BitsPerComponent 8 /Columns "
          : Bytes) = asc "/DecodeParms" ++ (asc " <<"
            ++ asc " /Predictor 15 /Colors 3 /BitsPerComponent 8 /Columns ") from
          by decide,
        show (asc " >> " : Bytes) = asc " " ++ (asc ">>" ++ asc " ") from by decide]
      simp only [List.append_assoc]
    have haux : searchDecodeParmsAux (dictSingle w h cs bpc true n)
        = some (asc " /Predictor 15 /Colors 3 /BitsPerComponent 8 /Columns "
          ++ (natDigits w ++ asc " ")) := by
      rw [← List.append_nil (dictSingle w h cs bpc true n),
        dictSingle_append_flate,
        searchDecodeParmsAux_skip_seg (asc "/Width ") _
          (no_occ_in _ _ (by decide) (by decide))
          (digit_not_mem_key _ (natDigits_headD_mem w _) _ (by decide)),
        searchDecodeParmsAux_skip_hf (natDigits w) _ (natDigits_ne_47 w),
        searchDecodeParmsAux_skip_seg (asc " /Height ") _
          (no_occ_in _ _ (by decide) (by decide))
          (digit_not_mem_key _ (natDigits_headD_mem h _) _ (by decide)),
        searchDecodeParmsAux_skip_hf (natDigits h) _ (natDigits_ne_47 h),
        searchDecodeParmsAux_skip_hf (asc " ") _ (by decide),
        ← List.append_assoc (asc "/ColorSpace ") cs _,
        searchDecodeParmsAux_skip_seg (asc "/ColorSpace " ++ cs) _ hnoCS
          (headD_append_lit_not_mem (asc " /BitsPerComponent ") _ _ (by decide)
            (by decide)),
        searchDecodeParmsAux_skip_seg (asc " /BitsPerComponent ") _
          (no_occ_in _ _ (by decide) (by decide))
          (digit_not_mem_key _ (natDigits_headD_mem bpc _) _ (by decide)),
        searchDecodeParmsAux_skip_hf (natDigits bpc) _ (natDigits_ne_47 bpc),
        searchDecodeParmsAux_skip_hf (asc " ") _ (by decide),
        split_lit (asc "/Filter /FlateDecode ") (asc "/Filter /FlateDecode") (asc " ") _
          (by decide),
        searchDecodeParmsAux_skip_seg (asc "/Filter /FlateDecode") _
          (no_occ_in _ _ (by decide) (by decide))
          (headD_append_lit_not_mem (asc " ") _ _ (by decide) (by decide)),
        searchDecodeParmsAux_skip_hf (asc " ") _ (by decide),
        heq]
      exact searchDecodeParmsAux_found _ _ (matchDecodeParmsAt_render _ _ hC)
    rw [haux]
    show some (asc "<< "
        ++ stripWsB (asc " /Predictor 15 /Colors 3 /BitsPerComponent 8 /Columns "
          ++ (natDigits w ++ asc " "))
        ++ asc " >>")
      = some (asc "<< /Predictor 15 /Colors 3 /BitsPerComponent 8 /Columns "
        ++ (natDigits w ++ asc " >>"))
    have hstrip : stripWsB (asc " /Predictor 15 /Colors 3 /BitsPerComponent 8 /Columns "
        ++ (natDigits w ++ asc " "))
        = asc "/Predictor 15 /Colors 3 /BitsPerComponent 8 /Columns "
          ++ natDigits w := by
      rw [show (asc " /Predictor 15 /Colors 3 /BitsPerComponent 8 /Columns " : Bytes)
          = asc " " ++ asc "/Predictor 15 /Colors 3 /BitsPerComponent 8 /Columns "
          from by decide, List.append_assoc]
      exact stripWsB_render _ _ (by decide) (by decide) (natDigits_ne_nil w)
        (natDigits_digits w)
    rw [hstrip]
    rw [← List.append_assoc (asc "<< ")
      (asc "/Predictor 15 /Colors 3 /BitsPerComponent 8 /Columns ") (natDigits w),
      show (asc "<< " : Bytes)
          ++ asc "/Predictor 15 /Colors 3 /BitsPerComponent 8 /Columns "
        = asc "<< /Predictor 15 /Colors 3 /BitsPerComponent 8 /Columns " from by decide,
      List.append_assoc]

/-! ### Locating the image object and its stream in the whole document -/

lemma matchImgFull_none_of_head (b : Bytes) (h : matchImgHead b = none) :
    matchImgFull b = none := by
  unfold matchImgFull
  rw [h]
  rfl

lemma searchImgAux_cons_none (x : Nat) (r : Bytes) (p : Nat)
    (h : matchImgFull (x :: r) = none) :
    searchImgAux (x :: r) p = searchImgAux r (p + 1) := by
  rw [show searchImgAux (x :: r) p
      = (match matchImgFull (x :: r) with
        | some (_, dict, rest) => some (p, p + ((x :: r).length - rest.length), dict)
        | none => searchImgAux r (p + 1)) from rfl, h]

lemma searchImgAux_skip : ∀ (L M : Bytes) (p : Nat),
    (∀ q, q < L.length → matchImgFull ((L ++ M).drop q) = none) →
    searchImgAux (L ++ M) p = searchImgAux M (p + L.length)
  | [], M, p, _ => by rw [List.nil_append, List.length_nil, Nat.add_zero]
  | x :: L2, M, p, hnone => by
    have h0 : matchImgFull (x :: (L2 ++ M)) = none := by
      have := hnone 0 (by simp only [List.length_cons]; omega)
      rwa [List.drop_zero, List.cons_append] at this
    rw [List.cons_append, searchImgAux_cons_none _ _ _ h0,
      searchImgAux_skip L2 M (p + 1) (fun q hq => by
        have := hnone (q + 1) (by simp only [List.length_cons]; omega)
        rwa [List.cons_append, List.drop_succ_cons] at this)]
    have harith : p + 1 + L2.length = p + (x :: L2).length := by
      simp only [List.length_cons]
      omega
    rw [harith]

lemma searchImgAux_found (M : Bytes) (p : Nat) (ds dict rest : Bytes)
    (h : matchImgFull M = some (ds, dict, rest)) :
    searchImgAux M p = some (p, p + (M.length - rest.length), dict) := by
  cases M with
  | nil =>
    rw [show searchImgAux [] p
      = (match matchImgFull [] with
        | some (_, dict, rest) => some (p, p + (0 - rest.length), dict)
        | none => none) from rfl, h]
    rfl
  | cons x r =>
    rw [show searchImgAux (x :: r) p
      = (match matchImgFull (x :: r) with
        | some (_, dict, rest) => some (p, p + ((x :: r).length - rest.length), dict)
        | none => searchImgAux r (p + 1)) from rfl, h]

lemma findSubAux_here (M pat : Bytes) (p : Nat) (h : hasPfxB M pat = true) :
    findSubAux M pat p = some p := by
  unfold findSubAux
  rw [if_pos h]

lemma findSubAux_skip : ∀ (L M pat : Bytes) (p : Nat),
    (∀ q, q < L.length → hasPfxB ((L ++ M).drop q) pat = false) →
    findSubAux (L ++ M) pat p = findSubAux M pat (p + L.length)
  | [], M, pat, p, _ => by rw [List.nil_append, List.length_nil, Nat.add_zero]
  | x :: L2, M, pat, p, hno => by
    have h0 : hasPfxB (x :: (L2 ++ M)) pat = false := by
      have := hno 0 (by simp only [List.length_cons]; omega)
      rwa [List.drop_zero, List.cons_append] at this
    rw [List.cons_append]
    have hstep : findSubAux (x :: (L2 ++ M)) pat p = findSubAux (L2 ++ M) pat (p + 1) := by
      conv_lhs => unfold findSubAux
      rw [if_neg (by rw [h0]; exact Bool.false_ne_true)]
    rw [hstep,
      findSubAux_skip L2 M pat (p + 1) (fun q hq => by
        have := hno (q + 1) (by simp only [List.length_cons]; omega)
        rwa [List.cons_append, List.drop_succ_cons] at this)]
    have harith : p + 1 + L2.length = p + (x :: L2).length := by
      simp only [List.length_cons]
      omega
    rw [harith]

/-- No `>>\nstream\n` occurrence starts strictly before the genuine one
inside the image object's head and dictionary. -/
lemma no_close_before (w h bpc n : Nat) (cs : Bytes) (flate : Bool) (R : Bytes)
    (hcs : cs = asc "/DeviceRGB" ∨ cs = asc "/DeviceGray") (q : Nat)
    (hq : q < ((asc "5 0 obj\n<< /Type /XObject /Subtype /Image ")
      ++ dictSingle w h cs bpc flate n).length) :
    occursAtB ((asc "5 0 obj\n<< /Type /XObject /Subtype /Image "
        ++ dictSingle w h cs bpc flate n) ++ (asc ">>\nstream\n" ++ R)) q
      (asc ">>\nstream\n") = false := by
  have hpat : (asc ">>\nstream\n" : Bytes) = 62 :: asc ">\nstream\n" := by decide
  have hnoCS : ∀ i, occursAtB (asc "/ColorSpace " ++ cs) i (asc ">>\nstream\n")
      = false := by
    obtain hc | hc := hcs <;> subst hc <;>
      exact no_occ_in _ _ (by decide) (by decide)
  have hlCS : (asc "/ColorSpace " ++ cs).length = 12 + cs.length := by
    rw [List.length_append]
    rfl
  by_contra hocc
  rw [Bool.not_eq_false] at hocc
  rw [List.append_assoc] at hocc
  obtain ⟨h1, hocc1⟩ := occ_append_step_headfree
    (asc "5 0 obj\n<< /Type /XObject /Subtype /Image ") _ _ 62 _ hpat
    (by decide) q hocc
  rw [List.length_append] at hq
  cases flate
  · rw [dictSingle_append_dct] at hocc1
    obtain ⟨h2, hocc2⟩ := occ_append_step_headfree (asc "/Width ") _ _ 62 _ hpat
      (by decide) _ hocc1
    obtain ⟨h3, hocc3⟩ := occ_append_step_headfree (natDigits w) _ _ 62 _ hpat
      (natDigits_ne_62 w) _ hocc2
    obtain ⟨h4, hocc4⟩ := occ_append_step_headfree (asc " /Height ") _ _ 62 _ hpat
      (by decide) _ hocc3
    obtain ⟨h5, hocc5⟩ := occ_append_step_headfree (natDigits h) _ _ 62 _ hpat
      (natDigits_ne_62 h) _ hocc4
    obtain ⟨h6, hocc6⟩ := occ_append_step_headfree (asc " ") _ _ 62 _ hpat
      (by decide) _ hocc5
    rw [← List.append_assoc (asc "/ColorSpace ") cs _] at hocc6
    obtain ⟨h7, hocc7⟩ := occ_append_step (asc "/ColorSpace " ++ cs) _
      (asc ">>\nstream\n") _ hnoCS
      (headD_append_lit_not_mem (asc " /BitsPerComponent ") _ (asc ">>\nstream\n")
        (by decide) (by decide))
      hocc6
    obtain ⟨h8, hocc8⟩ := occ_append_step_headfree (asc " /BitsPerComponent ") _ _ 62 _
      hpat (by decide) _ hocc7
    obtain ⟨h9, hocc9⟩ := occ_append_step_headfree (natDigits bpc) _ _ 62 _ hpat
      (natDigits_ne_62 bpc) _ hocc8
    obtain ⟨h10, hocc10⟩ := occ_append_step_headfree (asc " ") _ _ 62 _ hpat
      (by decide) _ hocc9
    obtain ⟨h11, hocc11⟩ := occ_append_step_headfree (asc "/Filter /DCTDecode ") _ _ 62 _
      hpat (by decide) _ hocc10
    obtain ⟨h12, hocc12⟩ := occ_append_step_headfree (asc "/Length ") _ _ 62 _ hpat
      (by decide) _ hocc11
    obtain ⟨h13, hocc13⟩ := occ_append_step_headfree (natDigits n) _ _ 62 _ hpat
      (natDigits_ne_62 n) _ hocc12
    obtain ⟨h14, _⟩ := occ_append_step_headfree (asc " ") _ _ 62 _ hpat
      (by decide) _ hocc13
    have hdl := congrArg List.length (dictSingle_append_dct w h bpc n cs [])
    simp only [List.length_append, List.length_nil] at hdl
    rw [hlCS] at h7
    have hl12 : (asc "/ColorSpace " : Bytes).length = 12 := rfl
    omega
  · rw [dictSingle_append_flate] at hocc1
    obtain ⟨h2, hocc2⟩ := occ_append_step_headfree (asc "/Width ") _ _ 62 _ hpat
      (by decide) _ hocc1
    obtain ⟨h3, hocc3⟩ := occ_append_step_headfree (natDigits w) _ _ 62 _ hpat
      (natDigits_ne_62 w) _ hocc2
    obtain ⟨h4, hocc4⟩ := occ_append_step_headfree (asc " /Height ") _ _ 62 _ hpat
      (by decide) _ hocc3
    obtain ⟨h5, hocc5⟩ := occ_append_step_headfree (natDigits h) _ _ 62 _ hpat
      (natDigits_ne_62 h) _ hocc4
    obtain ⟨h6, hocc6⟩ := occ_append_step_headfree (asc " ") _ _ 62 _ hpat
      (by decide) _ hocc5
    rw [← List.append_assoc (asc "/ColorSpace ") cs _] at hocc6
    obtain ⟨h7, hocc7⟩ := occ_append_step (asc "/ColorSpace " ++ cs) _
      (asc ">>\nstream\n") _ hnoCS
      (headD_append_lit_not_mem (asc " /BitsPerComponent ") _ (asc ">>\nstream\n")
        (by decide) (by decide))
      hocc6
    obtain ⟨h8, hocc8⟩ := occ_append_step_headfree (asc " /BitsPerComponent ") _ _ 62 _
      hpat (by decide) _ hocc7
    obtain ⟨h9, hocc9⟩ := occ_append_step_headfree (natDigits bpc) _ _ 62 _ hpat
      (natDigits_ne_62 bpc) _ hocc8
    obtain ⟨h10, hocc10⟩ := occ_append_step_headfree (asc " ") _ _ 62 _ hpat
      (by decide) _ hocc9
    obtain ⟨h11, hocc11⟩ := occ_append_step_headfree (asc "/Filter /FlateDecode ") _ _ 62
      _ hpat (by decide) _ hocc10
    obtain ⟨h12, hocc12⟩ := occ_append_step_headfree
      (asc "/DecodeParms << /Predictor 15 /Colors 3 /BitsPerComponent 8 /Columns ")
      _ _ 62 _ hpat (by decide) _ hocc11
    obtain ⟨h13, hocc13⟩ := occ_append_step_headfree (natDigits w) _ _ 62 _ hpat
      (natDigits_ne_62 w) _ hocc12
    obtain ⟨h14, hocc14⟩ := occ_append_step (asc " >> ") _ (asc ">>\nstream\n") _
      (no_occ_in (asc " >> ") (asc ">>\nstream\n") (by decide) (by decide))
      (headD_append_lit_not_mem (asc "/Length ") _ (asc ">>\nstream\n")
        (by decide) (by decide))
      hocc13
    obtain ⟨h15, hocc15⟩ := occ_append_step_headfree (asc "/Length ") _ _ 62 _ hpat
      (by decide) _ hocc14
    obtain ⟨h16, hocc16⟩ := occ_append_step_headfree (natDigits n) _ _ 62 _ hpat
      (natDigits_ne_62 n) _ hocc15
    obtain ⟨h17, _⟩ := occ_append_step_headfree (asc " ") _ _ 62 _ hpat
      (by decide) _ hocc16
    have hdl := congrArg List.length (dictSingle_append_flate w h bpc n cs [])
    simp only [List.length_append, List.length_nil] at hdl
    rw [hlCS] at h7
    have hl12 : (asc "/ColorSpace " : Bytes).length = 12 := rfl
    omega

/-- One successful iteration of the extraction loop appends exactly the
record the source builds from the match. -/
lemma extractImagesLoopF_step (f : Nat) (b : Bytes) (pos srel erel w h n spos : Nat)
    (dict : Bytes) (acc : List ExtractedImage)
    (h1 : searchImgAux (b.drop pos) 0 = some (srel, erel, dict))
    (h2 : searchKeyNum (asc "/Width") dict = some w)
    (h3 : searchKeyNum (asc "/Height") dict = some h)
    (h4 : findSub b (asc ">>\nstream\n") (pos + srel) = some spos)
    (h5 : searchKeyNum (asc "/Length") dict = some n)
    (h6 : spos + 10 + n ≤ b.length)
    (h7 : 1000 < n) :
    ∃ t, extractImagesLoopF (f + 1) b pos acc
      = acc ++ (⟨(b.drop (spos + 10)).take n, w, h,
          searchKeyWord (asc "/Filter") dict == some (asc "FlateDecode"),
          searchKeyWord (asc "/Filter") dict == some (asc "DCTDecode"),
          searchKeyWord (asc "/Filter") dict,
          (searchKeyWord (asc "/ColorSpace") dict).getD (asc "DeviceRGB"),
          (searchKeyNum (asc "/BitsPerComponent") dict).getD 8,
          searchDecodeParms dict⟩ :: t) := by
  have hlen : ((b.drop (spos + 10)).take n).length = n := by
    rw [List.length_take, List.length_drop]
    omega
  have hfin : ∀ pos2 : Nat,
      ∃ t, extractImagesLoopF f b pos2
          (acc ++ [⟨(b.drop (spos + 10)).take n, w, h,
            searchKeyWord (asc "/Filter") dict == some (asc "FlateDecode"),
            searchKeyWord (asc "/Filter") dict == some (asc "DCTDecode"),
            searchKeyWord (asc "/Filter") dict,
            (searchKeyWord (asc "/ColorSpace") dict).getD (asc "DeviceRGB"),
            (searchKeyNum (asc "/BitsPerComponent") dict).getD 8,
            searchDecodeParms dict⟩])
        = acc ++ (⟨(b.drop (spos + 10)).take n, w, h,
            searchKeyWord (asc "/Filter") dict == some (asc "FlateDecode"),
            searchKeyWord (asc "/Filter") dict == some (asc "DCTDecode"),
            searchKeyWord (asc "/Filter") dict,
            (searchKeyWord (asc "/ColorSpace") dict).getD (asc "DeviceRGB"),
            (searchKeyNum (asc "/BitsPerComponent") dict).getD 8,
            searchDecodeParms dict⟩ :: t) := by
    intro pos2
    obtain ⟨t, ht⟩ := extractImagesLoopF_acc f b pos2 _
    exact ⟨t, by rw [ht, List.append_assoc]; rfl⟩
  unfold extractImagesLoopF
  rw [h1]
  try simp only []
  rw [h2, h3]
  try simp only []
  rw [h4]
  try simp only []
  rw [h5]
  try simp only []
  rw [if_neg (by omega)]
  rw [if_pos (show 0 < n by omega)]
  try simp only []
  rw [hlen, if_pos h7]
  cases hfe : findSub b (asc "endstream") (spos + 10 + n) with
  | none => exact hfin _
  | some em => exact hfin _

/-- The extractor applied to the whole single-page document built by the
writer: the first record is the embedded image, byte-for-byte, with the
dictionary values the writer rendered. -/
lemma extractImagesFromPdf_single (w h bpc : Nat) (cs payload : Bytes) (flate : Bool)
    (hcs : cs = asc "/DeviceRGB" ∨ cs = asc "/DeviceGray")
    (hbig : 1000 < payload.length) :
    ∃ t, extractImagesFromPdf ((singlePageChunks w h cs bpc flate payload).join)
      = ⟨payload, w, h, flate, !flate,
          some (if flate then asc "FlateDecode" else asc "DCTDecode"),
          cs.drop 1, bpc,
          if flate then
            some (asc "<< /Predictor 15 /Colors 3 /BitsPerComponent 8 /Columns "
              ++ (natDigits w ++ asc " >>"))
          else none⟩ :: t := by
  obtain ⟨T, hT⟩ := singlePageChunks_join w h cs bpc flate payload
  have hb : (singlePageChunks w h cs bpc flate payload).join
      = preObj5 w h ++ (asc "5 0 obj\n<< /Type /XObject /Subtype /Image "
        ++ (dictSingle w h cs bpc flate payload.length
          ++ (asc ">>\nstream\n" ++ (payload ++ (asc "\nendstream\nendobj\n" ++ T))))) := by
    rw [hT, imageObjSingle_decomp,
      show (asc "5 0 obj\n<< /Type /XObject /Subtype /Image " : Bytes)
        = asc "5 0 obj\n" ++ asc "<< /Type /XObject /Subtype /Image " from by decide]
    simp only [List.append_assoc]
  have hS5 : (asc "5 0 obj\n<< /Type /XObject /Subtype /Image "
      ++ (dictSingle w h cs bpc flate payload.length
        ++ (asc ">>\nstream\n" ++ (payload
          ++ (asc "\nendstream\nendobj\n" ++ T))))).headD 0 = 53 := by
    rw [headD_append_of_ne _ _ (by decide)]
    rfl
  have hfull : matchImgFull (asc "5 0 obj\n<< /Type /XObject /Subtype /Image "
      ++ (dictSingle w h cs bpc flate payload.length
        ++ (asc ">>\nstream\n" ++ (payload ++ (asc "\nendstream\nendobj\n" ++ T)))))
      = some (asc "5", dictSingle w h cs bpc flate payload.length,
          payload ++ (asc "\nendstream\nendobj\n" ++ T)) :=
    matchImgFull_at_obj5 w h bpc payload.length cs flate _ hcs
  have h1 : searchImgAux (((singlePageChunks w h cs bpc flate payload).join).drop 0) 0
      = some (0 + (preObj5 w h).length,
          (0 + (preObj5 w h).length)
            + ((asc "5 0 obj\n<< /Type /XObject /Subtype /Image "
              ++ (dictSingle w h cs bpc flate payload.length
                ++ (asc ">>\nstream\n" ++ (payload
                  ++ (asc "\nendstream\nendobj\n" ++ T))))).length
              - (payload ++ (asc "\nendstream\nendobj\n" ++ T)).length),
          dictSingle w h cs bpc flate payload.length) := by
    rw [List.drop_zero, hb,
      searchImgAux_skip (preObj5 w h) _ 0 (fun q hq =>
        matchImgFull_none_of_head _ (matchImgHead_none_before w h _ hS5 q hq)),
      searchImgAux_found _ _ (asc "5") _ _ hfull]
  have hdfind : findSub ((singlePageChunks w h cs bpc flate payload).join)
      (asc ">>\nstream\n") (0 + (0 + (preObj5 w h).length))
      = some ((0 + (0 + (preObj5 w h).length))
          + (asc "5 0 obj\n<< /Type /XObject /Subtype /Image "
            ++ dictSingle w h cs bpc flate payload.length).length) := by
    unfold findSub
    have hdrop : ((singlePageChunks w h cs bpc flate payload).join).drop
        (0 + (0 + (preObj5 w h).length))
        = (asc "5 0 obj\n<< /Type /XObject /Subtype /Image "
            ++ dictSingle w h cs bpc flate payload.length)
          ++ (asc ">>\nstream\n" ++ (payload ++ (asc "\nendstream\nendobj\n" ++ T))) := by
      rw [hb, show 0 + (0 + (preObj5 w h).length) = (preObj5 w h).length from by omega,
        List.drop_left, ← List.append_assoc]
    rw [hdrop,
      findSubAux_skip _ _ _ _ (fun q hq =>
        no_close_before w h bpc payload.length cs flate _ hcs q hq),
      findSubAux_here _ _ _ (hasPfxB_self_append _ _)]
  have hblen := congrArg List.length hb
  simp only [List.length_append] at hblen
  have h6 : ((0 + (0 + (preObj5 w h).length))
      + (asc "5 0 obj\n<< /Type /XObject /Subtype /Image "
        ++ dictSingle w h cs bpc flate payload.length).length) + 10 + payload.length
      ≤ ((singlePageChunks w h cs bpc flate payload).join).length := by
    rw [List.length_append]
    have hp : (asc ">>\nstream\n" : Bytes).length = 10 := rfl
    omega
  obtain ⟨t, ht⟩ := extractImagesLoopF_step
    ((singlePageChunks w h cs bpc flate payload).join).length
    ((singlePageChunks w h cs bpc flate payload).join) 0 _ _ w h payload.length _
    (dictSingle w h cs bpc flate payload.length) []
    h1
    (dictSingle_width w h bpc payload.length cs flate)
    (dictSingle_height w h bpc payload.length cs flate)
    hdfind
    (dictSingle_length w h bpc payload.length cs flate hcs)
    h6 hbig
  refine ⟨t, ?_⟩
  have hdata : (((singlePageChunks w h cs bpc flate payload).join).drop
      (((0 + (0 + (preObj5 w h).length))
        + (asc "5 0 obj\n<< /Type /XObject /Subtype /Image "
          ++ dictSingle w h cs bpc flate payload.length).length) + 10)).take
        payload.length = payload := by
    have d0 : ((singlePageChunks w h cs bpc flate payload).join).drop 0
        = preObj5 w h ++ (asc "5 0 obj\n<< /Type /XObject /Subtype /Image "
          ++ (dictSingle w h cs bpc flate payload.length
            ++ (asc ">>\nstream\n" ++ (payload
              ++ (asc "\nendstream\nendobj\n" ++ T))))) := by
      rw [List.drop_zero, hb]
    have d1 := drop_add_append _ _ _ _ d0
    have d2 := drop_add_append _ _ _ _ d1
    have d3 := drop_add_append _ _ _ _ d2
    have d4 := drop_add_append _ _ _ _ d3
    have hidx : (((0 + (0 + (preObj5 w h).length))
        + (asc "5 0 obj\n<< /Type /XObject /Subtype /Image "
          ++ dictSingle w h cs bpc flate payload.length).length) + 10)
        = (asc ">>\nstream\n" : Bytes).length
          + ((dictSingle w h cs bpc flate payload.length).length
            + ((asc "5 0 obj\n<< /Type /XObject /Subtype /Image " : Bytes).length
              + ((preObj5 w h).length + 0))) := by
      rw [List.length_append]
      have hp : (asc ">>\nstream\n" : Bytes).length = 10 := rfl
      omega
    rw [hidx, d4, List.take_left]
  have hfA : ((some (if flate then asc "FlateDecode" else asc "DCTDecode") : Option Bytes)
      == some (asc "FlateDecode")) = flate := by
    cases flate <;> decide
  have hfB : ((some (if flate then asc "FlateDecode" else asc "DCTDecode") : Option Bytes)
      == some (asc "DCTDecode")) = !flate := by
    cases flate <;> decide
  unfold extractImagesFromPdf
  rw [ht, List.nil_append, hdata,
    dictSingle_filter w h bpc payload.length cs flate hcs,
    dictSingle_colorspace w h bpc payload.length cs flate hcs,
    dictSingle_bpc w h bpc payload.length cs flate hcs,
    dictSingle_parms w h bpc payload.length cs flate hcs,
    hfA, hfB, Option.getD_some, Option.getD_some]

lemma pngColorInfo_cases (t : Nat) :
    (pngColorInfo t).1 = asc "/DeviceRGB" ∨ (pngColorInfo t).1 = asc "/DeviceGray" := by
  unfold pngColorInfo
  split
  · exact Or.inr rfl
  · split
    · exact Or.inl rfl
    · split
      · exact Or.inl rfl
      · split
        · exact Or.inr rfl
        · split
          · exact Or.inl rfl
          · exact Or.inl rfl

/-- C8 (counterexample to the unqualified claim): a valid 31-byte JPEG with
dimensions 3×2 is converted to a well-formed single-page PDF, yet the
extractor returns no images at all from those bytes (its stream is not
longer than 1000 bytes), so no dimensions can be recovered from the
extraction result. -/
theorem c8_small_image_dropped :
    getJpegDims tinyJpeg = some (3, 2)
    ∧ (convertImageToPdf tinyJpeg).isSome = true
    ∧ extractImagesFromPdf ((convertImageToPdf tinyJpeg).getD []) = [] := by
  decide

/-- C8 (amended): for a valid JPEG (SOI header, parseable dimensions) or a
valid PNG (signature, complete header, IDAT data) whose embedded stream
exceeds 1000 bytes, building the single-page PDF and then extracting images
from those bytes recovers the original payload byte-for-byte as the first
record, carrying exactly the original width and height (for JPEG, the
dimensions that `getJpegDims` decodes from the recovered payload). -/
theorem c8_roundtrip_characterization :
    (∀ img w h, img.take 2 = [0xFF, 0xD8] → getJpegDims img = some (w, h) →
      1000 < img.length →
      ∃ pdf t, convertImageToPdf img = some pdf
        ∧ extractImagesFromPdf pdf
          = ⟨img, w, h, false, true, some (asc "DCTDecode"), asc "DeviceRGB", 8,
              none⟩ :: t)
    ∧ (∀ img idat, img.take 8 = pngSig → 26 ≤ img.length →
        extractPngIdat img = some idat → 1000 < idat.length →
      ∃ pdf t, convertImageToPdf img = some pdf
        ∧ extractImagesFromPdf pdf
          = ⟨idat, u32be img 16, u32be img 20, true, false, some (asc "FlateDecode"),
              ((pngColorInfo (img.getD 25 0)).1).drop 1, img.getD 24 0,
              some (asc "<< /Predictor 15 /Colors 3 /BitsPerComponent 8 /Columns "
                ++ (natDigits (u32be img 16) ++ asc " >>"))⟩ :: t) := by
  constructor
  · intro img w h hjpg hdims hbig
    have hne : img ≠ [] := by
      intro he
      rw [he] at hjpg
      exact absurd hjpg (by decide)
    have hconv : convertImageToPdf img
        = some ((singlePageChunks w h (asc "/DeviceRGB") 8 false img).join) := by
      unfold convertImageToPdf
      rw [if_neg hne, if_pos hjpg, hdims]
    obtain ⟨t, ht⟩ := extractImagesFromPdf_single w h 8 (asc "/DeviceRGB") img false
      (Or.inl rfl) hbig
    refine ⟨_, t, hconv, ?_⟩
    rw [ht]
    rfl
  · intro img idat hpng hlen hidat hbig
    have hne : img ≠ [] := by
      intro he
      rw [he] at hpng
      exact absurd hpng (by decide)
    have h2 : img.take 2 = [137, 80] := by
      have h := congrArg (List.take 2) hpng
      rw [List.take_take] at h
      exact h
    have hnjpg : ¬ img.take 2 = [0xFF, 0xD8] := by
      rw [h2]
      decide
    have hconv : convertImageToPdf img
        = some ((singlePageChunks (u32be img 16) (u32be img 20)
            (pngColorInfo (img.getD 25 0)).1 (img.getD 24 0) true idat).join) := by
      unfold convertImageToPdf
      rw [if_neg hne, if_neg hnjpg, if_pos hpng, if_neg (by omega), hidat]
    obtain ⟨t, ht⟩ := extractImagesFromPdf_single (u32be img 16) (u32be img 20)
      (img.getD 24 0) ((pngColorInfo (img.getD 25 0)).1) idat true
      (pngColorInfo_cases (img.getD 25 0)) hbig
    refine ⟨_, t, hconv, ?_⟩
    rw [ht]
    rfl

/-- C8 witness: both legs at concrete images — an 1211-byte 3×2 JPEG and a
2×3 grayscale PNG with a 1001-byte IDAT payload. -/
theorem c8_roundtrip_characterization_witness :
    (∃ pdf t, convertImageToPdf bigJpeg = some pdf
      ∧ extractImagesFromPdf pdf
        = ⟨bigJpeg, 3, 2, false, true, some (asc "DCTDecode"), asc "DeviceRGB", 8,
            none⟩ :: t)
    ∧ (∃ pdf t, convertImageToPdf bigGrayPng = some pdf
      ∧ extractImagesFromPdf pdf
        = ⟨List.replicate 1001 0x42, u32be bigGrayPng 16, u32be bigGrayPng 20, true,
            false, some (asc "FlateDecode"),
            ((pngColorInfo (bigGrayPng.getD 25 0)).1).drop 1, bigGrayPng.getD 24 0,
            some (asc "<< /Predictor 15 /Colors 3 /BitsPerComponent 8 /Columns "
              ++ (natDigits (u32be bigGrayPng 16) ++ asc " >>"))⟩ :: t) :=
  ⟨c8_roundtrip_characterization.1 bigJpeg 3 2 (by decide) (by decide) (by decide),
   c8_roundtrip_characterization.2 bigGrayPng (List.replicate 1001 0x42) (by decide)
     (by decide) (by decide) (by decide)⟩

end DocFlow
